import Mathlib

/-! # lwIP operating-system abstraction layer (`sys_arch.c`)

A shallow embedding of the mailbox, semaphore and timing code of the three
back ends of `contrib/ports/xilinx/sys_arch.c`, and theorems about it.

Conventions of the embedding

* `u32_t` / `OS_TICK` values are natural numbers below `2^32`; every C
  expression that can leave the range is reduced `% U32` explicitly.
* `void *` messages are natural numbers, `NULL` is `0`.
* A call is run in a single-threaded world: no other thread runs while a
  call is in progress.  A call that would then wait for ever on a semaphore
  nobody posts is reported as `Call.blocks`.
* Reads of the tick counter are inputs of the model.
-/

/-- Number of values of a 32-bit unsigned integer. -/
def U32 : Nat := 4294967296

/-- Number of values of a 16-bit unsigned integer. -/
def U16 : Nat := 65536

/-- The lwIP error code `ERR_OK`. -/
def ERR_OK : Int := 0

/-- The lwIP error code `ERR_MEM`. -/
def ERR_MEM : Int := -1

/-- The lwIP time-out sentinel `SYS_ARCH_TIMEOUT`. -/
def SYS_ARCH_TIMEOUT : Nat := 0xffffffff

/-- The lwIP empty-mailbox sentinel `SYS_MBOX_EMPTY` (defined as `SYS_ARCH_TIMEOUT`). -/
def SYS_MBOX_EMPTY : Nat := SYS_ARCH_TIMEOUT

/-- Outcome of a call in the single-threaded world: it returns a value, or it
waits for ever. -/
inductive Call (α : Type) where
  | returns (a : α)
  | blocks
  deriving DecidableEq

namespace Xilkernel

/-- The constant `SYS_MBOX_SIZE` of `arch/sys_arch.h`. -/
def SYS_MBOX_SIZE : Nat := 500

/-- Modelled from the spec: `sem_post` of xilkernel (not among the sources);
"increments count". A semaphore is represented by its count. -/
def sem_post (s : Nat) : Nat := s + 1

/-- Modelled from the spec: `sem_trywait` of xilkernel (not among the sources);
decrements a positive count and returns 0, returns -1 on a zero count. -/
def sem_trywait (s : Nat) : Int × Nat :=
  if s = 0 then (-1, s) else (0, s - 1)

/-- Modelled from the spec: `sem_timedwait` of xilkernel (not among the
sources); "decrements on success; blocks-with-deadline while count is zero".
Nobody signals during the wait, so a zero count ends in the time-out result
(non-zero); a wait that another thread's post ends is, in `fetch_loop_env`,
a call that finds the count already raised by that post. -/
def sem_timedwait (s : Nat) (_ms : Nat) : Int × Nat :=
  if s = 0 then (-1, s) else (0, s - 1)

/-- Modelled from the spec: `sem_wait` of xilkernel (not among the sources);
"decrements on success; blocks while count is zero". Nobody signals during
the wait, so a zero count blocks for ever. -/
def sem_wait (s : Nat) : Call (Int × Nat) :=
  if s = 0 then Call.blocks else Call.returns (0, s - 1)

/-- The record `struct sys_mbox_s`; the two `sem_t` fields hold the counts of
the semaphores they name. -/
structure sys_mbox_s where
  used : Nat
  first : Nat
  last : Nat
  msgs : Nat → Nat
  mail : Nat
  mutex : Nat

/-- Array store `a[i] = v`. -/
def store (a : Nat → Nat) (i v : Nat) : Nat → Nat :=
  fun j => if j = i then v else a j

/-- The global data of the xilkernel port: the table `lwip_mbox` and the
counter `SemaphoreCnt`. -/
structure Globals where
  lwip_mbox : List sys_mbox_s
  SemaphoreCnt : Int

/-- The function `sys_mbox_new`. `mbox` is the caller's object before the
call; `mail_ok` and `mutex_ok` say whether the two `sem_init` calls succeed.
Returns the error code, the caller's object and the globals after the call. -/
def sys_mbox_new (g : Globals) (mbox : sys_mbox_s) (size : Int)
    (mail_ok mutex_ok : Bool) : Int × sys_mbox_s × Globals :=
  if size > (SYS_MBOX_SIZE : Int) then (ERR_MEM, mbox, g)
  else
    match g.lwip_mbox.find? (fun m => m.used == 0) with
    | none => (ERR_MEM, mbox, g)
    | some slot =>
      -- memcpy(mbox, &lwip_mbox[i], sizeof(sys_mbox_t)); first = last = 0
      let mbox1 : sys_mbox_s := { slot with first := 0, last := 0 }
      if !mail_ok then (ERR_MEM, mbox1, g)
      else
        let mbox2 : sys_mbox_s := { mbox1 with mail := 0 }
        let g1 : Globals := { g with SemaphoreCnt := g.SemaphoreCnt + 1 }
        if !mutex_ok then (ERR_MEM, mbox2, g1)
        else
          let g2 : Globals := { g1 with SemaphoreCnt := g1.SemaphoreCnt + 1 }
          (ERR_OK, { mbox2 with mutex := 1, used := 1 }, g2)

/-- The statements of `sys_mbox_post` / `sys_mbox_trypost` that run once the
mutex is held: store at `last`, advance `last` with wrap at `SYS_MBOX_SIZE`,
signal `mail`, release `mutex`. -/
def post_body (mbox : sys_mbox_s) (msg : Nat) : sys_mbox_s :=
  let mbox1 : sys_mbox_s := { mbox with msgs := store mbox.msgs mbox.last msg }
  let mbox2 : sys_mbox_s := { mbox1 with last := (mbox1.last + 1) % U16 }
  let mbox3 : sys_mbox_s :=
    if mbox2.last = SYS_MBOX_SIZE then { mbox2 with last := 0 } else mbox2
  let mbox4 : sys_mbox_s := { mbox3 with mail := sem_post mbox3.mail }
  { mbox4 with mutex := sem_post mbox4.mutex }

/-- The function `sys_mbox_post`. -/
def sys_mbox_post (mbox : sys_mbox_s) (msg : Nat) : Call sys_mbox_s :=
  match sem_wait mbox.mutex with
  | Call.blocks => Call.blocks
  | Call.returns (r, mutex1) =>
    if r ≠ 0 then Call.returns { mbox with mutex := mutex1 }
    else Call.returns (post_body { mbox with mutex := mutex1 } msg)

/-- The function `sys_mbox_trypost`: error code and mailbox after the call. -/
def sys_mbox_trypost (mbox : sys_mbox_s) (msg : Nat) : Int × sys_mbox_s :=
  match sem_trywait mbox.mutex with
  | (r, mutex1) =>
    if r < 0 then (ERR_MEM, { mbox with mutex := mutex1 })
    else (ERR_OK, post_body { mbox with mutex := mutex1 } msg)

/-- The macro `TICKS_TO_MS`, in 32-bit arithmetic; `SYS_MSPERTICK` is
`SYSTMR_INTERVAL/SYSTMR_CLK_FREQ_KHZ`, two constants of the board support
package. -/
def TICKS_TO_MS (SYS_MSPERTICK x : Nat) : Nat := (x * SYS_MSPERTICK) % U32

/-- The function `sys_arch_sem_wait`; `ticks` and `nticks` are the values the
two calls of `xget_clock_ticks` return. Result: return value and semaphore
count. -/
def sys_arch_sem_wait (SYS_MSPERTICK : Nat) (sem : Nat) (timeout : Nat)
    (ticks nticks : Nat) : Call (Nat × Nat) :=
  if timeout ≠ 0 then
    match sem_timedwait sem timeout with
    | (r, sem1) =>
      if r = 0 then
        if nticks ≥ ticks then
          Call.returns (TICKS_TO_MS SYS_MSPERTICK ((nticks - ticks) % U32), sem1)
        else
          Call.returns
            (TICKS_TO_MS SYS_MSPERTICK (((0xffffffff - ticks) + nticks) % U32), sem1)
      else Call.returns (SYS_ARCH_TIMEOUT, sem1)
  else
    match sem_wait sem with
    | Call.blocks => Call.blocks
    | Call.returns (_, sem1) => Call.returns (0, sem1)

/-- How the wait loop of `sys_arch_mbox_fetch` is left. -/
inductive LoopExit where
  /-- The value `SYS_ARCH_TIMEOUT` is returned from inside the loop. -/
  | timeout (mbox : sys_mbox_s)
  /-- The loop condition is false; the mutex is held. -/
  | done (mbox : sys_mbox_s) (start_ticks stop_ticks : Nat)
  /-- A semaphore wait never returns. -/
  | blocks

/-- The `while (mbox->first == mbox->last)` loop of `sys_arch_mbox_fetch`,
entered with the mutex held. `clock k` is the value of the `k`-th call of
`xget_clock_ticks`. Every iteration that does not leave the function takes
one unit from `mail`, so `fuel = mail + 1` iterations are always enough;
`none` means the fuel ran out. -/
def fetch_loop (clock : Nat → Nat) (timeout : Nat) :
    Nat → Nat → sys_mbox_s → Nat → Nat → Option LoopExit
  | 0, _, _, _, _ => none
  | fuel + 1, k, mbox, start_ticks, stop_ticks =>
    if mbox.first = mbox.last then
      let mbox1 : sys_mbox_s := { mbox with mutex := sem_post mbox.mutex }
      if timeout ≠ 0 then
        let start1 := clock k % U32
        match sem_timedwait mbox1.mail timeout with
        | (r, mail1) =>
          if r ≠ 0 then some (LoopExit.timeout { mbox1 with mail := mail1 })
          else
            let stop1 := clock (k + 1) % U32
            match sem_wait mbox1.mutex with
            | Call.blocks => some LoopExit.blocks
            | Call.returns (_, mutex1) =>
              fetch_loop clock timeout fuel (k + 2)
                { mbox1 with mail := mail1, mutex := mutex1 } start1 stop1
      else
        match sem_wait mbox1.mail with
        | Call.blocks => some LoopExit.blocks
        | Call.returns (_, mail1) =>
          match sem_wait mbox1.mutex with
          | Call.blocks => some LoopExit.blocks
          | Call.returns (_, mutex1) =>
            fetch_loop clock timeout fuel k
              { mbox1 with mail := mail1, mutex := mutex1 } start_ticks stop_ticks
    else some (LoopExit.done mbox start_ticks stop_ticks)

/-- The closing statements of `sys_arch_mbox_fetch` ("find out how much time
it took us"): the elapsed ticks of the two samples, scaled by `TICKS_TO_MS`. -/
def fetch_elapsed (SYS_MSPERTICK start_ticks stop_ticks : Nat) : Nat :=
  let ticks :=
    if stop_ticks ≥ start_ticks then (stop_ticks - start_ticks) % U32
    else ((0xffffffff - start_ticks) + stop_ticks) % U32
  TICKS_TO_MS SYS_MSPERTICK ticks

/-- What a returned `sys_arch_mbox_fetch` leaves behind: the return value, the
value stored through `msg` (if any) and the mailbox. -/
structure FetchRet where
  ret : Nat
  msg : Option Nat
  mbox : sys_mbox_s

/-- The function `sys_arch_mbox_fetch`. `has_msg` says whether the argument
`msg` is non-NULL. The outer `none` (loop fuel exhausted) never occurs, see
`sys_arch_mbox_fetch_total`. -/
def sys_arch_mbox_fetch (SYS_MSPERTICK : Nat) (clock : Nat → Nat)
    (mbox : sys_mbox_s) (has_msg : Bool) (timeout : Nat) : Option (Call FetchRet) :=
  match sem_wait mbox.mutex with
  | Call.blocks => some Call.blocks
  | Call.returns (_, mutex1) =>
    match fetch_loop clock timeout (mbox.mail + 1) 0 { mbox with mutex := mutex1 } 0 0 with
    | none => none
    | some LoopExit.blocks => some Call.blocks
    | some (LoopExit.timeout mbox1) =>
      some (Call.returns { ret := SYS_ARCH_TIMEOUT, msg := none, mbox := mbox1 })
    | some (LoopExit.done mbox1 start_ticks stop_ticks) =>
      let out : Option Nat := if has_msg then some (mbox1.msgs mbox1.first) else none
      let mbox2 : sys_mbox_s := { mbox1 with first := (mbox1.first + 1) % U16 }
      let mbox3 : sys_mbox_s :=
        if mbox2.first = SYS_MBOX_SIZE then { mbox2 with first := 0 } else mbox2
      let mbox4 : sys_mbox_s := { mbox3 with mutex := sem_post mbox3.mutex }
      some (Call.returns
        { ret := fetch_elapsed SYS_MSPERTICK start_ticks stop_ticks, msg := out, mbox := mbox4 })

/-- The function `sys_arch_mbox_tryfetch`. -/
def sys_arch_mbox_tryfetch (SYS_MSPERTICK : Nat) (clock : Nat → Nat)
    (mbox : sys_mbox_s) (has_msg : Bool) : Option (Call FetchRet) :=
  sys_arch_mbox_fetch SYS_MSPERTICK clock mbox has_msg 1

/-- The index after `i++; if (i == SYS_MBOX_SIZE) i = 0;` on a 16-bit index. -/
def advance (i : Nat) : Nat :=
  if (i + 1) % U16 = SYS_MBOX_SIZE then 0 else (i + 1) % U16

/-- One call of the mailbox interface. -/
inductive MboxCall where
  | post (msg : Nat)
  | trypost (msg : Nat)
  | fetch (has_msg : Bool) (timeout : Nat)
  | tryfetch (has_msg : Bool)

/-- The mailbox after one call, `none` when the call does not return. -/
def call_step (SYS_MSPERTICK : Nat) (clock : Nat → Nat) (m : sys_mbox_s) :
    MboxCall → Option sys_mbox_s
  | MboxCall.post x =>
    match sys_mbox_post m x with
    | Call.returns m1 => some m1
    | Call.blocks => none
  | MboxCall.trypost x => some (sys_mbox_trypost m x).2
  | MboxCall.fetch h t =>
    match sys_arch_mbox_fetch SYS_MSPERTICK clock m h t with
    | some (Call.returns r) => some r.mbox
    | _ => none
  | MboxCall.tryfetch h =>
    match sys_arch_mbox_tryfetch SYS_MSPERTICK clock m h with
    | some (Call.returns r) => some r.mbox
    | _ => none

/-- The mailbox after a sequence of calls made one after the other. -/
def run_calls (SYS_MSPERTICK : Nat) (clock : Nat → Nat) :
    sys_mbox_s → List MboxCall → Option sys_mbox_s
  | m, [] => some m
  | m, c :: cs =>
    match call_step SYS_MSPERTICK clock m c with
    | none => none
    | some m1 => run_calls SYS_MSPERTICK clock m1 cs

/-- The number of occupied slots that `first` and `last` stand for. -/
def occupied (m : sys_mbox_s) : Nat :=
  if m.last ≥ m.first then m.last - m.first else SYS_MBOX_SIZE - m.first + m.last

/-- Posts the messages of a list with `sys_mbox_trypost`, one after the other:
the error codes and the mailbox at the end. -/
def trypost_all : sys_mbox_s → List Nat → List Int × sys_mbox_s
  | m, [] => ([], m)
  | m, x :: xs =>
    ((sys_mbox_trypost m x).1 :: (trypost_all (sys_mbox_trypost m x).2 xs).1,
      (trypost_all (sys_mbox_trypost m x).2 xs).2)

/-- A zero-filled `struct sys_mbox_s`, as the static table `lwip_mbox` holds
after `sys_init`. -/
def zero_mbox : sys_mbox_s :=
  { used := 0, first := 0, last := 0, msgs := fun _ => 0, mail := 0, mutex := 0 }

/-- The static data before `sys_init`: a zero-filled table of `n` (the constant
`SYS_MBOX_MAX`) mailboxes. -/
def boot (n : Nat) : Globals :=
  { lwip_mbox := List.replicate n zero_mbox, SemaphoreCnt := 0 }

/-- The mailbox part of the function `sys_init`. -/
def sys_init (g : Globals) : Globals :=
  { g with lwip_mbox := g.lwip_mbox.map (fun m => { m with used := 0 }) }

/-- The caller's mailbox after `sys_mbox_new(mbox, size)` on a freshly
initialised system with one table entry, both `sem_init` calls succeeding. -/
def new_mbox (size : Int) : sys_mbox_s :=
  (sys_mbox_new (sys_init (boot 1)) zero_mbox size true true).2.1

/-- The `n` entries of the array `msgs` from index `first` on, wrapping at
`SYS_MBOX_SIZE`. -/
def ring_list (msgs : Nat → Nat) (first n : Nat) : List Nat :=
  (List.range n).map (fun i => msgs ((first + i) % SYS_MBOX_SIZE))

/-- The messages that `first` and `last` stand for, oldest first. -/
def pending (m : sys_mbox_s) : List Nat := ring_list m.msgs m.first (occupied m)

/-- What a caller sees of one call: a post returned, a try-post returned an
error code, a fetch returned a value and stored a message (or not). -/
inductive Obs where
  | post_done
  | trypost_ret (err : Int)
  | fetch_ret (ret : Nat) (msg : Option Nat)
  deriving DecidableEq

/-- What the callers see of a sequence of calls of the code made one after the
other, and the mailbox at the end; `none` when a call does not return. -/
def run_obs (SYS_MSPERTICK : Nat) (clock : Nat → Nat) :
    sys_mbox_s → List MboxCall → Option (List Obs × sys_mbox_s)
  | m, [] => some ([], m)
  | m, MboxCall.post x :: cs =>
    match sys_mbox_post m x with
    | Call.blocks => none
    | Call.returns m1 =>
      (run_obs SYS_MSPERTICK clock m1 cs).map (fun p => (Obs.post_done :: p.1, p.2))
  | m, MboxCall.trypost x :: cs =>
    (run_obs SYS_MSPERTICK clock (sys_mbox_trypost m x).2 cs).map
      (fun p => (Obs.trypost_ret (sys_mbox_trypost m x).1 :: p.1, p.2))
  | m, MboxCall.fetch h t :: cs =>
    match sys_arch_mbox_fetch SYS_MSPERTICK clock m h t with
    | some (Call.returns r) =>
      (run_obs SYS_MSPERTICK clock r.mbox cs).map (fun p => (Obs.fetch_ret r.ret r.msg :: p.1, p.2))
    | _ => none
  | m, MboxCall.tryfetch h :: cs =>
    match sys_arch_mbox_tryfetch SYS_MSPERTICK clock m h with
    | some (Call.returns r) =>
      (run_obs SYS_MSPERTICK clock r.mbox cs).map (fun p => (Obs.fetch_ret r.ret r.msg :: p.1, p.2))
    | _ => none

/-- Second definition, from the words of the spec and not from the code: the
mailbox as "a bounded FIFO queue" of capacity `cap` holding the list `q`,
oldest message first. A post appends at the tail, a fetch takes the head and
returns without having waited (value 0). The result is `none` outside the
setting of the FIFO property: a post with `cap` messages pending, or a fetch
with none pending. -/
def fifo_obs (cap : Nat) : List Nat → List MboxCall → Option (List Obs × List Nat)
  | q, [] => some ([], q)
  | q, MboxCall.post x :: cs =>
    if q.length < cap then
      (fifo_obs cap (q ++ [x]) cs).map (fun p => (Obs.post_done :: p.1, p.2))
    else none
  | q, MboxCall.trypost x :: cs =>
    if q.length < cap then
      (fifo_obs cap (q ++ [x]) cs).map (fun p => (Obs.trypost_ret ERR_OK :: p.1, p.2))
    else none
  | [], MboxCall.fetch _ _ :: _ => none
  | y :: q, MboxCall.fetch h _ :: cs =>
    (fifo_obs cap q cs).map
      (fun p => (Obs.fetch_ret 0 (if h then some y else none) :: p.1, p.2))
  | [], MboxCall.tryfetch _ :: _ => none
  | y :: q, MboxCall.tryfetch h :: cs =>
    (fifo_obs cap q cs).map
      (fun p => (Obs.fetch_ret 0 (if h then some y else none) :: p.1, p.2))

/-- The return value of a fetch that returned. -/
def ret_of : Option (Call FetchRet) → Option Nat
  | some (Call.returns r) => some r.ret
  | _ => none

/-- The value a fetch that returned stored through `msg`. -/
def msg_of : Option (Call FetchRet) → Option Nat
  | some (Call.returns r) => r.msg
  | _ => none

end Xilkernel

namespace UcosIII

/-- The error codes of uC/OS-III that the port can meet. -/
inductive OS_ERR where
  | OS_ERR_NONE
  | OS_ERR_Q_MAX
  | OS_ERR_Q_SIZE
  | OS_ERR_PEND_WOULD_BLOCK
  | OS_ERR_TIMEOUT
  | OS_ERR_MEM_NO_FREE_BLKS
  | OS_ERR_CREATE_ISR
  | OS_ERR_PRIO_INVALID
  deriving DecidableEq

/-- The pend options the port passes. -/
inductive OS_OPT_PEND where
  | OS_OPT_PEND_BLOCKING
  | OS_OPT_PEND_NON_BLOCKING
  deriving DecidableEq

/-- Modelled from the spec: the kernel object `OS_Q` (uC/OS-III is not among
the sources), "a bounded FIFO message queue": the size given to `OSQCreate`
and the pending messages, oldest first. -/
structure OS_Q where
  max_qty : Nat
  entries : List Nat
  deriving DecidableEq

/-- Modelled from the spec: `OSQCreate` (not among the sources): an empty
bounded FIFO of `max_qty` entries; a size of zero is refused. -/
def OSQCreate (max_qty : Nat) : Option OS_Q × OS_ERR :=
  if max_qty = 0 then (none, OS_ERR.OS_ERR_Q_SIZE)
  else (some { max_qty := max_qty, entries := [] }, OS_ERR.OS_ERR_NONE)

/-- Modelled from the spec: `OSQPost` with `OS_OPT_POST_FIFO` (not among the
sources): never blocks; appends at the tail, or reports `OS_ERR_Q_MAX` and
leaves a full queue as it is. -/
def OSQPost (q : OS_Q) (p_void : Nat) : OS_Q × OS_ERR :=
  if q.entries.length ≥ q.max_qty then (q, OS_ERR.OS_ERR_Q_MAX)
  else ({ q with entries := q.entries ++ [p_void] }, OS_ERR.OS_ERR_NONE)

/-- Modelled from the spec: `OSQPend` (not among the sources): returns the
oldest message; on an empty queue a non-blocking pend returns NULL with
`OS_ERR_PEND_WOULD_BLOCK`, a blocking pend with a deadline returns NULL with
`OS_ERR_TIMEOUT` once the deadline passes (nobody posts meanwhile), and a
blocking pend without deadline (`timeout = 0`) waits for ever. -/
def OSQPend (q : OS_Q) (timeout : Nat) (opt : OS_OPT_PEND) : Call (Nat × OS_ERR × OS_Q) :=
  match q.entries with
  | m :: rest => Call.returns (m, OS_ERR.OS_ERR_NONE, { q with entries := rest })
  | [] =>
    match opt with
    | OS_OPT_PEND.OS_OPT_PEND_NON_BLOCKING =>
      Call.returns (0, OS_ERR.OS_ERR_PEND_WOULD_BLOCK, q)
    | OS_OPT_PEND.OS_OPT_PEND_BLOCKING =>
      if timeout = 0 then Call.blocks else Call.returns (0, OS_ERR.OS_ERR_TIMEOUT, q)

/-- Modelled from the spec: the kernel object `OS_SEM` (not among the
sources): "an integer count (0 or more)". -/
structure OS_SEM where
  ctr : Nat
  deriving DecidableEq

/-- Modelled from the spec: `OSSemPend` (not among the sources): "decrements
on success"; on a zero count a non-blocking pend reports
`OS_ERR_PEND_WOULD_BLOCK`, a blocking pend with a deadline reports
`OS_ERR_TIMEOUT` (nobody signals meanwhile) and a blocking pend without
deadline waits for ever. -/
def OSSemPend (sem : OS_SEM) (timeout : Nat) (opt : OS_OPT_PEND) : Call (OS_ERR × OS_SEM) :=
  if sem.ctr ≠ 0 then Call.returns (OS_ERR.OS_ERR_NONE, { sem with ctr := sem.ctr - 1 })
  else
    match opt with
    | OS_OPT_PEND.OS_OPT_PEND_NON_BLOCKING =>
      Call.returns (OS_ERR.OS_ERR_PEND_WOULD_BLOCK, sem)
    | OS_OPT_PEND.OS_OPT_PEND_BLOCKING =>
      if timeout = 0 then Call.blocks else Call.returns (OS_ERR.OS_ERR_TIMEOUT, sem)

/-- Modelled from the spec: a memory partition `OS_MEM` (not among the
sources): "an arena of fixed-size slots with an explicit free-list"; the
list holds the addresses of the free blocks, none of them NULL. -/
structure OS_MEM where
  free : List Nat
  deriving DecidableEq

/-- Modelled from the spec: `OSMemGet` (not among the sources): "acquire
returns an index or exhaustion error". -/
def OSMemGet (pool : OS_MEM) : Nat × OS_ERR × OS_MEM :=
  match pool.free with
  | [] => (0, OS_ERR.OS_ERR_MEM_NO_FREE_BLKS, pool)
  | b :: rest => (b, OS_ERR.OS_ERR_NONE, { pool with free := rest })

/-- Modelled from the spec: `OSMemPut` (not among the sources): "release
returns the index to the free-list". -/
def OSMemPut (pool : OS_MEM) (blk : Nat) : OS_MEM :=
  { pool with free := blk :: pool.free }

/-- The function `sys_mbox_new`: error code, the handle `*pxMailBox` after the
call (an address, 0 for NULL), the queue object created at that address (if
any) and the pool `sys_arch_mbox_mem_pool`. The `int` size is converted to
the 16-bit `OS_MSG_QTY` parameter of `OSQCreate`. -/
def sys_mbox_new (pool : OS_MEM) (iSize : Int) : Int × Nat × Option OS_Q × OS_MEM :=
  match OSMemGet pool with
  | (p, _, pool1) =>
    if p = 0 then (ERR_MEM, p, none, pool1)
    else
      match OSQCreate (iSize % (U16 : Int)).toNat with
      | (q, err) =>
        if err = OS_ERR.OS_ERR_NONE then (ERR_OK, p, q, pool1)
        else (ERR_MEM, p, none, OSMemPut pool1 p)

/-- The function `sys_mbox_post`: the error of `OSQPost` is not looked at. -/
def sys_mbox_post (q : OS_Q) (pxMessageToPost : Nat) : OS_Q :=
  (OSQPost q pxMessageToPost).1

/-- The function `sys_mbox_trypost`. -/
def sys_mbox_trypost (q : OS_Q) (pxMessageToPost : Nat) : Int × OS_Q :=
  match OSQPost q pxMessageToPost with
  | (q1, err) => if err ≠ OS_ERR.OS_ERR_NONE then (ERR_MEM, q1) else (ERR_OK, q1)

/-- Conversion of a `double` holding the whole number `v` to the 32-bit
`OS_TICK`. C leaves the result undefined when `v` does not fit; `ub` stands
for whatever value the target then produces. -/
def double_to_OS_TICK (ub v : Nat) : Nat :=
  if v < U32 then v else ub % U32

/-- The elapsed-tick expressions of `sys_arch_sem_wait` and
`sys_arch_mbox_fetch` before they are scaled: `pow(2, sizeof(OS_TICK)*8) -
xStartTime + xEndTime` (computed in `double`, exactly) when the counter
wrapped, `xEndTime - xStartTime` otherwise. -/
def elapsed_ticks (xStartTime xEndTime : Nat) : Nat :=
  if xEndTime < xStartTime then 2 ^ 32 - xStartTime + xEndTime
  else (xEndTime - xStartTime) % U32

/-- The success branch shared verbatim by `sys_arch_sem_wait` and
`sys_arch_mbox_fetch`: elapsed ticks times `1000 / OS_CFG_TICK_RATE_HZ`
(`hz`), the wrapped case through `double`, the other in 32-bit arithmetic,
and a zero result replaced by 1. -/
def elapsed_ms (hz ub xStartTime xEndTime : Nat) : Nat :=
  let xElapsed :=
    if xEndTime < xStartTime then
      double_to_OS_TICK ub (elapsed_ticks xStartTime xEndTime * (1000 / hz))
    else (elapsed_ticks xStartTime xEndTime * (1000 / hz)) % U32
  if xElapsed = 0 then 1 else xElapsed

/-- The tick time-out and option that `sys_arch_sem_wait` and
`sys_arch_mbox_fetch` hand to the kernel pend call. -/
def pend_args (hz ulTimeout : Nat) : Nat × OS_OPT_PEND :=
  if ulTimeout ≠ 0 then
    if ((ulTimeout * hz) % U32) / 1000 = 0 then (1, OS_OPT_PEND.OS_OPT_PEND_NON_BLOCKING)
    else (((ulTimeout * hz) % U32) / 1000, OS_OPT_PEND.OS_OPT_PEND_NON_BLOCKING)
  else (0, OS_OPT_PEND.OS_OPT_PEND_BLOCKING)

/-- What a returned fetch leaves behind: the return value, the value stored
through `ppvBuffer` when that is not NULL, and the queue. -/
structure FetchRet where
  ret : Nat
  msg : Option Nat
  q : OS_Q
  deriving DecidableEq

/-- The function `sys_arch_mbox_fetch`. `has_buf` says whether `ppvBuffer` is
non-NULL; `xStartTime` and `xEndTime` are the values of the two `OSTimeGet`
calls. -/
def sys_arch_mbox_fetch (hz ub : Nat) (q : OS_Q) (has_buf : Bool) (ulTimeOut : Nat)
    (xStartTime xEndTime : Nat) : Call FetchRet :=
  match OSQPend q (pend_args hz ulTimeOut).1 (pend_args hz ulTimeOut).2 with
  | Call.blocks => Call.blocks
  | Call.returns (p, _, q1) =>
    let out : Option Nat := if has_buf then some p else none
    if p = 0 then Call.returns { ret := SYS_ARCH_TIMEOUT, msg := out, q := q1 }
    else Call.returns { ret := elapsed_ms hz ub xStartTime xEndTime, msg := out, q := q1 }

/-- The function `sys_arch_mbox_tryfetch`. -/
def sys_arch_mbox_tryfetch (q : OS_Q) (has_buf : Bool) : Call FetchRet :=
  match OSQPend q 0 OS_OPT_PEND.OS_OPT_PEND_NON_BLOCKING with
  | Call.blocks => Call.blocks
  | Call.returns (p, _, q1) =>
    let out : Option Nat := if has_buf then some p else none
    if p = 0 then Call.returns { ret := SYS_MBOX_EMPTY, msg := out, q := q1 }
    else Call.returns { ret := ERR_OK.toNat, msg := out, q := q1 }

/-- The number of ticks from the sample `s` to the sample `e` of the 32-bit
tick counter, the counter having wrapped at most once in between. -/
def tick_distance (s e : Nat) : Nat := (e + U32 - s) % U32

/-- The function `sys_arch_sem_wait`: return value and semaphore. -/
def sys_arch_sem_wait (hz ub : Nat) (sem : OS_SEM) (ulTimeout : Nat)
    (xStartTime xEndTime : Nat) : Call (Nat × OS_SEM) :=
  match OSSemPend sem (pend_args hz ulTimeout).1 (pend_args hz ulTimeout).2 with
  | Call.blocks => Call.blocks
  | Call.returns (err, sem1) =>
    if err = OS_ERR.OS_ERR_NONE then
      Call.returns (elapsed_ms hz ub xStartTime xEndTime, sem1)
    else Call.returns (SYS_ARCH_TIMEOUT, sem1)

end UcosIII

/-! ## Creation, destruction and threads: further definitions -/

namespace Xilkernel

/-- One request to `sys_mbox_new`: the caller's object, the size it passes,
and whether the two `sem_init` calls of the kernel (not among the sources)
succeed. -/
structure NewReq where
  mbox : sys_mbox_s
  size : Int
  mail_ok : Bool
  mutex_ok : Bool

/-- Calls of `sys_mbox_new` made one after the other: the error codes and the
globals at the end. -/
def create_all : Globals → List NewReq → List Int × Globals
  | g, [] => ([], g)
  | g, r :: rs =>
    ((sys_mbox_new g r.mbox r.size r.mail_ok r.mutex_ok).1
        :: (create_all (sys_mbox_new g r.mbox r.size r.mail_ok r.mutex_ok).2.2 rs).1,
      (create_all (sys_mbox_new g r.mbox r.size r.mail_ok r.mutex_ok).2.2 rs).2)

/-- What `sys_mbox_free` leaves behind: the caller's object, the globals, and
whether a usage error was reported (the function contains no assertion and no
diagnostic output). -/
structure MboxFreeRet where
  mbox : Option sys_mbox_s
  g : Globals
  reported : Bool

/-- The function `sys_mbox_free`; `none` stands for the pointer
`SYS_MBOX_NULL`. `sem_destroy` gives the two semaphores back to the kernel;
the fields that named them are left as they are. -/
def sys_mbox_free (g : Globals) (mbox : Option sys_mbox_s) : Call MboxFreeRet :=
  match mbox with
  | none => Call.returns { mbox := none, g := g, reported := false }
  | some m =>
    match sem_wait m.mutex with
    | Call.blocks => Call.blocks
    | Call.returns (_, mutex1) =>
      let m1 : sys_mbox_s := { m with mutex := mutex1, used := 0 }
      let g1 : Globals :=
        if g.SemaphoreCnt > 1 then { g with SemaphoreCnt := g.SemaphoreCnt - 2 } else g
      Call.returns { mbox := some m1, g := g1, reported := false }

/-- The constant `TID_FREE` of `arch/sys_arch.h`. -/
def TID_FREE : Nat := 0xffffffff

/-- The record `struct thread_start_param`; `thread` is the index in
`lwip_thread` of the entry the pointer refers to. -/
structure thread_start_param where
  thread : Nat
  function : Nat
  arg : Nat
  deriving DecidableEq

/-- The record `struct sys_thread`. -/
structure sys_thread where
  tid : Nat
  tp : thread_start_param
  deriving DecidableEq

/-- The thread part of the function `sys_init`. -/
def sys_init_threads (lwip_thread : List sys_thread) : List sys_thread :=
  lwip_thread.map (fun t => { t with tid := TID_FREE })

/-- How `sys_thread_new` ends: it returns a thread (`none` for NULL), or it
calls `abort()`. `created` says whether `pthread_create` has started a
thread. -/
inductive ThreadNew where
  | returned (thread : Option Nat) (lwip_thread : List sys_thread) (created : Bool)
  | aborted (lwip_thread : List sys_thread)
  deriving DecidableEq

/-- The function `sys_thread_new`. `pc_ret` and `pc_tid` are the return value
of `pthread_create` and the thread id it stores on success. The returned
thread is the index of its entry in `lwip_thread`. -/
def sys_thread_new (PTHREAD_STACK_SIZE : Int) (lwip_thread : List sys_thread)
    (function arg : Nat) (stacksize _prio : Int) (pc_ret : Int) (pc_tid : Nat) : ThreadNew :=
  if stacksize > PTHREAD_STACK_SIZE then ThreadNew.returned none lwip_thread false
  else
    let i := lwip_thread.findIdx (fun t => t.tid == TID_FREE)
    if i = lwip_thread.length then ThreadNew.returned none lwip_thread false
    else
      let table1 := lwip_thread.modify
        (fun t => { t with tp := { thread := i, function := function, arg := arg } }) i
      if pc_ret ≠ 0 then ThreadNew.aborted table1
      else ThreadNew.returned (some i) (table1.modify (fun t => { t with tid := pc_tid }) i) true

/-- The last statement of `thread_start`, run when the entry function of the
thread in entry `i` has returned. -/
def thread_start_exit (lwip_thread : List sys_thread) (i : Nat) : List sys_thread :=
  lwip_thread.modify (fun t => { t with tid := TID_FREE }) i

/-- The number of entries of the thread table that are free. -/
def free_slots (lwip_thread : List sys_thread) : Nat :=
  lwip_thread.countP (fun t => t.tid == TID_FREE)

/-- One request to `sys_thread_new`, with what `pthread_create` answers. -/
structure SpawnReq where
  function : Nat
  arg : Nat
  stacksize : Int
  prio : Int
  pc_ret : Int
  pc_tid : Nat

/-- Calls of `sys_thread_new` made one after the other while no entry function
returns: the threads returned and the table at the end, `none` when a call
ends in `abort()`. -/
def spawn_all (PTHREAD_STACK_SIZE : Int) :
    List sys_thread → List SpawnReq → Option (List (Option Nat) × List sys_thread)
  | tbl, [] => some ([], tbl)
  | tbl, r :: rs =>
    match sys_thread_new PTHREAD_STACK_SIZE tbl r.function r.arg r.stacksize r.prio
        r.pc_ret r.pc_tid with
    | ThreadNew.aborted _ => none
    | ThreadNew.returned th tbl1 _ =>
      (spawn_all PTHREAD_STACK_SIZE tbl1 rs).map (fun p => (th :: p.1, p.2))

end Xilkernel

namespace UcosIII

/-- The macro `sys_mbox_valid` of `arch/sys_arch.h` on the handle `*x`. -/
def sys_mbox_valid (handle : Nat) : Bool := if handle = 0 then false else true

/-- The macro `sys_sem_valid` of `arch/sys_arch.h` on the handle `*x`. -/
def sys_sem_valid (handle : Nat) : Bool := if handle = 0 then false else true

/-- Modelled from the spec: `OSSemCreate` (not among the sources): a semaphore
with the given count, or the error the kernel reports (`create_err`, for
instance `OS_ERR_CREATE_ISR` when called from an interrupt handler). -/
def OSSemCreate (cnt : Nat) (create_err : OS_ERR) : Option OS_SEM × OS_ERR :=
  if create_err = OS_ERR.OS_ERR_NONE then (some { ctr := cnt }, OS_ERR.OS_ERR_NONE)
  else (none, create_err)

/-- The function `sys_sem_new`: error code, the handle `*pxSemaphore` after
the call (an address, 0 for NULL), the semaphore created at that address (if
any) and the pool `sys_arch_sem_mem_pool`. -/
def sys_sem_new (pool : OS_MEM) (ucCount : Nat) (create_err : OS_ERR) :
    Int × Nat × Option OS_SEM × OS_MEM :=
  match OSMemGet pool with
  | (p, _, pool1) =>
    if p = 0 then (ERR_MEM, p, none, pool1)
    else
      match OSSemCreate ucCount create_err with
      | (sem, err) =>
        if err = OS_ERR.OS_ERR_NONE then (ERR_OK, p, sem, pool1)
        else (ERR_MEM, p, none, OSMemPut pool1 p)

/-- Modelled from the spec: `OSQFlush` (not among the sources): empties the
queue and returns the number of messages it held. -/
def OSQFlush (q : OS_Q) : Nat × OS_Q :=
  (q.entries.length, { q with entries := [] })

/-- What `sys_mbox_free` leaves behind: whether
`LWIP_ASSERT("sys_mbox_free empty", ...)` failed, whether `SYS_STATS` counted
an error, and the pool `sys_arch_mbox_mem_pool`. The queue object is
deleted; its block is back in the pool. -/
structure MboxFreeRet where
  assert_failed : Bool
  stats_err : Bool
  pool : OS_MEM
  deriving DecidableEq

/-- The function `sys_mbox_free` on the handle `handle` of the queue `q`. -/
def sys_mbox_free (pool : OS_MEM) (handle : Nat) (q : OS_Q) : MboxFreeRet :=
  match OSQFlush q with
  | (ulMessagesWaiting, _) =>
    { assert_failed := !(ulMessagesWaiting == 0)
      stats_err := ulMessagesWaiting != 0
      pool := OSMemPut pool handle }

/-- Conversion of a whole number to a 32-bit `int`, wrapping. -/
def wrap32 (x : Int) : Int := (x + 2147483648) % 4294967296 - 2147483648

/-- The comparison `x > c` of an `int` variable with a configuration constant.
The constants `OS_CFG_PRIO_MAX` and `SYS_ARCH_THREAD_MAX_STACK_SIZE` are not
among the sources; when they are written as unsigned constants
(`cfg_unsigned`), C compares the two as 32-bit unsigned numbers. -/
def gt_cfg (cfg_unsigned : Bool) (x c : Int) : Bool :=
  if cfg_unsigned then decide (x % 4294967296 > c % 4294967296) else decide (x > c)

/-- The priority remapping of `sys_thread_new`: the value of `iPriority` after
the `if` / `else if` / `else`, for the caller's `iPriority` and the constant
`OS_CFG_PRIO_MAX`. -/
def remap_priority (cfg_unsigned : Bool) (OS_CFG_PRIO_MAX iPriority : Int) : Int :=
  if gt_cfg cfg_unsigned iPriority (OS_CFG_PRIO_MAX - 30) then wrap32 (OS_CFG_PRIO_MAX - 30)
  else if iPriority = 0 then wrap32 (OS_CFG_PRIO_MAX - 3 - iPriority)
  else wrap32 (OS_CFG_PRIO_MAX - 30 - iPriority)

/-- Conversion of the `int` priority to the 8-bit `OS_PRIO` parameter of
`OSTaskCreate`. -/
def to_OS_PRIO (x : Int) : Nat := (x % 256).toNat

/-- The pools and the memory that `sys_thread_new` and `sys_thread_delete`
work on: `sys_arch_tcb_mem_pool`, `thread_stack_mem_pool`, and the field
`p_base_stack` of the `SysArchTCB_t` at each block address. -/
structure ThreadWorld where
  tcb_pool : OS_MEM
  stack_pool : OS_MEM
  p_base_stack : Nat → Nat

/-- What `sys_thread_new` leaves behind: the returned handle (0 for NULL), the
pools and memory, and the priority handed to `OSTaskCreate` when that was
called. -/
structure SpawnRet where
  xReturn : Nat
  w : ThreadWorld
  task_create : Option Nat

/-- The function `sys_thread_new`. `off` is the offset of the field `os_tcb`
in `SysArchTCB_t`, `create_err` the error `OSTaskCreate` reports. -/
def sys_thread_new (cfg_unsigned : Bool)
    (SYS_ARCH_THREAD_MAX_STACK_SIZE OS_CFG_PRIO_MAX : Int) (off : Nat) (w : ThreadWorld)
    (iStackSize iPriority : Int) (create_err : OS_ERR) : SpawnRet :=
  match OSMemGet w.tcb_pool with
  | (thread_tcb, _, tcb_pool1) =>
    if thread_tcb = 0 then
      { xReturn := 0, w := { w with tcb_pool := tcb_pool1 }, task_create := none }
    else
      let task_tcb := thread_tcb + off
      if gt_cfg cfg_unsigned iStackSize SYS_ARCH_THREAD_MAX_STACK_SIZE then
        { xReturn := 0, w := { w with tcb_pool := OSMemPut tcb_pool1 thread_tcb }
          task_create := none }
      else
        match OSMemGet w.stack_pool with
        | (p_stack, _, stack_pool1) =>
          if p_stack = 0 then
            { xReturn := 0
              w := { w with tcb_pool := OSMemPut tcb_pool1 thread_tcb, stack_pool := stack_pool1 }
              task_create := none }
          else
            let mem1 : Nat → Nat := fun a => if a = thread_tcb then p_stack else w.p_base_stack a
            let prio := to_OS_PRIO (remap_priority cfg_unsigned OS_CFG_PRIO_MAX iPriority)
            if create_err = OS_ERR.OS_ERR_NONE then
              { xReturn := task_tcb
                w := { tcb_pool := tcb_pool1, stack_pool := stack_pool1, p_base_stack := mem1 }
                task_create := some prio }
            else
              { xReturn := 0
                w := { tcb_pool := OSMemPut tcb_pool1 thread_tcb
                       stack_pool := OSMemPut stack_pool1 p_stack
                       p_base_stack := mem1 }
                task_create := some prio }

/-- The function `sys_thread_delete` on the handle `thread` (0 for NULL): the
pools and memory after the call. `container_of` subtracts the offset `off`
of `os_tcb`; `OSTaskDel` touches neither pool. -/
def sys_thread_delete (off : Nat) (w : ThreadWorld) (thread : Nat) : ThreadWorld :=
  if thread = 0 then w
  else
    let p_thread_tcb := thread - off
    let p_stack := w.p_base_stack p_thread_tcb
    { w with tcb_pool := OSMemPut w.tcb_pool p_thread_tcb
             stack_pool := OSMemPut w.stack_pool p_stack }

end UcosIII

namespace FreeRTOS

/-- The constant `portMAX_DELAY` for 32-bit ticks. -/
def portMAX_DELAY : Nat := 0xffffffff

/-- The function `sys_sem_new`. `created` is what `xSemaphoreCreateBinary()`
returns: `none` for NULL, otherwise the new semaphore, represented by its
count. The call passes no argument, so `created` cannot depend on `ucCount`.
Result: error code and the handle `*pxSemaphore`. -/
def sys_sem_new (created : Option Nat) (_ucCount : Nat) : Int × Option Nat :=
  match created with
  | some sem => (ERR_OK, some sem)
  | none => (ERR_MEM, none)

/-- Modelled from the spec: `xSemaphoreCreateBinary` of FreeRTOS (not among the
sources) with heap left: a binary semaphore is "a capacity-1 special case" of
a counting semaphore. The spec does not give its initial state; the FreeRTOS
reference manual does: the semaphore is created empty (count 0) and has to be
given before it can be taken. -/
def xSemaphoreCreateBinary : Option Nat := some 0

/-- Modelled from the spec: `xSemaphoreTake` of FreeRTOS (not among the
sources): "decrements on success; blocks (or blocks-with-deadline) while count
is zero". Nobody gives during the wait: a zero count ends in `pdFALSE` once
the ticks have passed, and never with `portMAX_DELAY`. -/
def xSemaphoreTake (sem : Nat) (xTicksToWait : Nat) : Call (Bool × Nat) :=
  if sem ≠ 0 then Call.returns (true, sem - 1)
  else if xTicksToWait = portMAX_DELAY then Call.blocks
  else Call.returns (false, sem)

/-- Modelled from the spec: `xSemaphoreTakeFromISR` of FreeRTOS (not among the
sources): takes the semaphore if its count is not zero, never waits. -/
def xSemaphoreTakeFromISR (sem : Nat) : Bool × Nat :=
  if sem ≠ 0 then (true, sem - 1) else (false, sem)

/-- The function `sys_arch_sem_wait`: return value and semaphore count.
`xInsideISR` is the global flag, `xStartTime` and `xEndTime` the values of the
two `xTaskGetTickCount` calls, `portTICK_RATE_MS` the constant of the port. -/
def sys_arch_sem_wait (portTICK_RATE_MS : Nat) (xInsideISR : Nat) (sem : Nat)
    (ulTimeout : Nat) (xStartTime xEndTime : Nat) : Call (Nat × Nat) :=
  let xElapsed := (((xEndTime + U32 - xStartTime) % U32) * portTICK_RATE_MS) % U32
  if ulTimeout ≠ 0 then
    if xInsideISR ≠ 0 then
      match xSemaphoreTakeFromISR sem with
      | (taken, sem1) =>
        if taken then Call.returns (xElapsed, sem1) else Call.returns (SYS_ARCH_TIMEOUT, sem1)
    else
      match xSemaphoreTake sem (ulTimeout / portTICK_RATE_MS) with
      | Call.blocks => Call.blocks
      | Call.returns (taken, sem1) =>
        if taken then Call.returns (xElapsed, sem1) else Call.returns (SYS_ARCH_TIMEOUT, sem1)
  else
    if xInsideISR ≠ 0 then
      match xSemaphoreTakeFromISR sem with
      | (_, sem1) => Call.returns (if xElapsed = 0 then 1 else xElapsed, sem1)
    else
      match xSemaphoreTake sem portMAX_DELAY with
      | Call.blocks => Call.blocks
      | Call.returns (_, sem1) => Call.returns (if xElapsed = 0 then 1 else xElapsed, sem1)

end FreeRTOS

/-! ## Signalling, validity and the millisecond clock: further definitions -/

namespace Xilkernel

/-- The constant `SEM_FREE` of `arch/sys_arch.h`. -/
def SEM_FREE : Nat := 0xffffffff

/-- The function `sys_mbox_valid`: 0 when the field `used` is 0, else 1. -/
def sys_mbox_valid (mbox : sys_mbox_s) : Int := if mbox.used = 0 then 0 else 1

/-- The function `sys_mbox_set_invalid`: its body is empty, the mailbox is
left as it is. -/
def sys_mbox_set_invalid (mbox : sys_mbox_s) : sys_mbox_s := mbox

/-- The function `sys_sem_valid` on the value `*sem`, the identifier the
kernel gave to the semaphore. -/
def sys_sem_valid (sem : Nat) : Int := if sem = SEM_FREE then 0 else 1

/-- The function `sys_sem_set_invalid`: its body is empty, `*sem` is left as
it is. -/
def sys_sem_set_invalid (sem : Nat) : Nat := sem

/-- The function `sys_sem_free`: the value `*sem` and the globals after the
call. -/
def sys_sem_free (g : Globals) (_sem : Nat) : Nat × Globals :=
  (SEM_FREE, if g.SemaphoreCnt > 0 then { g with SemaphoreCnt := g.SemaphoreCnt - 1 } else g)

end Xilkernel

namespace UcosIII

/-- The macro `sys_mbox_set_invalid` of `arch/sys_arch.h`: the handle `*x`
after `( *x ) = NULL`. -/
def sys_mbox_set_invalid (_handle : Nat) : Nat := 0

/-- The macro `sys_sem_set_invalid` of `arch/sys_arch.h`: the handle `*x`
after `( *x ) = NULL`. -/
def sys_sem_set_invalid (_handle : Nat) : Nat := 0

/-- The function `sys_now` for the tick count `t` that `OSTimeGet` returns and
the constant `OS_CFG_TICK_RATE_HZ` (`hz`): the product `t * 1000` is formed
in the 32-bit `OS_TICK` and then divided. -/
def sys_now (hz t : Nat) : Nat := ((t * 1000) % U32) / hz

/-- The post options of `OSSemPost`. -/
inductive OS_OPT_POST where
  | OS_OPT_POST_1
  | OS_OPT_POST_ALL
  deriving DecidableEq

/-- Modelled from the spec: the kernel object `OS_SEM` (not among the sources)
together with the tasks that wait on it: "an integer count (0 or more)" and
the waiters in the order the scheduler serves them ("typically priority
order, ties broken by wait order"). -/
structure SemPend where
  Ctr : Nat
  PendList : List Nat
  deriving DecidableEq

/-- Modelled from the spec: `OSSemPost` (not among the sources): the semaphore
after the call and the tasks made ready. "Increments count and wakes one
waiter if any" is the option `OS_OPT_POST_1`: the first waiter is made ready,
and only without a waiter the count goes up. The spec has no word on the
option `OS_OPT_POST_ALL`; the uC/OS-III reference gives its meaning, which is
also its name: the post goes to all the tasks waiting on the semaphore. -/
def OSSemPost (sem : SemPend) (opt : OS_OPT_POST) : SemPend × List Nat :=
  match sem.PendList with
  | [] => ({ sem with Ctr := sem.Ctr + 1 }, [])
  | t :: rest =>
    match opt with
    | OS_OPT_POST.OS_OPT_POST_1 => ({ sem with PendList := rest }, [t])
    | OS_OPT_POST.OS_OPT_POST_ALL => ({ sem with PendList := [] }, t :: rest)

/-- The function `sys_sem_signal`: the semaphore after the call and the tasks
made ready. -/
def sys_sem_signal (sem : SemPend) : SemPend × List Nat :=
  OSSemPost sem OS_OPT_POST.OS_OPT_POST_ALL

end UcosIII

namespace FreeRTOS

/-- The macro `sys_mbox_valid` of `arch/sys_arch.h` on the handle `*x`. -/
def sys_mbox_valid (handle : Nat) : Bool := if handle = 0 then false else true

/-- The macro `sys_mbox_set_invalid` of `arch/sys_arch.h`: the handle `*x`
after `( *x ) = NULL`. -/
def sys_mbox_set_invalid (_handle : Nat) : Nat := 0

/-- The macro `sys_sem_valid` of `arch/sys_arch.h` on the handle `*x`. -/
def sys_sem_valid (handle : Nat) : Bool := if handle = 0 then false else true

/-- The macro `sys_sem_set_invalid` of `arch/sys_arch.h`: the handle `*x`
after `( *x ) = NULL`. -/
def sys_sem_set_invalid (_handle : Nat) : Nat := 0

/-- The constant `pdFALSE`. -/
def pdFALSE : Nat := 0

/-- The constant `pdTRUE`. -/
def pdTRUE : Nat := 1

/-- The constant `pdPASS`. -/
def pdPASS : Nat := 1

/-- The calls that `sys_mbox_trypost` and `sys_sem_signal` make into the
kernel and its port layer, with their arguments. -/
inductive KernelCall where
  | xQueueSendFromISR (msg : Nat)
  | xQueueSend (msg : Nat) (xTicksToWait : Nat)
  | xSemaphoreGiveFromISR
  | xSemaphoreGive
  | portYIELD_FROM_ISR (x : Nat)
  deriving DecidableEq

/-- The function `sys_mbox_trypost`: the return value and the calls made, in
order. `xInsideISR` is the global flag, `send_ret` what the send call
returns, `woken` the value `xQueueSendFromISR` leaves in
`xHigherPriorityTaskWoken` (which starts as `pdFALSE`). -/
def sys_mbox_trypost (xInsideISR : Nat) (pxMessageToPost : Nat) (send_ret woken : Nat) :
    Int × List KernelCall :=
  let calls : List KernelCall :=
    if xInsideISR ≠ pdFALSE then
      if woken = pdTRUE then
        [KernelCall.xQueueSendFromISR pxMessageToPost, KernelCall.portYIELD_FROM_ISR woken]
      else [KernelCall.xQueueSendFromISR pxMessageToPost]
    else [KernelCall.xQueueSend pxMessageToPost 0]
  if send_ret = pdPASS then (ERR_OK, calls) else (ERR_MEM, calls)

/-- The function `sys_sem_signal`: the calls made, in order. `woken` is the
value `xSemaphoreGiveFromISR` leaves in `xHigherPriorityTaskWoken`. -/
def sys_sem_signal (xInsideISR : Nat) (woken : Nat) : List KernelCall :=
  if xInsideISR ≠ pdFALSE then
    if woken = pdTRUE then
      [KernelCall.xSemaphoreGiveFromISR, KernelCall.portYIELD_FROM_ISR woken]
    else [KernelCall.xSemaphoreGiveFromISR]
  else [KernelCall.xSemaphoreGive]

/-- Whether a call is one of the kernel entry points for interrupt handlers
(`...FromISR`). -/
def KernelCall.fromISR : KernelCall → Bool
  | KernelCall.xQueueSendFromISR _ => true
  | KernelCall.xSemaphoreGiveFromISR => true
  | _ => false

/-- Whether a call is one of the kernel entry points for tasks (`xQueueSend`,
`xSemaphoreGive`). -/
def KernelCall.taskContext : KernelCall → Bool
  | KernelCall.xQueueSend _ _ => true
  | KernelCall.xSemaphoreGive => true
  | _ => false

/-- Whether a call is the yield request `portYIELD_FROM_ISR`. -/
def KernelCall.isYield : KernelCall → Bool
  | KernelCall.portYIELD_FROM_ISR _ => true
  | _ => false

end FreeRTOS

/-! ## The xilkernel fetch while other threads post: further definitions -/

namespace Xilkernel

/-- The `while (mbox->first == mbox->last)` loop of `sys_arch_mbox_fetch`
while other threads run. `posted` lists, wait by wait, the messages that
other threads post with `sys_mbox_trypost` while this thread, having released
the mutex, waits for `mail`; after the listed waits nobody posts. The posts
of a wait are made before `sem_timedwait` / `sem_wait` looks at the count of
`mail`: a wait that a post ends is a wait that finds the count raised. The
rest is as in `fetch_loop`, which is this loop when nobody posts. -/
def fetch_loop_env (clock : Nat → Nat) (timeout : Nat) :
    Nat → Nat → List (List Nat) → sys_mbox_s → Nat → Nat → Option LoopExit
  | 0, _, _, _, _, _ => none
  | fuel + 1, k, posted, mbox, start_ticks, stop_ticks =>
    if mbox.first = mbox.last then
      let mbox0 : sys_mbox_s := { mbox with mutex := sem_post mbox.mutex }
      -- the other threads run while this one waits
      let mbox1 : sys_mbox_s := (trypost_all mbox0 (posted.headD [])).2
      if timeout ≠ 0 then
        let start1 := clock k % U32
        match sem_timedwait mbox1.mail timeout with
        | (r, mail1) =>
          if r ≠ 0 then some (LoopExit.timeout { mbox1 with mail := mail1 })
          else
            let stop1 := clock (k + 1) % U32
            match sem_wait mbox1.mutex with
            | Call.blocks => some LoopExit.blocks
            | Call.returns (_, mutex1) =>
              fetch_loop_env clock timeout fuel (k + 2) posted.tail
                { mbox1 with mail := mail1, mutex := mutex1 } start1 stop1
      else
        match sem_wait mbox1.mail with
        | Call.blocks => some LoopExit.blocks
        | Call.returns (_, mail1) =>
          match sem_wait mbox1.mutex with
          | Call.blocks => some LoopExit.blocks
          | Call.returns (_, mutex1) =>
            fetch_loop_env clock timeout fuel k posted.tail
              { mbox1 with mail := mail1, mutex := mutex1 } start_ticks stop_ticks
    else some (LoopExit.done mbox start_ticks stop_ticks)

/-- The function `sys_arch_mbox_fetch` while other threads run: `posted` as in
`fetch_loop_env`. Every iteration of the loop that does not leave the
function takes one unit from `mail`, and every post adds one, so the count of
`mail` plus the number of posted messages plus one is enough fuel. -/
def sys_arch_mbox_fetch_env (SYS_MSPERTICK : Nat) (clock : Nat → Nat)
    (mbox : sys_mbox_s) (has_msg : Bool) (timeout : Nat) (posted : List (List Nat)) :
    Option (Call FetchRet) :=
  match sem_wait mbox.mutex with
  | Call.blocks => some Call.blocks
  | Call.returns (_, mutex1) =>
    match fetch_loop_env clock timeout (mbox.mail + (posted.map List.length).sum + 1) 0 posted
        { mbox with mutex := mutex1 } 0 0 with
    | none => none
    | some LoopExit.blocks => some Call.blocks
    | some (LoopExit.timeout mbox1) =>
      some (Call.returns { ret := SYS_ARCH_TIMEOUT, msg := none, mbox := mbox1 })
    | some (LoopExit.done mbox1 start_ticks stop_ticks) =>
      let out : Option Nat := if has_msg then some (mbox1.msgs mbox1.first) else none
      let mbox2 : sys_mbox_s := { mbox1 with first := (mbox1.first + 1) % U16 }
      let mbox3 : sys_mbox_s :=
        if mbox2.first = SYS_MBOX_SIZE then { mbox2 with first := 0 } else mbox2
      let mbox4 : sys_mbox_s := { mbox3 with mutex := sem_post mbox3.mutex }
      some (Call.returns
        { ret := fetch_elapsed SYS_MSPERTICK start_ticks stop_ticks, msg := out, mbox := mbox4 })

end Xilkernel

/-! ## The wait loop of the xilkernel fetch -/

namespace Xilkernel

/-- The loop does not run out of fuel when it is given more fuel than the
count of `mail`. -/
theorem fetch_loop_fuel (clock : Nat → Nat) (timeout : Nat) :
    ∀ (fuel k : Nat) (mbox : sys_mbox_s) (s e : Nat), mbox.mail < fuel →
      fetch_loop clock timeout fuel k mbox s e ≠ none := by
  intro fuel
  induction fuel with
  | zero => intro k mbox s e h; omega
  | succ n ih =>
    intro k mbox s e h
    obtain ⟨used, first, last, msgs, mail, mutex⟩ := mbox
    simp only at h
    unfold fetch_loop
    by_cases hfl : first = last
    · by_cases ht : timeout = 0
      · subst ht
        cases mail with
        | zero => simp [hfl, sem_wait, sem_post]
        | succ j =>
          simp only [hfl, sem_wait, sem_post]
          simp
          apply ih
          show j < n
          omega
      · cases mail with
        | zero => simp [hfl, ht, sem_timedwait, sem_post]
        | succ j =>
          simp only [hfl, sem_timedwait, sem_wait, sem_post]
          simp [ht]
          apply ih
          show j < n
          omega
    · simp [hfl]

/-- The loop is left normally only when it is not entered at all: while no
other thread posts, an empty mailbox stays empty. -/
theorem fetch_loop_done_exit (clock : Nat → Nat) (timeout : Nat) :
    ∀ (fuel k : Nat) (mbox : sys_mbox_s) (s e : Nat) (m1 : sys_mbox_s) (s1 e1 : Nat),
      fetch_loop clock timeout fuel k mbox s e = some (LoopExit.done m1 s1 e1) →
      m1 = mbox ∧ s1 = s ∧ e1 = e ∧ mbox.first ≠ mbox.last := by
  intro fuel
  induction fuel with
  | zero => intro k mbox s e m1 s1 e1 h; simp [fetch_loop] at h
  | succ n ih =>
    intro k mbox s e m1 s1 e1 h
    obtain ⟨used, first, last, msgs, mail, mutex⟩ := mbox
    unfold fetch_loop at h
    by_cases hfl : first = last
    · exfalso
      by_cases ht : timeout = 0
      · subst ht
        cases mail with
        | zero => simp [hfl, sem_wait, sem_post] at h
        | succ j =>
          simp only [hfl, sem_wait, sem_post] at h
          simp at h
          exact (ih _ _ _ _ _ _ _ h).2.2.2 rfl
      · cases mail with
        | zero => simp [hfl, ht, sem_timedwait, sem_post] at h
        | succ j =>
          simp only [hfl, sem_timedwait, sem_wait, sem_post] at h
          simp [ht] at h
          exact (ih _ _ _ _ _ _ _ h).2.2.2 rfl
    · simp [hfl] at h
      obtain ⟨h1, h2, h3⟩ := h
      exact ⟨h1.symm, h2.symm, h3.symm, hfl⟩

/-- A time-out exit of the loop: the timeout is non-zero, the mailbox was
empty, only the counts of the two semaphores have changed, `mail` is used up
and `mutex` has been posted once. -/
theorem fetch_loop_timeout_exit (clock : Nat → Nat) (timeout : Nat) :
    ∀ (fuel k : Nat) (mbox : sys_mbox_s) (s e : Nat) (m1 : sys_mbox_s),
      fetch_loop clock timeout fuel k mbox s e = some (LoopExit.timeout m1) →
      m1 = { mbox with mail := 0, mutex := mbox.mutex + 1 } ∧
        mbox.first = mbox.last ∧ timeout ≠ 0 := by
  intro fuel
  induction fuel with
  | zero => intro k mbox s e m1 h; simp [fetch_loop] at h
  | succ n ih =>
    intro k mbox s e m1 h
    obtain ⟨used, first, last, msgs, mail, mutex⟩ := mbox
    unfold fetch_loop at h
    by_cases hfl : first = last
    · by_cases ht : timeout = 0
      · exfalso
        subst ht
        cases mail with
        | zero => simp [hfl, sem_wait, sem_post] at h
        | succ j =>
          simp only [hfl, sem_wait, sem_post] at h
          simp at h
          exact (ih _ _ _ _ _ h).2.2 rfl
      · cases mail with
        | zero =>
          simp [hfl, ht, sem_timedwait, sem_post] at h
          exact ⟨by rw [← h, hfl], hfl, ht⟩
        | succ j =>
          simp only [hfl, sem_timedwait, sem_wait, sem_post] at h
          simp [ht] at h
          obtain ⟨h1, _, _⟩ := ih _ _ _ _ _ h
          exact ⟨by rw [h1, hfl], hfl, ht⟩
    · simp [hfl] at h

/-- On an empty mailbox a timed wait loop uses up `mail` and leaves through
the time-out exit. -/
theorem fetch_loop_empty_timed (clock : Nat → Nat) (timeout : Nat) (ht : timeout ≠ 0)
    (fuel k : Nat) (mbox : sys_mbox_s) (s e : Nat)
    (hfl : mbox.first = mbox.last) (hfuel : mbox.mail < fuel) :
    fetch_loop clock timeout fuel k mbox s e
      = some (LoopExit.timeout { mbox with mail := 0, mutex := mbox.mutex + 1 }) := by
  have hne := fetch_loop_fuel clock timeout fuel k mbox s e hfuel
  cases hres : fetch_loop clock timeout fuel k mbox s e with
  | none => exact absurd hres hne
  | some x =>
    cases x with
    | timeout m1 =>
      rw [(fetch_loop_timeout_exit clock timeout fuel k mbox s e m1 hres).1]
    | done m1 s1 e1 =>
      exact absurd hfl (fetch_loop_done_exit clock timeout fuel k mbox s e m1 s1 e1 hres).2.2.2
    | blocks =>
      exfalso
      revert hres hfuel hfl
      revert k mbox s e hne
      induction fuel with
      | zero => intro k mbox s e _ _ h; omega
      | succ n ih =>
        intro k mbox s e _ hfl hfuel hres
        obtain ⟨used, first, last, msgs, mail, mutex⟩ := mbox
        simp only at hfl hfuel
        unfold fetch_loop at hres
        cases mail with
        | zero => simp [hfl, ht, sem_timedwait, sem_post] at hres
        | succ j =>
          simp only [hfl, sem_timedwait, sem_wait, sem_post] at hres
          simp [ht] at hres
          exact ih _ _ _ _ (fetch_loop_fuel clock timeout n _ _ _ _ (by show j < n; omega)) rfl
            (by show j < n; omega) hres

/-- The fetch never runs out of loop fuel. -/
theorem sys_arch_mbox_fetch_total (SYS_MSPERTICK : Nat) (clock : Nat → Nat)
    (mbox : sys_mbox_s) (has_msg : Bool) (timeout : Nat) :
    sys_arch_mbox_fetch SYS_MSPERTICK clock mbox has_msg timeout ≠ none := by
  unfold sys_arch_mbox_fetch
  cases hw : sem_wait mbox.mutex with
  | blocks => simp
  | returns p =>
    obtain ⟨r, mutex1⟩ := p
    have hne := fetch_loop_fuel clock timeout (mbox.mail + 1) 0
      { mbox with mutex := mutex1 } 0 0 (by show mbox.mail < mbox.mail + 1; omega)
    cases hl : fetch_loop clock timeout (mbox.mail + 1) 0 { mbox with mutex := mutex1 } 0 0 with
    | none => exact absurd hl hne
    | some x => cases x <;> simp [hl]

/-- What `post_body` does to each field. -/
theorem post_body_fields (mbox : sys_mbox_s) (msg : Nat) :
    (post_body mbox msg).used = mbox.used ∧
    (post_body mbox msg).first = mbox.first ∧
    (post_body mbox msg).last = advance mbox.last ∧
    (post_body mbox msg).msgs = store mbox.msgs mbox.last msg ∧
    (post_body mbox msg).mail = mbox.mail + 1 ∧
    (post_body mbox msg).mutex = mbox.mutex + 1 := by
  unfold post_body advance sem_post
  by_cases h : (mbox.last + 1) % U16 = SYS_MBOX_SIZE <;> simp [h]

/-- A fetch from a mailbox whose indices differ returns at once with the
message at `first`. -/
theorem fetch_nonempty (SYS_MSPERTICK : Nat) (clock : Nat → Nat)
    (mbox : sys_mbox_s) (has_msg : Bool) (timeout : Nat)
    (hmutex : mbox.mutex ≠ 0) (hne : mbox.first ≠ mbox.last) :
    sys_arch_mbox_fetch SYS_MSPERTICK clock mbox has_msg timeout
      = some (Call.returns
          { ret := 0
            msg := if has_msg then some (mbox.msgs mbox.first) else none
            mbox := { mbox with first := advance mbox.first } }) := by
  obtain ⟨used, first, last, msgs, mail, mutex⟩ := mbox
  simp only at hmutex hne
  have hm : mutex - 1 + 1 = mutex := by omega
  unfold sys_arch_mbox_fetch
  simp only [sem_wait, hmutex, if_false]
  simp only [fetch_loop, hne, if_false]
  unfold advance sem_post fetch_elapsed TICKS_TO_MS U32
  by_cases h : (first + 1) % U16 = SYS_MBOX_SIZE <;> simp [h, hm]

/-- A timed fetch from a mailbox whose indices are equal returns
`SYS_ARCH_TIMEOUT`; it has used up the count of `mail` and nothing else. -/
theorem fetch_empty_timed (SYS_MSPERTICK : Nat) (clock : Nat → Nat)
    (mbox : sys_mbox_s) (has_msg : Bool) (timeout : Nat)
    (hmutex : mbox.mutex ≠ 0) (heq : mbox.first = mbox.last) (ht : timeout ≠ 0) :
    sys_arch_mbox_fetch SYS_MSPERTICK clock mbox has_msg timeout
      = some (Call.returns
          { ret := SYS_ARCH_TIMEOUT, msg := none, mbox := { mbox with mail := 0 } }) := by
  obtain ⟨used, first, last, msgs, mail, mutex⟩ := mbox
  simp only at hmutex heq
  have hm : mutex - 1 + 1 = mutex := by omega
  unfold sys_arch_mbox_fetch
  simp only [sem_wait, hmutex, if_false]
  rw [fetch_loop_empty_timed clock timeout ht (mail + 1) 0 _ 0 0 heq (by show mail < mail + 1; omega)]
  simp [hm]

/-- A timed or untimed fetch that returns has taken the mutex and either timed
out on equal indices or delivered the message at `first`. -/
theorem fetch_returns_inv (SYS_MSPERTICK : Nat) (clock : Nat → Nat)
    (mbox : sys_mbox_s) (has_msg : Bool) (timeout : Nat) (r : FetchRet)
    (h : sys_arch_mbox_fetch SYS_MSPERTICK clock mbox has_msg timeout = some (Call.returns r)) :
    mbox.mutex ≠ 0 ∧
      ((mbox.first = mbox.last ∧ timeout ≠ 0 ∧
          r = { ret := SYS_ARCH_TIMEOUT, msg := none, mbox := { mbox with mail := 0 } }) ∨
       (mbox.first ≠ mbox.last ∧
          r = { ret := 0
                msg := if has_msg then some (mbox.msgs mbox.first) else none
                mbox := { mbox with first := advance mbox.first } })) := by
  by_cases hmutex : mbox.mutex = 0
  · exfalso
    unfold sys_arch_mbox_fetch at h
    simp [sem_wait, hmutex] at h
  · refine ⟨hmutex, ?_⟩
    by_cases hfl : mbox.first = mbox.last
    · by_cases ht : timeout = 0
      · exfalso
        unfold sys_arch_mbox_fetch at h
        simp only [sem_wait, hmutex, if_false] at h
        cases hl : fetch_loop clock timeout (mbox.mail + 1) 0
            { mbox with mutex := mbox.mutex - 1 } 0 0 with
        | none => simp [hl] at h
        | some x =>
          cases x with
          | timeout m1 => exact (fetch_loop_timeout_exit clock timeout _ _ _ _ _ m1 hl).2.2 ht
          | done m1 s1 e1 =>
            exact (fetch_loop_done_exit clock timeout _ _ _ _ _ m1 s1 e1 hl).2.2.2 hfl
          | blocks => simp [hl] at h
      · left
        rw [fetch_empty_timed SYS_MSPERTICK clock mbox has_msg timeout hmutex hfl ht] at h
        simp only [Option.some.injEq, Call.returns.injEq] at h
        exact ⟨hfl, ht, h.symm⟩
    · right
      rw [fetch_nonempty SYS_MSPERTICK clock mbox has_msg timeout hmutex hfl] at h
      simp only [Option.some.injEq, Call.returns.injEq] at h
      exact ⟨hfl, h.symm⟩

/-- With the mutex free, `sys_mbox_trypost` posts. -/
theorem trypost_free (m : sys_mbox_s) (x : Nat) (h : m.mutex ≠ 0) :
    sys_mbox_trypost m x = (ERR_OK, post_body { m with mutex := m.mutex - 1 } x) := by
  unfold sys_mbox_trypost sem_trywait
  simp [h]

/-- With the mutex free, `sys_mbox_post` posts. -/
theorem post_free (m : sys_mbox_s) (x : Nat) (h : m.mutex ≠ 0) :
    sys_mbox_post m x = Call.returns (post_body { m with mutex := m.mutex - 1 } x) := by
  unfold sys_mbox_post sem_wait
  simp [h]

/-- The index after an index below `SYS_MBOX_SIZE`. -/
theorem advance_lt (i : Nat) (h : i < SYS_MBOX_SIZE) :
    advance i = (i + 1) % SYS_MBOX_SIZE ∧ advance i < SYS_MBOX_SIZE := by
  unfold advance U16
  unfold SYS_MBOX_SIZE at *
  have h1 : (i + 1) % 65536 = i + 1 := Nat.mod_eq_of_lt (by omega)
  rw [h1]
  by_cases h2 : i + 1 = 500
  · simp [h2]
  · simp only [h2, if_false]
    have h3 : i + 1 < 500 := by omega
    rw [Nat.mod_eq_of_lt h3]
    exact ⟨rfl, h3⟩

/-- A mailbox that `sys_mbox_new` has reported as created is empty, its mutex
is free and no mail is signalled. -/
theorem sys_mbox_new_ok (g : Globals) (mbox0 : sys_mbox_s) (size : Int)
    (mail_ok mutex_ok : Bool) (m : sys_mbox_s) (g1 : Globals)
    (h : sys_mbox_new g mbox0 size mail_ok mutex_ok = (ERR_OK, m, g1)) :
    m.first = 0 ∧ m.last = 0 ∧ m.mail = 0 ∧ m.mutex = 1 ∧ m.used = 1 ∧
      size ≤ (SYS_MBOX_SIZE : Int) := by
  unfold sys_mbox_new at h
  have hne : ERR_MEM ≠ ERR_OK := by decide
  by_cases hs : size > (SYS_MBOX_SIZE : Int)
  · simp [hs, hne] at h
  · simp only [hs, if_false] at h
    cases hf : g.lwip_mbox.find? (fun m => m.used == 0) with
    | none => simp [hf, hne] at h
    | some slot =>
      simp only [hf] at h
      cases mail_ok <;> cases mutex_ok <;> simp [hne] at h
      obtain ⟨h1, _⟩ := h
      subst h1
      simp
      omega

/-- Posting a list of messages with a free mutex into a ring whose `last`
leaves room for them up to the end of the array: every call returns `ERR_OK`,
`last` moves on modulo `SYS_MBOX_SIZE`, `first` does not move. -/
theorem trypost_all_spec : ∀ (xs : List Nat) (m : sys_mbox_s), m.mutex ≠ 0 →
    m.last < SYS_MBOX_SIZE → m.last + xs.length ≤ SYS_MBOX_SIZE →
    (trypost_all m xs).1 = List.replicate xs.length ERR_OK ∧
      (trypost_all m xs).2.first = m.first ∧
      (trypost_all m xs).2.last = (m.last + xs.length) % SYS_MBOX_SIZE ∧
      (trypost_all m xs).2.mutex = m.mutex ∧
      (trypost_all m xs).2.mail = m.mail + xs.length := by
  intro xs
  induction xs with
  | nil =>
    intro m _ hl _
    simp [trypost_all, Nat.mod_eq_of_lt hl]
  | cons x xs ih =>
    intro m hm hl h
    simp only [List.length_cons] at h
    obtain ⟨_, hf, hla, _, hma, hmu⟩ := post_body_fields { m with mutex := m.mutex - 1 } x
    obtain ⟨ha1, ha2⟩ := advance_lt m.last hl
    simp only at hf hla hma hmu
    have hmu2 : (post_body { m with mutex := m.mutex - 1 } x).mutex = m.mutex := by
      rw [hmu]; omega
    have hroom : (post_body { m with mutex := m.mutex - 1 } x).last + xs.length
        ≤ SYS_MBOX_SIZE := by
      rw [hla, ha1]
      unfold SYS_MBOX_SIZE at *
      omega
    obtain ⟨i1, i2, i3, i4, i5⟩ := ih (post_body { m with mutex := m.mutex - 1 } x)
      (by rw [hmu2]; exact hm) (by rw [hla]; exact ha2) hroom
    simp only [trypost_all, trypost_free m x hm, List.length_cons, List.replicate_succ]
    refine ⟨by rw [i1], by rw [i2, hf], ?_, by rw [i4, hmu2], by rw [i5, hma]; omega⟩
    rw [i3, hla, ha1]
    unfold SYS_MBOX_SIZE at *
    omega

/-- The mailbox after a first post and the posts that follow. -/
theorem trypost_all_cons (m : sys_mbox_s) (x : Nat) (xs : List Nat) :
    (trypost_all m (x :: xs)).2 = (trypost_all (sys_mbox_trypost m x).2 xs).2 :=
  rfl

/-- Posts that do not reach the end of the array leave the entries below
`last` as they are. -/
theorem trypost_all_frame : ∀ (xs : List Nat) (m : sys_mbox_s), m.mutex ≠ 0 →
    m.last < SYS_MBOX_SIZE → m.last + xs.length ≤ SYS_MBOX_SIZE →
    ∀ i, i < m.last → (trypost_all m xs).2.msgs i = m.msgs i := by
  intro xs
  induction xs with
  | nil =>
    intro m _ _ _ i _
    rfl
  | cons x xs ih =>
    intro m hm hl h i hi
    simp only [List.length_cons] at h
    obtain ⟨_, _, hla, hms, _, hmu⟩ := post_body_fields { m with mutex := m.mutex - 1 } x
    obtain ⟨ha1, ha2⟩ := advance_lt m.last hl
    simp only at hla hms hmu
    have hstore : (post_body { m with mutex := m.mutex - 1 } x).msgs i = m.msgs i := by
      rw [hms]
      have : i ≠ m.last := by omega
      simp [store, this]
    simp only [trypost_all, trypost_free m x hm]
    cases xs with
    | nil => exact hstore
    | cons y ys =>
      simp only [List.length_cons] at h
      have hlast : (post_body { m with mutex := m.mutex - 1 } x).last = m.last + 1 := by
        rw [hla, ha1]
        unfold SYS_MBOX_SIZE at *
        omega
      rw [ih (post_body { m with mutex := m.mutex - 1 } x) (by rw [hmu]; omega)
        (by rw [hla]; exact ha2)
        (by rw [hlast]; simp only [List.length_cons]; omega) i (by rw [hlast]; omega)]
      exact hstore

/-- One more entry at the far end of a stretch of the ring. -/
theorem ring_list_succ_right (msgs : Nat → Nat) (f n : Nat) :
    ring_list msgs f (n + 1) = ring_list msgs f n ++ [msgs ((f + n) % SYS_MBOX_SIZE)] := by
  unfold ring_list
  rw [List.range_succ, List.map_append]
  rfl

/-- One more entry at the near end of a stretch of the ring. -/
theorem ring_list_succ_left (msgs : Nat → Nat) (f n : Nat) :
    ring_list msgs f (n + 1)
      = msgs (f % SYS_MBOX_SIZE) :: ring_list msgs ((f + 1) % SYS_MBOX_SIZE) n := by
  unfold ring_list
  rw [List.range_succ_eq_map, List.map_cons, List.map_map]
  congr 1
  apply List.map_congr_left
  intro i _
  simp only [Function.comp, SYS_MBOX_SIZE]
  congr 1
  omega

/-- A store outside a stretch of the ring does not change it. -/
theorem ring_list_store (msgs : Nat → Nat) (f n k x : Nat)
    (h : ∀ i, i < n → (f + i) % SYS_MBOX_SIZE ≠ k) :
    ring_list (store msgs k x) f n = ring_list msgs f n := by
  unfold ring_list
  apply List.map_congr_left
  intro i hi
  have := h i (List.mem_range.mp hi)
  simp [store, this]

/-- With both indices in range, `last` lies `occupied` slots after `first`,
no slot before it is `last`, and the count is zero exactly when the indices
are equal. -/
theorem occupied_spec (m : sys_mbox_s) (hf : m.first < SYS_MBOX_SIZE)
    (hl : m.last < SYS_MBOX_SIZE) :
    (m.first + occupied m) % SYS_MBOX_SIZE = m.last ∧ occupied m < SYS_MBOX_SIZE ∧
      (occupied m = 0 ↔ m.first = m.last) ∧
      ∀ i, i < occupied m → (m.first + i) % SYS_MBOX_SIZE ≠ m.last := by
  unfold occupied
  unfold SYS_MBOX_SIZE at *
  split
  · refine ⟨by omega, by omega, by omega, ?_⟩
    intro i hi
    omega
  · refine ⟨by omega, by omega, by omega, ?_⟩
    intro i hi
    omega

/-- Posting with at least two free slots appends the message to the pending
list. -/
theorem pending_post_body (m : sys_mbox_s) (x : Nat) (hf : m.first < SYS_MBOX_SIZE)
    (hl : m.last < SYS_MBOX_SIZE) (hroom : occupied m < SYS_MBOX_SIZE - 1) :
    pending (post_body m x) = pending m ++ [x] := by
  obtain ⟨_, h1, h2, h3, _, _⟩ := post_body_fields m x
  obtain ⟨ha, _⟩ := advance_lt m.last hl
  obtain ⟨o1, _, _, o4⟩ := occupied_spec m hf hl
  have hocc : occupied (post_body m x) = occupied m + 1 := by
    unfold occupied at *
    rw [h1, h2, ha]
    unfold SYS_MBOX_SIZE at *
    split <;> split <;> omega
  unfold pending
  rw [hocc, h1, h3, ring_list_succ_right, ring_list_store _ _ _ _ _ o4, o1]
  simp [store]

/-- With differing indices the pending list starts with the message at
`first`, and advancing `first` removes it. -/
theorem pending_fetch (m : sys_mbox_s) (hf : m.first < SYS_MBOX_SIZE)
    (hl : m.last < SYS_MBOX_SIZE) (hne : m.first ≠ m.last) :
    pending m = m.msgs m.first :: pending { m with first := advance m.first } := by
  obtain ⟨ha, _⟩ := advance_lt m.first hf
  have hocc : occupied m = occupied { m with first := advance m.first } + 1 := by
    unfold occupied
    simp only
    rw [ha]
    unfold SYS_MBOX_SIZE at *
    split <;> split <;> omega
  unfold pending
  rw [hocc, ring_list_succ_left, Nat.mod_eq_of_lt hf]
  simp only
  rw [ha]

/-- The pending list has `occupied` entries. -/
theorem pending_length (m : sys_mbox_s) : (pending m).length = occupied m := by
  simp [pending, ring_list]

/-- One post of the code, seen on the pending list. -/
theorem fifo_step_post (m : sys_mbox_s) (x : Nat) (hf : m.first < SYS_MBOX_SIZE)
    (hl : m.last < SYS_MBOX_SIZE)
    (hroom : (pending m).length < SYS_MBOX_SIZE - 1) :
    (post_body { m with mutex := m.mutex - 1 } x).first < SYS_MBOX_SIZE ∧
    (post_body { m with mutex := m.mutex - 1 } x).last < SYS_MBOX_SIZE ∧
    (post_body { m with mutex := m.mutex - 1 } x).mutex ≠ 0 ∧
    pending (post_body { m with mutex := m.mutex - 1 } x) = pending m ++ [x] := by
  obtain ⟨_, h1, h2, _, _, h5⟩ := post_body_fields { m with mutex := m.mutex - 1 } x
  rw [pending_length] at hroom
  refine ⟨by rw [h1]; exact hf, by rw [h2]; exact (advance_lt m.last hl).2,
    by rw [h5]; simp, ?_⟩
  exact pending_post_body { m with mutex := m.mutex - 1 } x hf hl hroom

/-- One fetch of the code, seen on the pending list. -/
theorem fifo_step_fetch (SYS_MSPERTICK : Nat) (clock : Nat → Nat) (m : sys_mbox_s)
    (h : Bool) (t y : Nat) (q : List Nat) (hf : m.first < SYS_MBOX_SIZE)
    (hl : m.last < SYS_MBOX_SIZE) (hm : m.mutex ≠ 0) (hp : pending m = y :: q) :
    sys_arch_mbox_fetch SYS_MSPERTICK clock m h t
      = some (Call.returns
          { ret := 0, msg := if h then some y else none
            mbox := { m with first := advance m.first } }) ∧
    advance m.first < SYS_MBOX_SIZE ∧
    pending { m with first := advance m.first } = q := by
  obtain ⟨_, _, o3, _⟩ := occupied_spec m hf hl
  have hne : m.first ≠ m.last := by
    intro heq
    have h0 := o3.mpr heq
    rw [← pending_length, hp] at h0
    simp at h0
  have hpf := pending_fetch m hf hl hne
  rw [hp] at hpf
  simp only [List.cons.injEq] at hpf
  refine ⟨?_, (advance_lt m.first hf).2, hpf.2.symm⟩
  rw [fetch_nonempty SYS_MSPERTICK clock m h t hm hne, hpf.1]

/-- The code refines the FIFO queue of capacity `SYS_MBOX_SIZE - 1`: whatever
the queue of the spec shows for a sequence of calls, the code shows the same,
and the messages left pending are the same. -/
theorem fifo_refinement (SYS_MSPERTICK : Nat) (clock : Nat → Nat) :
    ∀ (calls : List MboxCall) (m : sys_mbox_s) (q0 : List Nat) (obs : List Obs) (q : List Nat),
      m.first < SYS_MBOX_SIZE → m.last < SYS_MBOX_SIZE → m.mutex ≠ 0 → pending m = q0 →
      fifo_obs (SYS_MBOX_SIZE - 1) q0 calls = some (obs, q) →
      ∃ m1, run_obs SYS_MSPERTICK clock m calls = some (obs, m1) ∧ pending m1 = q := by
  intro calls
  induction calls with
  | nil =>
    intro m q0 obs q _ _ _ hp h
    simp only [fifo_obs, Option.some.injEq, Prod.mk.injEq] at h
    exact ⟨m, by simp [run_obs, h.1], by rw [hp, h.2]⟩
  | cons c cs ih =>
    intro m q0 obs q hf hl hm hp h
    cases c with
    | post x =>
      simp only [fifo_obs] at h
      by_cases hroom : q0.length < SYS_MBOX_SIZE - 1
      · simp only [hroom, if_true, Option.map_eq_some', Prod.mk.injEq] at h
        obtain ⟨⟨obs1, q1⟩, h1, h2, h3⟩ := h
        obtain ⟨s1, s2, s3, s4⟩ := fifo_step_post m x hf hl (by rw [hp]; exact hroom)
        obtain ⟨m1, r1, r2⟩ := ih _ (q0 ++ [x]) obs1 q1 s1 s2 s3 (by rw [s4, hp]) h1
        refine ⟨m1, ?_, by rw [r2]; exact h3⟩
        simp only [run_obs, post_free m x hm, r1, Option.map_some']
        rw [← h2]
      · simp [hroom] at h
    | trypost x =>
      simp only [fifo_obs] at h
      by_cases hroom : q0.length < SYS_MBOX_SIZE - 1
      · simp only [hroom, if_true, Option.map_eq_some', Prod.mk.injEq] at h
        obtain ⟨⟨obs1, q1⟩, h1, h2, h3⟩ := h
        obtain ⟨s1, s2, s3, s4⟩ := fifo_step_post m x hf hl (by rw [hp]; exact hroom)
        obtain ⟨m1, r1, r2⟩ := ih _ (q0 ++ [x]) obs1 q1 s1 s2 s3 (by rw [s4, hp]) h1
        refine ⟨m1, ?_, by rw [r2]; exact h3⟩
        simp only [run_obs, trypost_free m x hm, r1, Option.map_some']
        rw [← h2]
      · simp [hroom] at h
    | fetch b t =>
      cases q0 with
      | nil => simp [fifo_obs] at h
      | cons y q' =>
        simp only [fifo_obs, Option.map_eq_some', Prod.mk.injEq] at h
        obtain ⟨⟨obs1, q1⟩, h1, h2, h3⟩ := h
        obtain ⟨s1, s2, s3⟩ := fifo_step_fetch SYS_MSPERTICK clock m b t y q' hf hl hm hp
        obtain ⟨m1, r1, r2⟩ := ih { m with first := advance m.first } q' obs1 q1 s2 hl hm s3 h1
        refine ⟨m1, ?_, by rw [r2]; exact h3⟩
        simp only [run_obs, s1, r1, Option.map_some']
        rw [← h2]
    | tryfetch b =>
      cases q0 with
      | nil => simp [fifo_obs] at h
      | cons y q' =>
        simp only [fifo_obs, Option.map_eq_some', Prod.mk.injEq] at h
        obtain ⟨⟨obs1, q1⟩, h1, h2, h3⟩ := h
        obtain ⟨s1, s2, s3⟩ := fifo_step_fetch SYS_MSPERTICK clock m b 1 y q' hf hl hm hp
        obtain ⟨m1, r1, r2⟩ := ih { m with first := advance m.first } q' obs1 q1 s2 hl hm s3 h1
        refine ⟨m1, ?_, by rw [r2]; exact h3⟩
        simp only [run_obs, sys_arch_mbox_tryfetch, s1, r1, Option.map_some']
        rw [← h2]

/-- A mailbox created by `sys_mbox_new` delivers in FIFO order: for every
sequence of calls that the FIFO queue of capacity `SYS_MBOX_SIZE - 1` admits
(every fetch finds a message pending, no post finds `SYS_MBOX_SIZE - 1`
pending), the code returns from every call and shows what the queue shows. -/
theorem fifo_after_new (g g1 : Globals) (mbox0 m : sys_mbox_s) (size : Int)
    (mail_ok mutex_ok : Bool) (SYS_MSPERTICK : Nat) (clock : Nat → Nat)
    (calls : List MboxCall) (obs : List Obs) (q : List Nat)
    (hnew : sys_mbox_new g mbox0 size mail_ok mutex_ok = (ERR_OK, m, g1))
    (hq : fifo_obs (SYS_MBOX_SIZE - 1) [] calls = some (obs, q)) :
    ∃ m1, run_obs SYS_MSPERTICK clock m calls = some (obs, m1) ∧ pending m1 = q := by
  obtain ⟨h1, h2, _, h4, _⟩ := sys_mbox_new_ok g mbox0 size mail_ok mutex_ok m g1 hnew
  apply fifo_refinement SYS_MSPERTICK clock calls m [] obs q
    (by rw [h1]; decide) (by rw [h2]; decide) (by rw [h4]; decide) _ hq
  simp [pending, ring_list, occupied, h1, h2]

/-- Once `SYS_MBOX_SIZE` messages are pending in a ring that started empty,
`last` has come round to `first`: a timed fetch takes the mailbox for empty. -/
theorem full_ring_fetch_times_out (SYS_MSPERTICK : Nat) (clock : Nat → Nat)
    (m : sys_mbox_s) (xs : List Nat) (has_msg : Bool) (timeout : Nat)
    (hf : m.first = 0) (hl : m.last = 0) (hmutex : m.mutex ≠ 0)
    (hlen : xs.length = SYS_MBOX_SIZE) (ht : timeout ≠ 0) :
    (trypost_all m xs).1 = List.replicate SYS_MBOX_SIZE ERR_OK ∧
      sys_arch_mbox_fetch SYS_MSPERTICK clock (trypost_all m xs).2 has_msg timeout
        = some (Call.returns { ret := SYS_ARCH_TIMEOUT, msg := none,
                               mbox := { (trypost_all m xs).2 with mail := 0 } }) := by
  obtain ⟨h1, h2, h3, h4, _⟩ := trypost_all_spec xs m hmutex
    (by rw [hl]; decide) (by rw [hl, hlen]; decide)
  refine ⟨by rw [h1, hlen], ?_⟩
  apply fetch_empty_timed
  · rw [h4]; exact hmutex
  · rw [h2, h3, hf, hl, hlen]; decide
  · exact ht

/-- C1, evaluated where the code fails: `sys_mbox_new` accepts the size
`SYS_MBOX_SIZE` = 500; the 500 messages 1, 2, ..., 500 are then posted with
`sys_mbox_trypost`, each call returning `ERR_OK`; 500 messages are pending,
yet the first `sys_arch_mbox_fetch` (timeout 1) returns `SYS_ARCH_TIMEOUT`
and delivers no message instead of delivering message 1. -/
theorem C1_fetch_after_500_posts_times_out :
    (sys_mbox_new (sys_init (boot 1)) zero_mbox 500 true true).1 = ERR_OK ∧
    (trypost_all (new_mbox 500) (List.range' 1 500)).1
      = List.replicate 500 ERR_OK ∧
    ret_of (sys_arch_mbox_fetch 1 (fun _ => 0)
      (trypost_all (new_mbox 500) (List.range' 1 500)).2 true 1)
      = some SYS_ARCH_TIMEOUT ∧
    msg_of (sys_arch_mbox_fetch 1 (fun _ => 0)
      (trypost_all (new_mbox 500) (List.range' 1 500)).2 true 1) = none := by
  obtain ⟨h1, h2⟩ := full_ring_fetch_times_out 1 (fun _ => 0) (new_mbox 500)
    (List.range' 1 500) true 1 rfl rfl (by decide)
    (by simp [SYS_MBOX_SIZE]) (by decide)
  refine ⟨by decide, h1, ?_, ?_⟩
  · rw [h2]; rfl
  · rw [h2]; rfl

/-- The indices stay below `SYS_MBOX_SIZE` across one call. -/
theorem call_step_inv (SYS_MSPERTICK : Nat) (clock : Nat → Nat) (m m1 : sys_mbox_s)
    (c : MboxCall) (hf : m.first < SYS_MBOX_SIZE) (hl : m.last < SYS_MBOX_SIZE)
    (h : call_step SYS_MSPERTICK clock m c = some m1) :
    m1.first < SYS_MBOX_SIZE ∧ m1.last < SYS_MBOX_SIZE := by
  have hpost : ∀ (x : Nat) (k : Nat),
      (post_body { m with mutex := k } x).first < SYS_MBOX_SIZE ∧
      (post_body { m with mutex := k } x).last < SYS_MBOX_SIZE := by
    intro x k
    obtain ⟨_, h1, h2, _⟩ := post_body_fields { m with mutex := k } x
    rw [h1, h2]
    exact ⟨hf, (advance_lt m.last hl).2⟩
  have hfetch : ∀ (b : Bool) (t : Nat) (r : FetchRet),
      sys_arch_mbox_fetch SYS_MSPERTICK clock m b t = some (Call.returns r) →
      r.mbox.first < SYS_MBOX_SIZE ∧ r.mbox.last < SYS_MBOX_SIZE := by
    intro b t r hr
    obtain ⟨_, hc⟩ := fetch_returns_inv SYS_MSPERTICK clock m b t r hr
    rcases hc with ⟨_, _, hr1⟩ | ⟨_, hr1⟩
    · rw [hr1]; exact ⟨hf, hl⟩
    · rw [hr1]; exact ⟨(advance_lt m.first hf).2, hl⟩
  cases c with
  | post x =>
    by_cases hm : m.mutex = 0
    · simp [call_step, sys_mbox_post, sem_wait, hm] at h
    · simp only [call_step, post_free m x hm, Option.some.injEq] at h
      rw [← h]; exact hpost x _
  | trypost x =>
    by_cases hm : m.mutex = 0
    · simp [call_step, sys_mbox_trypost, sem_trywait, hm] at h
      rw [← h]; exact ⟨hf, hl⟩
    · simp only [call_step, trypost_free m x hm, Option.some.injEq] at h
      rw [← h]; exact hpost x _
  | fetch b t =>
    simp only [call_step] at h
    cases hr : sys_arch_mbox_fetch SYS_MSPERTICK clock m b t with
    | none => simp [hr] at h
    | some c1 =>
      cases c1 with
      | blocks => simp [hr] at h
      | returns r =>
        simp only [hr, Option.some.injEq] at h
        rw [← h]; exact hfetch b t r hr
  | tryfetch b =>
    simp only [call_step, sys_arch_mbox_tryfetch] at h
    cases hr : sys_arch_mbox_fetch SYS_MSPERTICK clock m b 1 with
    | none => simp [hr] at h
    | some c1 =>
      cases c1 with
      | blocks => simp [hr] at h
      | returns r =>
        simp only [hr, Option.some.injEq] at h
        rw [← h]; exact hfetch b 1 r hr

/-- The indices stay below `SYS_MBOX_SIZE` across any sequence of calls. -/
theorem run_calls_inv (SYS_MSPERTICK : Nat) (clock : Nat → Nat) :
    ∀ (calls : List MboxCall) (m m1 : sys_mbox_s),
      m.first < SYS_MBOX_SIZE → m.last < SYS_MBOX_SIZE →
      run_calls SYS_MSPERTICK clock m calls = some m1 →
      m1.first < SYS_MBOX_SIZE ∧ m1.last < SYS_MBOX_SIZE := by
  intro calls
  induction calls with
  | nil =>
    intro m m1 hf hl h
    simp only [run_calls, Option.some.injEq] at h
    rw [← h]; exact ⟨hf, hl⟩
  | cons c cs ih =>
    intro m m1 hf hl h
    simp only [run_calls] at h
    cases hs : call_step SYS_MSPERTICK clock m c with
    | none => simp [hs] at h
    | some m2 =>
      simp only [hs] at h
      obtain ⟨h1, h2⟩ := call_step_inv SYS_MSPERTICK clock m m2 c hf hl hs
      exact ih m2 m1 h1 h2 h

/-- C2, refuted as stated: a mailbox created with capacity 1 accepts two
`sys_mbox_trypost` calls, after which `first`/`last` stand for 2 occupied
slots, more than the capacity. -/
theorem C2_capacity_not_enforced :
    (sys_mbox_new (sys_init (boot 1)) zero_mbox 1 true true).1 = ERR_OK ∧
    ∃ m1, run_calls 1 (fun _ => 0) (new_mbox 1)
        [MboxCall.trypost 10, MboxCall.trypost 20] = some m1 ∧
      ¬ occupied m1 ≤ 1 := by
  refine ⟨by decide, _, rfl, by decide⟩

/-- C2, amended: for every mailbox created by `sys_mbox_new` (any requested
capacity) and every sequence of `sys_mbox_post`, `sys_mbox_trypost`,
`sys_arch_mbox_fetch` and `sys_arch_mbox_tryfetch` calls, `first` and `last`
stay below `SYS_MBOX_SIZE` and the number of occupied slots they stand for is
at most `SYS_MBOX_SIZE - 1`. -/
theorem C2_occupancy_below_ring_size (g g1 : Globals) (mbox0 m m1 : sys_mbox_s)
    (size : Int) (mail_ok mutex_ok : Bool) (SYS_MSPERTICK : Nat) (clock : Nat → Nat)
    (calls : List MboxCall)
    (hnew : sys_mbox_new g mbox0 size mail_ok mutex_ok = (ERR_OK, m, g1))
    (hrun : run_calls SYS_MSPERTICK clock m calls = some m1) :
    m1.first < SYS_MBOX_SIZE ∧ m1.last < SYS_MBOX_SIZE ∧
      occupied m1 ≤ SYS_MBOX_SIZE - 1 := by
  obtain ⟨h1, h2, _⟩ := sys_mbox_new_ok g mbox0 size mail_ok mutex_ok m g1 hnew
  obtain ⟨hf, hl⟩ := run_calls_inv SYS_MSPERTICK clock calls m m1
    (by rw [h1]; decide) (by rw [h2]; decide) hrun
  refine ⟨hf, hl, ?_⟩
  unfold occupied
  unfold SYS_MBOX_SIZE at *
  split <;> omega

/-- C2, amended, at a concrete run: capacity 2, three posts and a fetch. -/
theorem C2_occupancy_below_ring_size_witness :
    sys_mbox_new (sys_init (boot 1)) zero_mbox 2 true true
      = (ERR_OK, new_mbox 2, (sys_mbox_new (sys_init (boot 1)) zero_mbox 2 true true).2.2) ∧
    ∃ m1 : sys_mbox_s,
      run_calls 1 (fun _ => 0) (new_mbox 2)
        [MboxCall.post 10, MboxCall.trypost 20, MboxCall.post 30, MboxCall.fetch true 0]
        = some m1 ∧
      m1.first < SYS_MBOX_SIZE ∧ m1.last < SYS_MBOX_SIZE ∧
      occupied m1 ≤ SYS_MBOX_SIZE - 1 :=
  ⟨rfl, _, rfl,
    C2_occupancy_below_ring_size (sys_init (boot 1)) _ zero_mbox _ _ 2 true true 1
      (fun _ => 0)
      [MboxCall.post 10, MboxCall.trypost 20, MboxCall.post 30, MboxCall.fetch true 0]
      rfl rfl⟩

/-- C3, refuted as stated, on two full mailboxes. (1) A mailbox created with
capacity 1 that holds one message has no free slot, yet `sys_mbox_trypost`
returns `ERR_OK`, not `ERR_MEM`, moves `last`, stores the message and signals
`mail`. (2) A mailbox created with capacity 500 into which the messages
1, ..., 500 have been posted holds an unfetched message in every slot of
`msgs`, yet `sys_mbox_trypost` of 501 returns `ERR_OK` and puts 501 in slot 0
in place of the unfetched message 1. -/
theorem C3_trypost_on_full_mailbox_posts :
    ((sys_mbox_new (sys_init (boot 1)) zero_mbox 1 true true).1 = ERR_OK ∧
      (sys_mbox_trypost (new_mbox 1) 10).1 = ERR_OK ∧
      occupied (sys_mbox_trypost (new_mbox 1) 10).2 = 1 ∧
      (sys_mbox_trypost (sys_mbox_trypost (new_mbox 1) 10).2 20).1 = ERR_OK ∧
      (sys_mbox_trypost (sys_mbox_trypost (new_mbox 1) 10).2 20).1 ≠ ERR_MEM ∧
      (sys_mbox_trypost (sys_mbox_trypost (new_mbox 1) 10).2 20).2.last
        ≠ (sys_mbox_trypost (new_mbox 1) 10).2.last ∧
      (sys_mbox_trypost (sys_mbox_trypost (new_mbox 1) 10).2 20).2.msgs 1
        ≠ (sys_mbox_trypost (new_mbox 1) 10).2.msgs 1 ∧
      (sys_mbox_trypost (sys_mbox_trypost (new_mbox 1) 10).2 20).2.mail
        ≠ (sys_mbox_trypost (new_mbox 1) 10).2.mail) ∧
    ((sys_mbox_new (sys_init (boot 1)) zero_mbox 500 true true).1 = ERR_OK ∧
      (trypost_all (new_mbox 500) (List.range' 1 500)).1 = List.replicate 500 ERR_OK ∧
      (trypost_all (new_mbox 500) (List.range' 1 500)).2.msgs 0 = 1 ∧
      (sys_mbox_trypost (trypost_all (new_mbox 500) (List.range' 1 500)).2 501).1 = ERR_OK ∧
      (sys_mbox_trypost (trypost_all (new_mbox 500) (List.range' 1 500)).2 501).2.msgs 0
        = 501) := by
  refine ⟨by decide, by decide, ?_⟩
  have hlen : (List.range' 1 500).length = 500 := by simp only [List.length_range']
  have hlen2 : (List.range' 2 499).length = 499 := by simp only [List.length_range']
  obtain ⟨h1, _, h3, h4, _⟩ := trypost_all_spec (List.range' 1 500) (new_mbox 500)
    (by decide) (by decide) (by rw [hlen]; decide)
  rw [hlen] at h1 h3
  have hlast : (trypost_all (new_mbox 500) (List.range' 1 500)).2.last = 0 := by
    rw [h3]
    decide
  have hmutex : (trypost_all (new_mbox 500) (List.range' 1 500)).2.mutex ≠ 0 := by
    rw [h4]
    decide
  have hslot : (trypost_all (new_mbox 500) (List.range' 1 500)).2.msgs 0 = 1 := by
    have hr : List.range' 1 500 = 1 :: List.range' 2 499 := rfl
    rw [hr, trypost_all_cons]
    rw [trypost_all_frame (List.range' 2 499) (sys_mbox_trypost (new_mbox 500) 1).2
      (by decide) (by decide) (by rw [hlen2]; decide) 0 (by decide)]
    decide
  refine ⟨h1, hslot, ?_, ?_⟩
  · rw [trypost_free _ 501 hmutex]
  · rw [trypost_free _ 501 hmutex]
    obtain ⟨_, _, _, hms, _, _⟩ := post_body_fields
      { (trypost_all (new_mbox 500) (List.range' 1 500)).2 with
        mutex := (trypost_all (new_mbox 500) (List.range' 1 500)).2.mutex - 1 } 501
    rw [hms]
    simp only
    rw [hlast]
    rfl

/-- C3, amended: `sys_mbox_trypost` returns `ERR_MEM` exactly when the access
semaphore `mutex` cannot be taken at once, and then leaves the whole mailbox
(`first`, `last`, every stored message, `mail`) unchanged; there is no check
for a full queue: whenever the mutex is free it returns `ERR_OK`, having
stored the message at `last`, advanced `last` and signalled `mail`. -/
theorem C3_trypost_rejects_only_on_busy_mutex (mbox : sys_mbox_s) (msg : Nat) :
    ((sys_mbox_trypost mbox msg).1 = ERR_MEM ↔ mbox.mutex = 0) ∧
    ((sys_mbox_trypost mbox msg).1 = ERR_MEM → (sys_mbox_trypost mbox msg).2 = mbox) ∧
    ((sys_mbox_trypost mbox msg).1 ≠ ERR_MEM →
      (sys_mbox_trypost mbox msg).1 = ERR_OK ∧
      (sys_mbox_trypost mbox msg).2.msgs = store mbox.msgs mbox.last msg ∧
      (sys_mbox_trypost mbox msg).2.last = advance mbox.last ∧
      (sys_mbox_trypost mbox msg).2.first = mbox.first ∧
      (sys_mbox_trypost mbox msg).2.mail = mbox.mail + 1 ∧
      (sys_mbox_trypost mbox msg).2.mutex = mbox.mutex) := by
  have hne : ERR_OK ≠ ERR_MEM := by decide
  by_cases hm : mbox.mutex = 0
  · have h0 : sys_mbox_trypost mbox msg = (ERR_MEM, mbox) := by
      obtain ⟨used, first, last, msgs, mail, mutex⟩ := mbox
      simp only at hm
      subst hm
      simp [sys_mbox_trypost, sem_trywait]
    rw [h0]
    exact ⟨⟨fun _ => hm, fun _ => rfl⟩, fun _ => rfl, fun h => absurd rfl h⟩
  · rw [trypost_free mbox msg hm]
    obtain ⟨_, h1, h2, h3, h4, h5⟩ := post_body_fields { mbox with mutex := mbox.mutex - 1 } msg
    simp only at h1 h2 h3 h4 h5
    refine ⟨⟨fun h => absurd h hne, fun h => absurd h hm⟩, fun h => absurd h hne, fun _ => ?_⟩
    exact ⟨rfl, h3, h2, h1, h4, by rw [h5]; omega⟩

/-- Posting no message leaves the mailbox as it is. -/
theorem trypost_all_nil (m : sys_mbox_s) : (trypost_all m []).2 = m := rfl

/-- While nobody posts, the loop with other threads is the loop `fetch_loop`. -/
theorem fetch_loop_env_quiet (clock : Nat → Nat) (timeout : Nat) :
    ∀ (fuel k : Nat) (posted : List (List Nat)) (mbox : sys_mbox_s) (s e : Nat),
      (∀ l ∈ posted, l = []) →
      fetch_loop_env clock timeout fuel k posted mbox s e
        = fetch_loop clock timeout fuel k mbox s e := by
  intro fuel
  induction fuel with
  | zero => intro k posted mbox s e _; rfl
  | succ n ih =>
    intro k posted mbox s e hq
    have hhead : posted.headD [] = [] := by
      cases posted with
      | nil => rfl
      | cons l ls => exact hq l (List.mem_cons_self l ls)
    have htail : ∀ l ∈ posted.tail, l = [] := by
      intro l hl
      exact hq l (List.mem_of_mem_tail hl)
    unfold fetch_loop_env fetch_loop
    simp only [hhead, trypost_all_nil]
    repeat' (first | rfl | exact ih _ _ _ _ _ htail | split)

/-- While nobody posts, the fetch with other threads is
`sys_arch_mbox_fetch`. -/
theorem fetch_env_quiet (SYS_MSPERTICK : Nat) (clock : Nat → Nat)
    (mbox : sys_mbox_s) (has_msg : Bool) (timeout : Nat) (posted : List (List Nat))
    (hq : ∀ l ∈ posted, l = []) :
    sys_arch_mbox_fetch_env SYS_MSPERTICK clock mbox has_msg timeout posted
      = sys_arch_mbox_fetch SYS_MSPERTICK clock mbox has_msg timeout := by
  have hsum : (posted.map List.length).sum = 0 := by
    induction posted with
    | nil => rfl
    | cons l ls ih =>
      have hl : l = [] := hq l (List.mem_cons_self l ls)
      have := ih (fun x hx => hq x (List.mem_cons_of_mem l hx))
      simp [hl, this]
  unfold sys_arch_mbox_fetch_env sys_arch_mbox_fetch
  simp only [hsum, Nat.add_zero]
  split
  · rfl
  · rw [fetch_loop_env_quiet clock timeout _ _ posted _ _ _ hq]

/-- Each posted message adds at most one to the count of `mail`. -/
theorem trypost_all_mail_le :
    ∀ (l : List Nat) (m : sys_mbox_s), (trypost_all m l).2.mail ≤ m.mail + l.length := by
  intro l
  induction l with
  | nil => intro m; exact Nat.le_refl _
  | cons x xs ih =>
    intro m
    have h1 : (sys_mbox_trypost m x).2.mail ≤ m.mail + 1 := by
      unfold sys_mbox_trypost sem_trywait
      by_cases hm : m.mutex = 0
      · simp [hm]
      · simp [hm, post_body, sem_post]
        split <;> simp
    have h2 := ih (sys_mbox_trypost m x).2
    simp only [trypost_all, List.length_cons]
    omega

/-- The messages of the first wait and those of the later waits. -/
theorem posted_sum (posted : List (List Nat)) :
    (posted.map List.length).sum
      = (posted.headD []).length + (posted.tail.map List.length).sum := by
  cases posted with
  | nil => rfl
  | cons l ls => simp

/-- The loop with other threads does not run out of fuel when it is given more
fuel than the count of `mail` plus the number of messages still to be
posted. -/
theorem fetch_loop_env_fuel (clock : Nat → Nat) (timeout : Nat) :
    ∀ (fuel k : Nat) (posted : List (List Nat)) (mbox : sys_mbox_s) (s e : Nat),
      mbox.mail + (posted.map List.length).sum < fuel →
      fetch_loop_env clock timeout fuel k posted mbox s e ≠ none := by
  intro fuel
  induction fuel with
  | zero => intro k posted mbox s e h; omega
  | succ n ih =>
    intro k posted mbox s e h
    rw [posted_sum] at h
    obtain ⟨used, first, last, msgs, mail, mutex⟩ := mbox
    simp only at h
    unfold fetch_loop_env
    by_cases hfl : first = last
    · subst hfl
      have hle := trypost_all_mail_le (posted.headD [])
        { used := used, first := first, last := first, msgs := msgs, mail := mail,
          mutex := sem_post mutex }
      simp only at hle
      simp only [if_true]
      generalize (trypost_all
          { used := used, first := first, last := first, msgs := msgs, mail := mail,
            mutex := sem_post mutex } (posted.headD [])).2 = M at hle ⊢
      obtain ⟨u1, f1, l1, ms1, mail1, mutex1⟩ := M
      simp only at hle
      by_cases hm0 : mail1 = 0
      · by_cases ht : timeout = 0
        · simp [ht, sem_wait, hm0]
        · simp [ht, sem_timedwait, hm0]
      · by_cases hx0 : mutex1 = 0
        · by_cases ht : timeout = 0
          · simp [ht, sem_wait, hm0, hx0]
          · simp [ht, sem_timedwait, sem_wait, hm0, hx0]
        · by_cases ht : timeout = 0
          · subst ht
            simp only [sem_wait, hm0, hx0, ne_eq, not_true_eq_false, if_false]
            apply ih
            simp only
            omega
          · simp only [ht, sem_timedwait, sem_wait, hm0, hx0, ne_eq, not_true_eq_false,
              not_false_eq_true, if_false, if_true]
            apply ih
            simp only
            omega
    · simp [hfl]

/-- The fetch with other threads never runs out of loop fuel. -/
theorem sys_arch_mbox_fetch_env_total (SYS_MSPERTICK : Nat) (clock : Nat → Nat)
    (mbox : sys_mbox_s) (has_msg : Bool) (timeout : Nat) (posted : List (List Nat)) :
    sys_arch_mbox_fetch_env SYS_MSPERTICK clock mbox has_msg timeout posted ≠ none := by
  unfold sys_arch_mbox_fetch_env
  cases hw : sem_wait mbox.mutex with
  | blocks => simp
  | returns p =>
    obtain ⟨r, mutex1⟩ := p
    have hne := fetch_loop_env_fuel clock timeout
      (mbox.mail + (posted.map List.length).sum + 1) 0 posted
      { mbox with mutex := mutex1 } 0 0
      (by show mbox.mail + (posted.map List.length).sum
            < mbox.mail + (posted.map List.length).sum + 1; omega)
    cases hl : fetch_loop_env clock timeout (mbox.mail + (posted.map List.length).sum + 1) 0
        posted { mbox with mutex := mutex1 } 0 0 with
    | none => exact absurd hl hne
    | some x => cases x <;> simp [hl]

/-- C6, refuted as stated: a mailbox just created (empty, `first` = 0), one
millisecond per tick; `sys_arch_mbox_fetch` with timeout 0xFFFFFFFF releases
the mutex and waits for `mail`; another thread posts the message 10, which
ends the wait; the tick samples around the wait are 0 and 0xFFFFFFFF. The
fetch delivers 10, advances `first` to 1 and returns the elapsed time
0xFFFFFFFF, which is `SYS_ARCH_TIMEOUT`: `first` is not as before the call
(nor are `last` and `msgs[0]`, which the post has written). -/
theorem C6_fetch_ended_by_post_returns_sentinel :
    ∃ r, sys_arch_mbox_fetch_env 1 (fun k => if k = 0 then 0 else 0xFFFFFFFF) (new_mbox 4)
        true 0xFFFFFFFF [[10]] = some (Call.returns r) ∧
      r.ret = SYS_ARCH_TIMEOUT ∧ r.msg = some 10 ∧
      (new_mbox 4).first = 0 ∧ (new_mbox 4).last = 0 ∧ (new_mbox 4).msgs 0 = 0 ∧
      r.mbox.first = 1 ∧ r.mbox.last = 1 ∧ r.mbox.msgs 0 = 10 ∧
      r.mbox.mutex = (new_mbox 4).mutex := by
  refine ⟨_, rfl, ?_, ?_, ?_, ?_, ?_, ?_, ?_, ?_, ?_⟩ <;> decide

/-- C6, amended: for every mailbox state and every timeout (the timeouts above
0 included), while no other thread posts to the mailbox during the call
(`posted` holds no message), if `sys_arch_mbox_fetch` returns
`SYS_ARCH_TIMEOUT` then `first`, `last` and the stored messages are as before
the call and the count of `mutex` is what it was before the call. -/
theorem C6_timed_out_fetch_leaves_mailbox (SYS_MSPERTICK : Nat) (clock : Nat → Nat)
    (mbox : sys_mbox_s) (has_msg : Bool) (timeout : Nat) (posted : List (List Nat))
    (r : FetchRet)
    (hquiet : ∀ l ∈ posted, l = [])
    (hret : sys_arch_mbox_fetch_env SYS_MSPERTICK clock mbox has_msg timeout posted
      = some (Call.returns r))
    (hto : r.ret = SYS_ARCH_TIMEOUT) :
    r.mbox.first = mbox.first ∧ r.mbox.last = mbox.last ∧ r.mbox.msgs = mbox.msgs ∧
      r.mbox.mutex = mbox.mutex ∧ r.mbox.used = mbox.used ∧ r.msg = none := by
  rw [fetch_env_quiet SYS_MSPERTICK clock mbox has_msg timeout posted hquiet] at hret
  obtain ⟨_, hc⟩ := fetch_returns_inv SYS_MSPERTICK clock mbox has_msg timeout r hret
  rcases hc with ⟨_, _, hr⟩ | ⟨_, hr⟩
  · rw [hr]; exact ⟨rfl, rfl, rfl, rfl, rfl, rfl⟩
  · rw [hr] at hto
    have h0 : (0 : Nat) ≠ SYS_ARCH_TIMEOUT := by decide
    exact absurd hto h0

/-- C6, amended, at a concrete input: an empty mailbox with two stale `mail`
signals, timeout 5, nobody posting during the three waits. -/
theorem C6_timed_out_fetch_leaves_mailbox_witness :
    (∀ l ∈ ([[], [], []] : List (List Nat)), l = []) ∧
    sys_arch_mbox_fetch_env 1 (fun k => k)
        { used := 1, first := 3, last := 3, msgs := fun i => i + 7, mail := 2, mutex := 1 }
        true 5 [[], [], []]
      = some (Call.returns
          { ret := SYS_ARCH_TIMEOUT, msg := none
            mbox := { used := 1, first := 3, last := 3, msgs := fun i => i + 7,
                      mail := 0, mutex := 1 } }) ∧
    ((3 : Nat) = 3 ∧ (3 : Nat) = 3 ∧ (fun i : Nat => i + 7) = (fun i : Nat => i + 7) ∧
      (1 : Nat) = 1 ∧ (1 : Nat) = 1 ∧ (none : Option Nat) = none) :=
  ⟨by decide, rfl,
    C6_timed_out_fetch_leaves_mailbox 1 (fun k => k)
      { used := 1, first := 3, last := 3, msgs := fun i => i + 7, mail := 2, mutex := 1 }
      true 5 [[], [], []]
      { ret := SYS_ARCH_TIMEOUT, msg := none
        mbox := { used := 1, first := 3, last := 3, msgs := fun i => i + 7,
                  mail := 0, mutex := 1 } }
      (by decide) rfl rfl⟩

end Xilkernel

/-! ## The uC/OS-III back end -/

namespace UcosIII

/-- A pend on a queue that holds a message returns the oldest one, whatever
the time-out and option. -/
theorem OSQPend_head (q : OS_Q) (m : Nat) (rest : List Nat) (timeout : Nat)
    (opt : OS_OPT_PEND) (hq : q.entries = m :: rest) :
    OSQPend q timeout opt
      = Call.returns (m, OS_ERR.OS_ERR_NONE, { q with entries := rest }) := by
  unfold OSQPend
  rw [hq]

/-- A fetch from a queue whose oldest message is not NULL delivers it and
returns the scaled elapsed time. -/
theorem fetch_head (hz ub : Nat) (q : OS_Q) (m : Nat) (rest : List Nat) (has_buf : Bool)
    (ulTimeOut s e : Nat) (hq : q.entries = m :: rest) (hm : m ≠ 0) :
    sys_arch_mbox_fetch hz ub q has_buf ulTimeOut s e
      = Call.returns { ret := elapsed_ms hz ub s e
                       msg := if has_buf then some m else none
                       q := { q with entries := rest } } := by
  unfold sys_arch_mbox_fetch
  rw [OSQPend_head q m rest _ _ hq]
  simp [hm]

/-- A wait on a semaphore whose count is not zero takes one unit and returns
the scaled elapsed time. -/
theorem sem_wait_available (hz ub : Nat) (sem : OS_SEM) (ulTimeout s e : Nat)
    (hsem : sem.ctr ≠ 0) :
    sys_arch_sem_wait hz ub sem ulTimeout s e
      = Call.returns (elapsed_ms hz ub s e, { sem with ctr := sem.ctr - 1 }) := by
  unfold sys_arch_sem_wait OSSemPend
  simp [hsem]

/-- The scaled elapsed time is never zero. -/
theorem elapsed_ms_pos (hz ub s e : Nat) : 1 ≤ elapsed_ms hz ub s e := by
  have key : ∀ x : Nat, 1 ≤ (if x = 0 then 1 else x) := by
    intro x
    split <;> omega
  exact key _

/-- Equal samples give the scaled elapsed time 1. -/
theorem elapsed_ms_same (hz ub s : Nat) : elapsed_ms hz ub s s = 1 := by
  unfold elapsed_ms elapsed_ticks
  simp

/-- When fewer than 4294967 ticks lie between the samples, the scaled elapsed
time is not the time-out sentinel. -/
theorem elapsed_ms_ne_timeout (hz ub s e : Nat) (hs : s < U32) (he : e < U32)
    (hd : tick_distance s e < 4294967) :
    elapsed_ms hz ub s e ≠ SYS_ARCH_TIMEOUT := by
  have hf : 1000 / hz ≤ 1000 := Nat.div_le_self 1000 hz
  unfold tick_distance at hd
  unfold elapsed_ms elapsed_ticks double_to_OS_TICK SYS_ARCH_TIMEOUT
  unfold U32 at *
  by_cases hw : e < s
  · have h1 : (e + 4294967296 - s) % 4294967296 = e + 4294967296 - s :=
      Nat.mod_eq_of_lt (by omega)
    rw [h1] at hd
    have h2 : 2 ^ 32 - s + e = e + 4294967296 - s := by norm_num; omega
    have h3 : (e + 4294967296 - s) * (1000 / hz) ≤ 4294966 * 1000 :=
      Nat.mul_le_mul (by omega) hf
    simp only [hw, if_true, h2]
    have h4 : (e + 4294967296 - s) * (1000 / hz) < 4294967296 := by omega
    simp only [h4, if_true]
    split <;> omega
  · have h0 : s ≤ e := by omega
    have h1 : (e + 4294967296 - s) % 4294967296 = e - s := by
      have : e + 4294967296 - s = (e - s) + 4294967296 := by omega
      rw [this, Nat.add_mod_right]
      exact Nat.mod_eq_of_lt (by omega)
    rw [h1] at hd
    have h2 : (e - s) % 4294967296 = e - s := Nat.mod_eq_of_lt (by omega)
    have h3 : (e - s) * (1000 / hz) ≤ 4294966 * 1000 := Nat.mul_le_mul (by omega) hf
    simp only [hw, if_false, h2]
    have h4 : ((e - s) * (1000 / hz)) % 4294967296 = (e - s) * (1000 / hz) :=
      Nat.mod_eq_of_lt (by omega)
    rw [h4]
    split <;> omega

/-- C5, evaluated where the code fails: a queue of size 4 accepts the message
NULL (`sys_mbox_trypost` returns `ERR_OK`) and then holds one message, yet
`sys_arch_mbox_tryfetch` returns `SYS_MBOX_EMPTY`, and it has taken the
message out of the queue. -/
theorem C5_null_message_reported_as_empty :
    sys_mbox_trypost { max_qty := 4, entries := [] } 0
      = (ERR_OK, { max_qty := 4, entries := [0] }) ∧
    sys_arch_mbox_tryfetch { max_qty := 4, entries := [0] } true
      = Call.returns { ret := SYS_MBOX_EMPTY, msg := some 0, q := { max_qty := 4, entries := [] } } := by
  decide

/-- What `sys_arch_mbox_tryfetch` does on every queue: `SYS_MBOX_EMPTY` on an
empty queue and on a queue whose oldest message is NULL (which it removes),
0 (`ERR_OK`) with the oldest message delivered and removed otherwise. -/
theorem tryfetch_cases (q : OS_Q) (has_buf : Bool) :
    (q.entries = [] ∧
      sys_arch_mbox_tryfetch q has_buf
        = Call.returns { ret := SYS_MBOX_EMPTY, msg := if has_buf then some 0 else none, q := q }) ∨
    (∃ m rest, q.entries = m :: rest ∧
      sys_arch_mbox_tryfetch q has_buf
        = Call.returns { ret := if m = 0 then SYS_MBOX_EMPTY else 0
                         msg := if has_buf then some m else none
                         q := { q with entries := rest } }) := by
  obtain ⟨n, l⟩ := q
  cases l with
  | nil =>
    left
    refine ⟨rfl, ?_⟩
    simp [sys_arch_mbox_tryfetch, OSQPend]
  | cons m rest =>
    right
    refine ⟨m, rest, rfl, ?_⟩
    by_cases hm : m = 0
    · simp [sys_arch_mbox_tryfetch, OSQPend, hm]
    · simp [sys_arch_mbox_tryfetch, OSQPend, hm, ERR_OK]

/-- C7, evaluated where the code fails: on a queue of size 1 that holds the
message 10, `sys_mbox_post` of 20 returns with the queue as it was; the
message 20 is nowhere in it. -/
theorem C7_post_on_full_queue_drops :
    sys_mbox_post { max_qty := 1, entries := [10] } 20 = { max_qty := 1, entries := [10] } ∧
    20 ∉ (sys_mbox_post { max_qty := 1, entries := [10] } 20).entries := by
  decide

/-- What `sys_mbox_post` does on every queue: it appends the message at the
tail when the queue holds fewer messages than its size, and changes nothing
when the queue is full. -/
theorem post_cases (q : OS_Q) (m : Nat) :
    sys_mbox_post q m
      = if q.entries.length < q.max_qty then { q with entries := q.entries ++ [m] } else q := by
  unfold sys_mbox_post OSQPost
  by_cases h : q.entries.length < q.max_qty
  · have h1 : ¬ q.entries.length ≥ q.max_qty := by omega
    simp [h, h1]
  · have h1 : q.entries.length ≥ q.max_qty := by omega
    simp [h, h1]

/-- C10: a `sys_arch_sem_wait` whose pend succeeds (the count is not zero) and
a `sys_arch_mbox_fetch` whose pend delivers a message (not NULL) return, for
every timeout, tick rate and pair of tick samples, a value of at least 1, and
exactly 1 when the two samples are equal. -/
theorem C10_success_returns_at_least_one (hz ub t s e : Nat) (sem : OS_SEM) (q : OS_Q)
    (m : Nat) (rest : List Nat) (has_buf : Bool)
    (hsem : sem.ctr ≠ 0) (hq : q.entries = m :: rest) (hm : m ≠ 0) :
    (∃ r sem1, sys_arch_sem_wait hz ub sem t s e = Call.returns (r, sem1) ∧
      1 ≤ r ∧ (s = e → r = 1)) ∧
    (∃ r, sys_arch_mbox_fetch hz ub q has_buf t s e = Call.returns r ∧
      1 ≤ r.ret ∧ (s = e → r.ret = 1)) := by
  constructor
  · refine ⟨_, _, sem_wait_available hz ub sem t s e hsem, elapsed_ms_pos hz ub s e, ?_⟩
    intro h
    rw [h]
    exact elapsed_ms_same hz ub e
  · refine ⟨_, fetch_head hz ub q m rest has_buf t s e hq hm, elapsed_ms_pos hz ub s e, ?_⟩
    intro h
    show elapsed_ms hz ub s e = 1
    rw [h]
    exact elapsed_ms_same hz ub e

/-- C10 at a concrete input: tick rate 100, timeout 30, both samples 12345. -/
theorem C10_success_returns_at_least_one_witness :
    ({ ctr := 2 } : OS_SEM).ctr ≠ 0 ∧
    ({ max_qty := 4, entries := [77, 78] } : OS_Q).entries = 77 :: [78] ∧ (77 : Nat) ≠ 0 ∧
    sys_arch_sem_wait 100 0 { ctr := 2 } 30 12345 12345 = Call.returns (1, { ctr := 1 }) ∧
    sys_arch_mbox_fetch 100 0 { max_qty := 4, entries := [77, 78] } true 30 12345 12345
      = Call.returns { ret := 1, msg := some 77, q := { max_qty := 4, entries := [78] } } ∧
    ((∃ r sem1, sys_arch_sem_wait 100 0 { ctr := 2 } 30 12345 12345 = Call.returns (r, sem1) ∧
        1 ≤ r ∧ (12345 = 12345 → r = 1)) ∧
      (∃ r, sys_arch_mbox_fetch 100 0 { max_qty := 4, entries := [77, 78] } true 30 12345 12345
          = Call.returns r ∧ 1 ≤ r.ret ∧ (12345 = 12345 → r.ret = 1))) :=
  ⟨by decide, rfl, by decide, by decide, by decide,
    C10_success_returns_at_least_one 100 0 30 12345 12345 { ctr := 2 }
      { max_qty := 4, entries := [77, 78] } 77 [78] true (by decide) rfl (by decide)⟩

end UcosIII

/-! ## Elapsed time across the back ends -/

/-- The elapsed ticks of the xilkernel `sys_arch_sem_wait` on a semaphore that
is available, for every pair of 32-bit samples. -/
theorem xil_sem_wait_elapsed (mspt sem timeout s e : Nat) (hsem : sem ≠ 0)
    (ht : timeout ≠ 0) (hs : s < U32) (he : e < U32) :
    Xilkernel.sys_arch_sem_wait mspt sem timeout s e
      = Call.returns
          (Xilkernel.TICKS_TO_MS mspt (if e ≥ s then e - s else (0xFFFFFFFF - s) + e),
            sem - 1) := by
  unfold U32 at hs he
  unfold Xilkernel.sys_arch_sem_wait Xilkernel.sem_timedwait
  simp only [ht, hsem, ne_eq, not_false_eq_true, if_true, if_false]
  by_cases h : e ≥ s
  · have h1 : (e - s) % U32 = e - s := Nat.mod_eq_of_lt (by unfold U32; omega)
    simp [h, h1]
  · have h1 : ((0xffffffff - s) + e) % U32 = (0xffffffff - s) + e :=
      Nat.mod_eq_of_lt (by unfold U32; omega)
    simp [h, h1]

/-- The elapsed ticks of the closing statements of the xilkernel
`sys_arch_mbox_fetch`, for every pair of 32-bit samples. -/
theorem xil_fetch_elapsed (mspt s e : Nat) (hs : s < U32) (he : e < U32) :
    Xilkernel.fetch_elapsed mspt s e
      = Xilkernel.TICKS_TO_MS mspt (if e ≥ s then e - s else (0xFFFFFFFF - s) + e) := by
  unfold U32 at hs he
  unfold Xilkernel.fetch_elapsed
  by_cases h : e ≥ s
  · have h1 : (e - s) % U32 = e - s := Nat.mod_eq_of_lt (by unfold U32; omega)
    simp [h, h1]
  · have h1 : ((0xffffffff - s) + e) % U32 = (0xffffffff - s) + e :=
      Nat.mod_eq_of_lt (by unfold U32; omega)
    simp [h, h1]

/-- The elapsed ticks of the uC/OS-III back end, for every pair of 32-bit
samples: one more than `(max_tick - start) + end` when the counter wrapped. -/
theorem ucos_elapsed_ticks (s e : Nat) (hs : s < U32) (he : e < U32) :
    UcosIII.elapsed_ticks s e
      = if e ≥ s then e - s else (0xFFFFFFFF - s) + e + 1 := by
  unfold U32 at hs he
  unfold UcosIII.elapsed_ticks
  by_cases h : e ≥ s
  · have h1 : ¬ e < s := by omega
    have h2 : (e - s) % U32 = e - s := Nat.mod_eq_of_lt (by unfold U32; omega)
    simp [h, h1, h2]
  · have h1 : e < s := by omega
    simp only [h, h1, if_true, if_false]
    norm_num
    omega

/-- With a tick rate of 1000 the uC/OS-III back end returns the elapsed ticks
themselves, a zero replaced by 1. -/
theorem ucos_elapsed_ms_rate_1000 (ub s e : Nat) (hs : s < U32) (he : e < U32) :
    UcosIII.elapsed_ms 1000 ub s e = max 1 (UcosIII.elapsed_ticks s e) := by
  have ht := ucos_elapsed_ticks s e hs he
  unfold U32 at hs he
  unfold UcosIII.elapsed_ms UcosIII.double_to_OS_TICK
  rw [ht]
  by_cases h : e ≥ s
  · have h1 : ¬ e < s := by omega
    have h2 : (e - s) % U32 = e - s := Nat.mod_eq_of_lt (by unfold U32; omega)
    simp only [h, h1, if_true, if_false, Nat.reduceDiv, Nat.mul_one, h2]
    split <;> omega
  · have h1 : e < s := by omega
    have h2 : (0xFFFFFFFF - s) + e + 1 < U32 := by unfold U32; omega
    simp only [h, h1, if_true, if_false, Nat.reduceDiv, Nat.mul_one, h2]
    split <;> omega

/-- C8, refuted as stated: between the samples start = 0xFFFFFFFE and end = 0
the uC/OS-III back end counts 2 elapsed ticks, not `(max_tick - start) + end`
= 1; with a tick rate of 1000 its `sys_arch_sem_wait` and
`sys_arch_mbox_fetch` return 2. -/
theorem C8_ucos_counts_one_more_tick :
    UcosIII.elapsed_ticks 0xFFFFFFFE 0 ≠ (0xFFFFFFFF - 0xFFFFFFFE) + 0 ∧
    UcosIII.sys_arch_sem_wait 1000 0 { ctr := 1 } 5 0xFFFFFFFE 0
      = Call.returns (2, { ctr := 0 }) ∧
    UcosIII.sys_arch_mbox_fetch 1000 0 { max_qty := 4, entries := [10] } true 5 0xFFFFFFFE 0
      = Call.returns { ret := 2, msg := some 10, q := { max_qty := 4, entries := [] } } := by
  decide

/-- C8, amended: for every pair of 32-bit tick samples, the xilkernel
`sys_arch_sem_wait` and `sys_arch_mbox_fetch` take `end - start` elapsed
ticks when `end >= start` and `(max_tick - start) + end` otherwise, with
`max_tick` = 0xFFFFFFFF; the uC/OS-III `sys_arch_sem_wait` and
`sys_arch_mbox_fetch` take `end - start` when `end >= start` and
`(max_tick - start) + end + 1` (that is `2^32 - start + end`) otherwise. -/
theorem C8_elapsed_tick_rules (mspt hz ub s e : Nat) (hs : s < U32) (he : e < U32) :
    (∀ sem timeout, sem ≠ 0 → timeout ≠ 0 →
      Xilkernel.sys_arch_sem_wait mspt sem timeout s e
        = Call.returns
            (Xilkernel.TICKS_TO_MS mspt (if e ≥ s then e - s else (0xFFFFFFFF - s) + e),
              sem - 1)) ∧
    Xilkernel.fetch_elapsed mspt s e
      = Xilkernel.TICKS_TO_MS mspt (if e ≥ s then e - s else (0xFFFFFFFF - s) + e) ∧
    UcosIII.elapsed_ticks s e = (if e ≥ s then e - s else (0xFFFFFFFF - s) + e + 1) ∧
    (∀ (sem : UcosIII.OS_SEM) (timeout : Nat), sem.ctr ≠ 0 →
      UcosIII.sys_arch_sem_wait hz ub sem timeout s e
        = Call.returns (UcosIII.elapsed_ms hz ub s e, { sem with ctr := sem.ctr - 1 })) ∧
    (∀ (q : UcosIII.OS_Q) (m : Nat) (rest : List Nat) (has_buf : Bool) (timeout : Nat),
      q.entries = m :: rest → m ≠ 0 →
      UcosIII.sys_arch_mbox_fetch hz ub q has_buf timeout s e
        = Call.returns { ret := UcosIII.elapsed_ms hz ub s e
                         msg := if has_buf then some m else none
                         q := { q with entries := rest } }) ∧
    UcosIII.elapsed_ms 1000 ub s e = max 1 (UcosIII.elapsed_ticks s e) :=
  ⟨fun sem timeout hsem ht => xil_sem_wait_elapsed mspt sem timeout s e hsem ht hs he,
    xil_fetch_elapsed mspt s e hs he,
    ucos_elapsed_ticks s e hs he,
    fun sem timeout hsem => UcosIII.sem_wait_available hz ub sem timeout s e hsem,
    fun q m rest has_buf timeout hq hm => UcosIII.fetch_head hz ub q m rest has_buf timeout s e hq hm,
    ucos_elapsed_ms_rate_1000 ub s e hs he⟩

/-- C8, amended, at the samples start = 0xFFFFFFFE, end = 3 (one millisecond
per tick in xilkernel, tick rate 1000 in uC/OS-III): xilkernel takes 4 ticks,
uC/OS-III takes 5. -/
theorem C8_elapsed_tick_rules_witness :
    (0xFFFFFFFE : Nat) < U32 ∧ (3 : Nat) < U32 ∧
    Xilkernel.sys_arch_sem_wait 1 1 5 0xFFFFFFFE 3 = Call.returns (4, 0) ∧
    Xilkernel.fetch_elapsed 1 0xFFFFFFFE 3 = 4 ∧
    UcosIII.elapsed_ticks 0xFFFFFFFE 3 = 5 ∧
    UcosIII.sys_arch_sem_wait 1000 0 { ctr := 1 } 5 0xFFFFFFFE 3
      = Call.returns (5, { ctr := 0 }) ∧
    UcosIII.elapsed_ms 1000 0 0xFFFFFFFE 3 = max 1 (UcosIII.elapsed_ticks 0xFFFFFFFE 3) :=
  have h := C8_elapsed_tick_rules 1 1000 0 0xFFFFFFFE 3 (by decide) (by decide)
  ⟨by decide, by decide, by decide, by decide, by decide, by decide, h.2.2.2.2.2⟩

/-- A wrapped interval in the xilkernel `sys_arch_sem_wait`: the elapsed ticks
are one fewer than the `end + 2^32 - start` ticks the counter advanced. -/
theorem xil_sem_wait_wrapped (mspt sem timeout s e : Nat) (hsem : sem ≠ 0)
    (ht : timeout ≠ 0) (hs : s < U32) (hes : e < s) :
    Xilkernel.sys_arch_sem_wait mspt sem timeout s e
      = Call.returns (Xilkernel.TICKS_TO_MS mspt (e + 2 ^ 32 - s - 1), sem - 1) := by
  have he : e < U32 := by omega
  rw [xil_sem_wait_elapsed mspt sem timeout s e hsem ht hs he]
  unfold U32 at hs
  have h : ¬ e ≥ s := by omega
  simp only [h, if_false]
  have h2 : (0xFFFFFFFF - s) + e = e + 2 ^ 32 - s - 1 := by norm_num; omega
  rw [h2]

/-- C9, evaluated where the code fails (one millisecond per tick): the
counter wraps from 0xFFFFFFFF to 0, one tick has passed, and the xilkernel
`sys_arch_sem_wait` and the closing computation of `sys_arch_mbox_fetch`
return 0; for the unwrapped samples 5 and 6, also one tick apart, they
return 1. With ten milliseconds per tick, 19 ticks across the wrap
(0xFFFFFFF0 to 3) give 180 and 19 ticks without wrap (100 to 119) give 190. -/
theorem C9_wrapped_interval_one_tick_short :
    Xilkernel.sys_arch_sem_wait 1 1 5 0xFFFFFFFF 0 = Call.returns (0, 0) ∧
    Xilkernel.sys_arch_sem_wait 1 1 5 5 6 = Call.returns (1, 0) ∧
    Xilkernel.fetch_elapsed 1 0xFFFFFFFF 0 = 0 ∧
    Xilkernel.fetch_elapsed 1 5 6 = 1 ∧
    Xilkernel.sys_arch_sem_wait 10 1 5 0xFFFFFFF0 3 = Call.returns (180, 0) ∧
    Xilkernel.sys_arch_sem_wait 10 1 5 100 119 = Call.returns (190, 0) := by
  decide

/-! ## The time-out sentinel and the timed wait of the uC/OS-III back end -/

namespace UcosIII

/-- A timed wait (non-zero timeout) is handed to the kernel as a non-blocking
pend. -/
theorem timed_pend_is_non_blocking (hz ulTimeout : Nat) (h : ulTimeout ≠ 0) :
    (pend_args hz ulTimeout).2 = OS_OPT_PEND.OS_OPT_PEND_NON_BLOCKING := by
  unfold pend_args
  simp only [h, ne_eq, not_false_eq_true, if_true]
  split <;> rfl

/-- A timed wait on a semaphore whose count is zero returns the sentinel and
leaves the semaphore alone. -/
theorem sem_wait_unavailable (hz ub : Nat) (sem : OS_SEM) (ulTimeout s e : Nat)
    (hsem : sem.ctr = 0) (ht : ulTimeout ≠ 0) :
    sys_arch_sem_wait hz ub sem ulTimeout s e = Call.returns (SYS_ARCH_TIMEOUT, sem) := by
  unfold sys_arch_sem_wait OSSemPend
  rw [timed_pend_is_non_blocking hz ulTimeout ht]
  simp [hsem]

/-- A timed fetch from an empty queue returns the sentinel and leaves the
queue alone. -/
theorem fetch_empty (hz ub : Nat) (q : OS_Q) (has_buf : Bool) (ulTimeOut s e : Nat)
    (hq : q.entries = []) (ht : ulTimeOut ≠ 0) :
    sys_arch_mbox_fetch hz ub q has_buf ulTimeOut s e
      = Call.returns { ret := SYS_ARCH_TIMEOUT
                       msg := if has_buf then some 0 else none
                       q := q } := by
  unfold sys_arch_mbox_fetch OSQPend
  rw [timed_pend_is_non_blocking hz ulTimeOut ht, hq]
  simp

/-- C11, refuted as stated: with a tick rate of 1000 and the tick samples
start = 0 and end = 0xFFFFFFFF, a `sys_arch_sem_wait` whose pend succeeded
(the count goes from 1 to 0) and a `sys_arch_mbox_fetch` whose pend succeeded
(the message 10 is delivered) return `SYS_ARCH_TIMEOUT`. -/
theorem C11_sentinel_returned_on_success :
    sys_arch_sem_wait 1000 0 { ctr := 1 } 5 0 0xFFFFFFFF
      = Call.returns (SYS_ARCH_TIMEOUT, { ctr := 0 }) ∧
    sys_arch_mbox_fetch 1000 0 { max_qty := 4, entries := [10] } true 5 0 0xFFFFFFFF
      = Call.returns { ret := SYS_ARCH_TIMEOUT, msg := some 10
                       q := { max_qty := 4, entries := [] } } := by
  decide

/-- C11, amended: for every tick rate, a `sys_arch_sem_wait` whose pend
succeeded and a `sys_arch_mbox_fetch` whose pend delivered a message other
than NULL return a value different from `SYS_ARCH_TIMEOUT` whenever the two
32-bit tick samples are fewer than 4294967 ticks apart; a timed call whose
pend failed (count zero, queue empty) returns exactly `SYS_ARCH_TIMEOUT`, for
all tick samples. -/
theorem C11_sentinel_rules (hz ub : Nat) :
    (∀ (sem : OS_SEM) (t s e : Nat), sem.ctr ≠ 0 →
      s < U32 → e < U32 → tick_distance s e < 4294967 →
      ∃ r, sys_arch_sem_wait hz ub sem t s e
          = Call.returns (r, { sem with ctr := sem.ctr - 1 }) ∧ r ≠ SYS_ARCH_TIMEOUT) ∧
    (∀ (q : OS_Q) (m : Nat) (rest : List Nat) (has_buf : Bool) (t s e : Nat),
      q.entries = m :: rest → m ≠ 0 →
      s < U32 → e < U32 → tick_distance s e < 4294967 →
      ∃ r, sys_arch_mbox_fetch hz ub q has_buf t s e
          = Call.returns { ret := r, msg := if has_buf then some m else none
                           q := { q with entries := rest } } ∧ r ≠ SYS_ARCH_TIMEOUT) ∧
    (∀ (sem : OS_SEM) (t s e : Nat), sem.ctr = 0 → t ≠ 0 →
      sys_arch_sem_wait hz ub sem t s e = Call.returns (SYS_ARCH_TIMEOUT, sem)) ∧
    (∀ (q : OS_Q) (has_buf : Bool) (t s e : Nat), q.entries = [] → t ≠ 0 →
      sys_arch_mbox_fetch hz ub q has_buf t s e
        = Call.returns { ret := SYS_ARCH_TIMEOUT, msg := if has_buf then some 0 else none
                         q := q }) :=
  ⟨fun sem t s e hsem hs he hd =>
      ⟨_, sem_wait_available hz ub sem t s e hsem, elapsed_ms_ne_timeout hz ub s e hs he hd⟩,
    fun q m rest has_buf t s e hq hm hs he hd =>
      ⟨_, fetch_head hz ub q m rest has_buf t s e hq hm, elapsed_ms_ne_timeout hz ub s e hs he hd⟩,
    fun sem t s e hsem ht => sem_wait_unavailable hz ub sem t s e hsem ht,
    fun q has_buf t s e hq ht => fetch_empty hz ub q has_buf t s e hq ht⟩

/-- C12, evaluated where the code fails (tick rate 1000, T = 100, count 0,
nobody signals): the pend handed to the kernel is `OS_OPT_PEND_NON_BLOCKING`,
which returns `OS_ERR_PEND_WOULD_BLOCK` at once, so `sys_arch_sem_wait`
returns `SYS_ARCH_TIMEOUT` without having waited. With a tick rate of 100 and
T = 15 the tick deadline handed over is 1, which stands for 10 ms, less than
T. -/
theorem C12_timed_wait_does_not_block :
    pend_args 1000 100 = (100, OS_OPT_PEND.OS_OPT_PEND_NON_BLOCKING) ∧
    OSSemPend { ctr := 0 } 100 OS_OPT_PEND.OS_OPT_PEND_NON_BLOCKING
      = Call.returns (OS_ERR.OS_ERR_PEND_WOULD_BLOCK, { ctr := 0 }) ∧
    sys_arch_sem_wait 1000 0 { ctr := 0 } 100 50 50
      = Call.returns (SYS_ARCH_TIMEOUT, { ctr := 0 }) ∧
    pend_args 100 15 = (1, OS_OPT_PEND.OS_OPT_PEND_NON_BLOCKING) ∧
    (pend_args 100 15).1 * 1000 / 100 < 15 := by
  decide

end UcosIII

/-! ## Exhaustion of the xilkernel mailboxes and threads -/

namespace Xilkernel

/-- The function `sys_mbox_new` never writes to the table `lwip_mbox`: it
sets `used` in the caller's copy. -/
theorem sys_mbox_new_table (g : Globals) (mbox : sys_mbox_s) (size : Int)
    (mail_ok mutex_ok : Bool) :
    (sys_mbox_new g mbox size mail_ok mutex_ok).2.2.lwip_mbox = g.lwip_mbox := by
  unfold sys_mbox_new
  by_cases hs : size > (SYS_MBOX_SIZE : Int)
  · simp [hs]
  · simp only [hs, if_false]
    cases g.lwip_mbox.find? (fun m => m.used == 0) with
    | none => rfl
    | some slot => cases mail_ok <;> cases mutex_ok <;> rfl

/-- After `sys_init` the search of `sys_mbox_new` for an unused table entry
finds the first entry of a table that has one; as `sys_mbox_new` never writes
to the table, it goes on finding it. -/
theorem table_search_after_init (g : Globals) (m : sys_mbox_s) (ms : List sys_mbox_s)
    (h : g.lwip_mbox = m :: ms) :
    (sys_init g).lwip_mbox.find? (fun m => m.used == 0) = some { m with used := 0 } := by
  simp [sys_init, h]

/-- The function `sys_mbox_new` returns `ERR_OK` only when both `sem_init`
calls succeed, and has then added 2 to `SemaphoreCnt`; otherwise it returns
`ERR_MEM`. -/
theorem sys_mbox_new_codes (g : Globals) (mbox : sys_mbox_s) (size : Int)
    (mail_ok mutex_ok : Bool) :
    ((sys_mbox_new g mbox size mail_ok mutex_ok).1 = ERR_OK ∧ mail_ok = true ∧
        mutex_ok = true ∧
        (sys_mbox_new g mbox size mail_ok mutex_ok).2.2.SemaphoreCnt = g.SemaphoreCnt + 2) ∨
    ((sys_mbox_new g mbox size mail_ok mutex_ok).1 = ERR_MEM ∧
        (mail_ok = false ∨ mutex_ok = false ∨ size > (SYS_MBOX_SIZE : Int) ∨
          g.lwip_mbox.find? (fun m => m.used == 0) = none)) := by
  unfold sys_mbox_new
  by_cases hs : size > (SYS_MBOX_SIZE : Int)
  · right
    simp [hs]
  · simp only [hs, if_false]
    cases hf : g.lwip_mbox.find? (fun m => m.used == 0) with
    | none => right; simp
    | some slot =>
      cases mail_ok <;> cases mutex_ok <;> simp
      omega

/-- No sequence of `sys_mbox_new` calls writes to the table `lwip_mbox`. -/
theorem create_all_table :
    ∀ (reqs : List NewReq) (g : Globals), (create_all g reqs).2.lwip_mbox = g.lwip_mbox := by
  intro reqs
  induction reqs with
  | nil => intro g; rfl
  | cons r rs ih =>
    intro g
    simp only [create_all]
    rw [ih, sys_mbox_new_table]

/-- After `sys_init` on a table with at least one entry, and after any calls
of `sys_mbox_new` whatever their outcome, a call of `sys_mbox_new` with a
size of at most `SYS_MBOX_SIZE` whose two `sem_init` calls succeed returns
`ERR_OK`: the search for an unused entry always ends at entry 0. -/
theorem sys_mbox_new_table_never_full (g : Globals) (m : sys_mbox_s) (ms : List sys_mbox_s)
    (h : g.lwip_mbox = m :: ms) (reqs : List NewReq) (mbox : sys_mbox_s) (size : Int)
    (hs : size ≤ (SYS_MBOX_SIZE : Int)) :
    (sys_mbox_new (create_all (sys_init g) reqs).2 mbox size true true).1 = ERR_OK := by
  have hfind : (create_all (sys_init g) reqs).2.lwip_mbox.find? (fun m => m.used == 0)
      = some { m with used := 0 } := by
    rw [create_all_table]
    exact table_search_after_init g m ms h
  have hs1 : ¬ size > (SYS_MBOX_SIZE : Int) := by omega
  unfold sys_mbox_new
  simp only [hs1, if_false, hfind]
  rfl

/-- The search loop of `sys_thread_new` on a table with a first entry. -/
theorem findIdx_free_cons (t : sys_thread) (ts : List sys_thread) :
    (t :: ts).findIdx (fun t => t.tid == TID_FREE)
      = if t.tid = TID_FREE then 0 else ts.findIdx (fun t => t.tid == TID_FREE) + 1 := by
  rw [List.findIdx_cons]
  by_cases ht : t.tid = TID_FREE
  · simp [ht]
  · have hb : (t.tid == TID_FREE) = false := by simp [ht]
    simp [hb, ht]

/-- The free entries of a table with a first entry. -/
theorem free_slots_cons (t : sys_thread) (ts : List sys_thread) :
    free_slots (t :: ts) = free_slots ts + if t.tid = TID_FREE then 1 else 0 := by
  unfold free_slots
  rw [List.countP_cons]
  by_cases ht : t.tid = TID_FREE <;> simp [ht]

/-- Writing a thread id other than `TID_FREE` into the first free entry leaves
one free entry fewer. -/
theorem claim_slot_count (f g : sys_thread → sys_thread)
    (hg : ∀ t, (g (f t)).tid ≠ TID_FREE) :
    ∀ (tbl : List sys_thread),
      tbl.findIdx (fun t => t.tid == TID_FREE) ≠ tbl.length →
      free_slots ((tbl.modify f (tbl.findIdx (fun t => t.tid == TID_FREE))).modify g
          (tbl.findIdx (fun t => t.tid == TID_FREE))) + 1 = free_slots tbl := by
  intro tbl
  induction tbl with
  | nil => intro h; simp at h
  | cons t ts ih =>
    intro h
    rw [findIdx_free_cons] at h ⊢
    by_cases ht : t.tid = TID_FREE
    · simp only [ht, if_true, List.modify_zero_cons, free_slots_cons, hg t, if_false]
    · simp only [ht, if_false, List.length_cons, List.modify_succ_cons, free_slots_cons] at h ⊢
      have h2 : ts.findIdx (fun t => t.tid == TID_FREE) ≠ ts.length := by omega
      have := ih h2
      omega

/-- On a table without a free entry the search loop runs to the end. -/
theorem no_free_slot (tbl : List sys_thread) (h : free_slots tbl = 0) :
    tbl.findIdx (fun t => t.tid == TID_FREE) = tbl.length := by
  induction tbl with
  | nil => rfl
  | cons t ts ih =>
    rw [free_slots_cons] at h
    rw [findIdx_free_cons]
    by_cases ht : t.tid = TID_FREE
    · simp [ht] at h
    · simp only [ht, if_false, Nat.add_zero, List.length_cons] at h ⊢
      rw [ih h]

/-- A table has no more free entries than entries. -/
theorem free_slots_le (tbl : List sys_thread) : free_slots tbl ≤ tbl.length := by
  unfold free_slots
  exact List.countP_le_length _

/-- A `sys_thread_new` that returns a thread has used up one free entry. -/
theorem sys_thread_new_success (PSS : Int) (tbl tbl1 : List sys_thread) (fn arg : Nat)
    (stacksize prio pc_ret : Int) (pc_tid i : Nat) (created : Bool) (htid : pc_tid ≠ TID_FREE)
    (h : sys_thread_new PSS tbl fn arg stacksize prio pc_ret pc_tid
      = ThreadNew.returned (some i) tbl1 created) :
    free_slots tbl1 + 1 = free_slots tbl ∧ tbl1.length = tbl.length := by
  unfold sys_thread_new at h
  by_cases hs : stacksize > PSS
  · simp [hs] at h
  · simp only [hs, if_false] at h
    by_cases hi : tbl.findIdx (fun t => t.tid == TID_FREE) = tbl.length
    · simp [hi] at h
    · simp only [hi, if_false] at h
      by_cases hp : pc_ret = 0
      · simp only [hp, ne_eq, not_true_eq_false, if_false, ThreadNew.returned.injEq] at h
        obtain ⟨_, h2, _⟩ := h
        rw [← h2]
        refine ⟨claim_slot_count _ _ (fun t => htid) tbl hi, ?_⟩
        simp only [List.length_modify]
      · simp [hp] at h

/-- On a table without a free entry `sys_thread_new` returns NULL, starts no
thread and leaves the table as it is. -/
theorem sys_thread_new_full (PSS : Int) (tbl : List sys_thread) (fn arg : Nat)
    (stacksize prio pc_ret : Int) (pc_tid : Nat) (h : free_slots tbl = 0) :
    sys_thread_new PSS tbl fn arg stacksize prio pc_ret pc_tid
      = ThreadNew.returned none tbl false := by
  unfold sys_thread_new
  by_cases hs : stacksize > PSS
  · simp [hs]
  · simp [hs, no_free_slot tbl h]

/-- A run of successful `sys_thread_new` calls uses up one free entry per
call. -/
theorem spawn_all_count (PSS : Int) :
    ∀ (reqs : List SpawnReq) (tbl tbl1 : List sys_thread) (res : List (Option Nat)),
      (∀ r ∈ reqs, r.pc_tid ≠ TID_FREE) →
      spawn_all PSS tbl reqs = some (res, tbl1) → (∀ th ∈ res, th ≠ none) →
      free_slots tbl1 + reqs.length = free_slots tbl ∧ tbl1.length = tbl.length := by
  intro reqs
  induction reqs with
  | nil =>
    intro tbl tbl1 res _ h _
    simp only [spawn_all, Option.some.injEq, Prod.mk.injEq] at h
    rw [← h.2]
    simp
  | cons r rs ih =>
    intro tbl tbl1 res htid h hres
    simp only [spawn_all] at h
    cases hc : sys_thread_new PSS tbl r.function r.arg r.stacksize r.prio r.pc_ret r.pc_tid with
    | aborted t => simp [hc] at h
    | returned th tbl2 created =>
      simp only [hc, Option.map_eq_some', Prod.mk.injEq] at h
      obtain ⟨⟨res1, tbl3⟩, h1, h2, h3⟩ := h
      simp only at h2 h3
      subst h3
      have hth : th ≠ none := hres th (by rw [← h2]; simp)
      obtain ⟨i, hi⟩ := Option.ne_none_iff_exists'.mp hth
      subst hi
      obtain ⟨c1, c2⟩ := sys_thread_new_success PSS tbl tbl2 _ _ _ _ _ _ i created
        (htid r (by simp)) hc
      obtain ⟨d1, d2⟩ := ih tbl2 tbl3 res1 (fun r' hr' => htid r' (by simp [hr'])) h1
        (fun t ht => hres t (by rw [← h2]; simp [ht]))
      simp only [List.length_cons]
      exact ⟨by omega, by omega⟩

/-- C14: after `sys_init`, once as many `sys_thread_new` calls as the thread
table has entries (`SYS_THREAD_MAX`) have returned a thread, `pthread_create`
having stored thread ids other than `TID_FREE`, and while no entry function
has returned, the next `sys_thread_new` (any stack size, so also one of at
most `PTHREAD_STACK_SIZE`) returns NULL, starts no thread and leaves every
entry of the table unchanged. -/
theorem C14_thread_table_exhaustion (PTHREAD_STACK_SIZE : Int)
    (t tbl1 : List sys_thread) (reqs : List SpawnReq) (res : List (Option Nat))
    (function arg : Nat) (stacksize prio pc_ret : Int) (pc_tid : Nat)
    (hlen : reqs.length = t.length)
    (htid : ∀ r ∈ reqs, r.pc_tid ≠ TID_FREE)
    (hrun : spawn_all PTHREAD_STACK_SIZE (sys_init_threads t) reqs = some (res, tbl1))
    (hok : ∀ th ∈ res, th ≠ none) :
    sys_thread_new PTHREAD_STACK_SIZE tbl1 function arg stacksize prio pc_ret pc_tid
      = ThreadNew.returned none tbl1 false := by
  obtain ⟨h1, _⟩ := spawn_all_count PTHREAD_STACK_SIZE reqs (sys_init_threads t) tbl1 res
    htid hrun hok
  have h2 := free_slots_le (sys_init_threads t)
  have h3 : (sys_init_threads t).length = t.length := by
    simp [sys_init_threads]
  exact sys_thread_new_full PTHREAD_STACK_SIZE tbl1 function arg stacksize prio pc_ret pc_tid
    (by omega)

/-- C14 at a concrete input: a table of two entries, two threads started with
the ids 5 and 6; the third call returns NULL. -/
theorem C14_thread_table_exhaustion_witness :
    ([{ function := 11, arg := 1, stacksize := 100, prio := 1, pc_ret := 0, pc_tid := 5 },
      { function := 12, arg := 2, stacksize := 100, prio := 1, pc_ret := 0, pc_tid := 6 }]
        : List SpawnReq).length
      = ([{ tid := 0, tp := { thread := 0, function := 0, arg := 0 } },
          { tid := 0, tp := { thread := 0, function := 0, arg := 0 } }] : List sys_thread).length ∧
    spawn_all 1000
        (sys_init_threads [{ tid := 0, tp := { thread := 0, function := 0, arg := 0 } },
          { tid := 0, tp := { thread := 0, function := 0, arg := 0 } }])
        [{ function := 11, arg := 1, stacksize := 100, prio := 1, pc_ret := 0, pc_tid := 5 },
         { function := 12, arg := 2, stacksize := 100, prio := 1, pc_ret := 0, pc_tid := 6 }]
      = some ([some 0, some 1],
          [{ tid := 5, tp := { thread := 0, function := 11, arg := 1 } },
           { tid := 6, tp := { thread := 1, function := 12, arg := 2 } }]) ∧
    sys_thread_new 1000
        [{ tid := 5, tp := { thread := 0, function := 11, arg := 1 } },
         { tid := 6, tp := { thread := 1, function := 12, arg := 2 } }] 13 3 100 1 0 7
      = ThreadNew.returned none
          [{ tid := 5, tp := { thread := 0, function := 11, arg := 1 } },
           { tid := 6, tp := { thread := 1, function := 12, arg := 2 } }] false :=
  ⟨rfl, by decide,
    C14_thread_table_exhaustion 1000
      [{ tid := 0, tp := { thread := 0, function := 0, arg := 0 } },
       { tid := 0, tp := { thread := 0, function := 0, arg := 0 } }] _
      [{ function := 11, arg := 1, stacksize := 100, prio := 1, pc_ret := 0, pc_tid := 5 },
       { function := 12, arg := 2, stacksize := 100, prio := 1, pc_ret := 0, pc_tid := 6 }]
      [some 0, some 1] 13 3 100 1 0 7 rfl
      (by intro r hr; simp at hr; rcases hr with h | h <;> (rw [h]; decide))
      (by decide) (by decide)⟩

end Xilkernel

/-! ## Creation and destruction in the uC/OS-III back end -/

namespace UcosIII

/-- A comparison with a configuration constant that is not negative comes out
the same whether the constant is signed or unsigned, for every 32-bit `int`
above it. -/
theorem gt_cfg_of_gt (cfg_unsigned : Bool) (x c : Int) (hc : 0 ≤ c) (hx : c < x)
    (hx32 : x < 2147483648) : gt_cfg cfg_unsigned x c = true := by
  unfold gt_cfg
  cases cfg_unsigned
  · simp [hx]
  · simp only [if_true, decide_eq_true_eq]
    omega

/-- The same on the other side: a value between 0 and the constant is not
above it, signed or unsigned. -/
theorem gt_cfg_of_le (cfg_unsigned : Bool) (x c : Int) (hx : 0 ≤ x) (hxc : x ≤ c)
    (hc32 : c < 2147483648) : gt_cfg cfg_unsigned x c = false := by
  unfold gt_cfg
  cases cfg_unsigned
  · simp
    omega
  · simp only [if_true, decide_eq_false_iff_not]
    omega

/-- C15: for every input and every pool state (the free lists hold no NULL),
whenever `sys_thread_new` returns NULL the control-block pool and the stack
pool hold exactly the free blocks they held before the call; and when
`iStackSize` exceeds `SYS_ARCH_THREAD_MAX_STACK_SIZE` it returns NULL without
calling `OSTaskCreate`. -/
theorem C15_failed_spawn_restores_pools (cfg_unsigned : Bool)
    (SYS_ARCH_THREAD_MAX_STACK_SIZE OS_CFG_PRIO_MAX : Int) (off : Nat) (w : ThreadWorld)
    (iStackSize iPriority : Int) (create_err : OS_ERR)
    (htcb : 0 ∉ w.tcb_pool.free) (hstk : 0 ∉ w.stack_pool.free) :
    ((sys_thread_new cfg_unsigned SYS_ARCH_THREAD_MAX_STACK_SIZE OS_CFG_PRIO_MAX off w
          iStackSize iPriority create_err).xReturn = 0 →
      (sys_thread_new cfg_unsigned SYS_ARCH_THREAD_MAX_STACK_SIZE OS_CFG_PRIO_MAX off w
          iStackSize iPriority create_err).w.tcb_pool = w.tcb_pool ∧
      (sys_thread_new cfg_unsigned SYS_ARCH_THREAD_MAX_STACK_SIZE OS_CFG_PRIO_MAX off w
          iStackSize iPriority create_err).w.stack_pool = w.stack_pool) ∧
    (0 ≤ SYS_ARCH_THREAD_MAX_STACK_SIZE → iStackSize > SYS_ARCH_THREAD_MAX_STACK_SIZE →
      iStackSize < 2147483648 →
      (sys_thread_new cfg_unsigned SYS_ARCH_THREAD_MAX_STACK_SIZE OS_CFG_PRIO_MAX off w
          iStackSize iPriority create_err).xReturn = 0 ∧
      (sys_thread_new cfg_unsigned SYS_ARCH_THREAD_MAX_STACK_SIZE OS_CFG_PRIO_MAX off w
          iStackSize iPriority create_err).task_create = none) := by
  obtain ⟨⟨tf⟩, ⟨sf⟩, mem⟩ := w
  simp only at htcb hstk
  constructor
  · intro h
    unfold sys_thread_new OSMemGet OSMemPut at h ⊢
    cases tf with
    | nil => simp
    | cons b rest =>
      have hb : b ≠ 0 := by
        intro hb0
        apply htcb
        simp [hb0]
      simp only [hb, if_false] at h ⊢
      by_cases hbig : gt_cfg cfg_unsigned iStackSize SYS_ARCH_THREAD_MAX_STACK_SIZE = true
      · simp [hbig]
      · simp only [hbig, if_false] at h ⊢
        cases sf with
        | nil => simp
        | cons st srest =>
          have hst : st ≠ 0 := by
            intro hs0
            apply hstk
            simp [hs0]
          simp only [hst, if_false] at h ⊢
          by_cases herr : create_err = OS_ERR.OS_ERR_NONE
          · simp only [herr, if_true] at h
            have h0 : b + off = 0 := h
            omega
          · simp [herr]
  · intro hmax hbig h32
    have hgt := gt_cfg_of_gt cfg_unsigned iStackSize SYS_ARCH_THREAD_MAX_STACK_SIZE hmax hbig h32
    unfold sys_thread_new OSMemGet
    cases tf with
    | nil => simp
    | cons b rest =>
      by_cases hb : b = 0
      · simp [hb]
      · simp [hb, hgt]

/-- C15 at a concrete input: the stack pool is empty, so the control block
taken is put back. -/
theorem C15_failed_spawn_restores_pools_witness :
    (0 ∉ ({ free := [4096, 8192] } : OS_MEM).free ∧ 0 ∉ ({ free := [] } : OS_MEM).free) ∧
    (sys_thread_new false 1024 64 8
        { tcb_pool := { free := [4096, 8192] }, stack_pool := { free := [] }
          p_base_stack := fun _ => 0 } 512 3 OS_ERR.OS_ERR_NONE).xReturn = 0 ∧
    (sys_thread_new false 1024 64 8
        { tcb_pool := { free := [4096, 8192] }, stack_pool := { free := [] }
          p_base_stack := fun _ => 0 } 512 3 OS_ERR.OS_ERR_NONE).w.tcb_pool
      = { free := [4096, 8192] } ∧
    (sys_thread_new false 1024 64 8
        { tcb_pool := { free := [4096, 8192] }, stack_pool := { free := [] }
          p_base_stack := fun _ => 0 } 512 3 OS_ERR.OS_ERR_NONE).w.stack_pool
      = { free := [] } :=
  have h := C15_failed_spawn_restores_pools false 1024 64 8
    { tcb_pool := { free := [4096, 8192] }, stack_pool := { free := [] }
      p_base_stack := fun _ => 0 } 512 3 OS_ERR.OS_ERR_NONE (by decide) (by decide)
  ⟨⟨by decide, by decide⟩, by decide, (h.1 (by decide)).1, (h.1 (by decide)).2⟩

/-- What `sys_mbox_new` and `sys_sem_new` leave when the kernel refuses the
creation: `ERR_MEM`, the block back in the pool (whose free list held no
NULL), and the handle still holding the address of that block. -/
theorem create_refused (pool : OS_MEM) (b : Nat) (rest : List Nat) (ucCount : Nat)
    (create_err : OS_ERR) (hpool : pool.free = b :: rest) (hb : b ≠ 0)
    (herr : create_err ≠ OS_ERR.OS_ERR_NONE) :
    sys_mbox_new pool 0 = (ERR_MEM, b, none, pool) ∧
    sys_sem_new pool ucCount create_err = (ERR_MEM, b, none, pool) ∧
    sys_mbox_valid b = true ∧ sys_sem_valid b = true := by
  obtain ⟨f⟩ := pool
  simp only at hpool
  subst hpool
  refine ⟨?_, ?_, by simp [sys_mbox_valid, hb], by simp [sys_sem_valid, hb]⟩
  · simp [sys_mbox_new, OSMemGet, OSMemPut, OSQCreate, hb, U16]
  · simp [sys_sem_new, OSMemGet, OSMemPut, OSSemCreate, hb, herr]

/-- C16, evaluated where the code fails: with the block 4096 free in the pool,
`sys_mbox_new` with size 0 (refused by `OSQCreate`) and `sys_sem_new` called
from an interrupt handler (refused by `OSSemCreate`) return `ERR_MEM` and put
the block back, but leave its address in the caller's handle, on which
`sys_mbox_valid` / `sys_sem_valid` is true. -/
theorem C16_handle_left_valid_after_failed_create :
    sys_mbox_new { free := [4096] } 0 = (ERR_MEM, 4096, none, { free := [4096] }) ∧
    sys_mbox_valid (sys_mbox_new { free := [4096] } 0).2.1 = true ∧
    sys_sem_new { free := [4096] } 1 OS_ERR.OS_ERR_CREATE_ISR
      = (ERR_MEM, 4096, none, { free := [4096] }) ∧
    sys_sem_valid (sys_sem_new { free := [4096] } 1 OS_ERR.OS_ERR_CREATE_ISR).2.1 = true := by
  decide

/-- With an empty pool both creations return `ERR_MEM` with a NULL handle,
which is not valid. -/
theorem create_pool_empty (ucCount : Nat) (iSize : Int) (create_err : OS_ERR) :
    sys_mbox_new { free := [] } iSize = (ERR_MEM, 0, none, { free := [] }) ∧
    sys_sem_new { free := [] } ucCount create_err = (ERR_MEM, 0, none, { free := [] }) ∧
    sys_mbox_valid 0 = false ∧ sys_sem_valid 0 = false := by
  refine ⟨?_, ?_, rfl, rfl⟩
  · simp [sys_mbox_new, OSMemGet]
  · simp [sys_sem_new, OSMemGet]

end UcosIII

/-! ## Priorities and the spawn/delete round trip of the uC/OS-III back end -/

namespace UcosIII

/-- The remapping on the caller priorities from 0 to `OS_CFG_PRIO_MAX - 30`:
0 goes to `OS_CFG_PRIO_MAX - 3`, every other one to
`OS_CFG_PRIO_MAX - 30 - p`. -/
theorem remap_priority_in_band (cfg_unsigned : Bool) (M p : Int) (hp : 0 ≤ p)
    (hpm : p ≤ M - 30) (hM : M < 2147483648) :
    remap_priority cfg_unsigned M p = if p = 0 then M - 3 else M - 30 - p := by
  unfold remap_priority
  rw [gt_cfg_of_le cfg_unsigned p (M - 30) hp hpm (by omega)]
  unfold wrap32
  by_cases h0 : p = 0
  · simp only [h0, if_true]
    simp
    omega
  · simp only [h0, if_false]
    simp
    omega

/-- C17, refuted as stated: with `OS_CFG_PRIO_MAX` = 64 the caller priority 34
is handed to `OSTaskCreate` as 0 and the higher caller priority 35 as 34, a
less urgent one; so 34 <= 35 but mapped(34) < mapped(35), whether the
constant is signed or unsigned. -/
theorem C17_clamp_breaks_order :
    remap_priority false 64 34 = 0 ∧ remap_priority false 64 35 = 34 ∧
    remap_priority true 64 34 = 0 ∧ remap_priority true 64 35 = 34 ∧
    to_OS_PRIO (remap_priority false 64 34) = 0 ∧
    to_OS_PRIO (remap_priority false 64 35) = 34 ∧
    ¬ remap_priority false 64 34 ≥ remap_priority false 64 35 := by
  decide

/-- C17, amended: the mapping from the caller's priority to the priority
handed to `OSTaskCreate` is order-reversing over the caller priorities from 0
to `OS_CFG_PRIO_MAX - 30`: for every pair p <= q in that range,
mapped(p) >= mapped(q), as `int` values and, when `OS_CFG_PRIO_MAX` is at most
256, as the 8-bit priorities handed over. -/
theorem C17_order_reversing_in_band (cfg_unsigned : Bool) (M p q : Int)
    (hp : 0 ≤ p) (hpq : p ≤ q) (hq : q ≤ M - 30) (hM : M < 2147483648) :
    remap_priority cfg_unsigned M p ≥ remap_priority cfg_unsigned M q ∧
    (M ≤ 256 →
      to_OS_PRIO (remap_priority cfg_unsigned M p)
        ≥ to_OS_PRIO (remap_priority cfg_unsigned M q)) := by
  rw [remap_priority_in_band cfg_unsigned M p hp (by omega) hM,
    remap_priority_in_band cfg_unsigned M q (by omega) hq hM]
  unfold to_OS_PRIO
  by_cases h0 : p = 0 <;> by_cases h1 : q = 0 <;> simp only [h0, h1, if_true, if_false] <;>
    refine ⟨by omega, fun h256 => ?_⟩ <;> omega

/-- C17, amended, at `OS_CFG_PRIO_MAX` = 64 and the caller priorities 3 and
20, which are handed over as 31 and 14. -/
theorem C17_order_reversing_in_band_witness :
    ((0 : Int) ≤ 3 ∧ (3 : Int) ≤ 20 ∧ (20 : Int) ≤ 64 - 30 ∧ (64 : Int) < 2147483648) ∧
    remap_priority false 64 3 = 31 ∧ remap_priority false 64 20 = 14 ∧
    (remap_priority false 64 3 ≥ remap_priority false 64 20 ∧
      ((64 : Int) ≤ 256 →
        to_OS_PRIO (remap_priority false 64 3) ≥ to_OS_PRIO (remap_priority false 64 20))) :=
  ⟨by decide, by decide, by decide,
    C17_order_reversing_in_band false 64 3 20 (by decide) (by decide) (by decide) (by decide)⟩

/-- Deleting a thread whose control block `b` still records the stack block
`s` puts exactly `b` and `s` back into their pools. -/
theorem delete_returns_blocks (off : Nat) (w : ThreadWorld) (b s : Nat) (hb : b ≠ 0)
    (hs : w.p_base_stack b = s) :
    (sys_thread_delete off w (b + off)).tcb_pool = OSMemPut w.tcb_pool b ∧
    (sys_thread_delete off w (b + off)).stack_pool = OSMemPut w.stack_pool s ∧
    (sys_thread_delete off w (b + off)).p_base_stack = w.p_base_stack := by
  have h1 : b + off ≠ 0 := by omega
  have h2 : b + off - off = b := by omega
  unfold sys_thread_delete
  simp [h1, h2, hs]

/-- C18: for every handle returned by a successful `sys_thread_new` (not
NULL), the spawn has taken the first free control block and the first free
stack block, `sys_thread_delete` on the handle puts exactly those two blocks
back, and both pools then hold the free blocks they held before the spawn;
`sys_thread_delete(NULL)` changes nothing. -/
theorem C18_spawn_delete_round_trip (cfg_unsigned : Bool)
    (SYS_ARCH_THREAD_MAX_STACK_SIZE OS_CFG_PRIO_MAX : Int) (off : Nat) (w w1 : ThreadWorld)
    (iStackSize iPriority : Int) (create_err : OS_ERR)
    (hret : (sys_thread_new cfg_unsigned SYS_ARCH_THREAD_MAX_STACK_SIZE OS_CFG_PRIO_MAX off w
        iStackSize iPriority create_err).xReturn ≠ 0) :
    (∃ b s,
      w.tcb_pool.free = b :: (sys_thread_new cfg_unsigned SYS_ARCH_THREAD_MAX_STACK_SIZE
        OS_CFG_PRIO_MAX off w iStackSize iPriority create_err).w.tcb_pool.free ∧
      w.stack_pool.free = s :: (sys_thread_new cfg_unsigned SYS_ARCH_THREAD_MAX_STACK_SIZE
        OS_CFG_PRIO_MAX off w iStackSize iPriority create_err).w.stack_pool.free ∧
      (sys_thread_new cfg_unsigned SYS_ARCH_THREAD_MAX_STACK_SIZE OS_CFG_PRIO_MAX off w
        iStackSize iPriority create_err).xReturn = b + off ∧
      (sys_thread_delete off
        (sys_thread_new cfg_unsigned SYS_ARCH_THREAD_MAX_STACK_SIZE OS_CFG_PRIO_MAX off w
          iStackSize iPriority create_err).w
        (sys_thread_new cfg_unsigned SYS_ARCH_THREAD_MAX_STACK_SIZE OS_CFG_PRIO_MAX off w
          iStackSize iPriority create_err).xReturn).tcb_pool
        = OSMemPut (sys_thread_new cfg_unsigned SYS_ARCH_THREAD_MAX_STACK_SIZE OS_CFG_PRIO_MAX
            off w iStackSize iPriority create_err).w.tcb_pool b ∧
      (sys_thread_delete off
        (sys_thread_new cfg_unsigned SYS_ARCH_THREAD_MAX_STACK_SIZE OS_CFG_PRIO_MAX off w
          iStackSize iPriority create_err).w
        (sys_thread_new cfg_unsigned SYS_ARCH_THREAD_MAX_STACK_SIZE OS_CFG_PRIO_MAX off w
          iStackSize iPriority create_err).xReturn).stack_pool
        = OSMemPut (sys_thread_new cfg_unsigned SYS_ARCH_THREAD_MAX_STACK_SIZE OS_CFG_PRIO_MAX
            off w iStackSize iPriority create_err).w.stack_pool s) ∧
    (sys_thread_delete off
      (sys_thread_new cfg_unsigned SYS_ARCH_THREAD_MAX_STACK_SIZE OS_CFG_PRIO_MAX off w
        iStackSize iPriority create_err).w
      (sys_thread_new cfg_unsigned SYS_ARCH_THREAD_MAX_STACK_SIZE OS_CFG_PRIO_MAX off w
        iStackSize iPriority create_err).xReturn).tcb_pool = w.tcb_pool ∧
    (sys_thread_delete off
      (sys_thread_new cfg_unsigned SYS_ARCH_THREAD_MAX_STACK_SIZE OS_CFG_PRIO_MAX off w
        iStackSize iPriority create_err).w
      (sys_thread_new cfg_unsigned SYS_ARCH_THREAD_MAX_STACK_SIZE OS_CFG_PRIO_MAX off w
        iStackSize iPriority create_err).xReturn).stack_pool = w.stack_pool ∧
    sys_thread_delete off w1 0 = w1 := by
  obtain ⟨⟨tf⟩, ⟨sf⟩, mem⟩ := w
  have hnull : sys_thread_delete off w1 0 = w1 := by simp [sys_thread_delete]
  unfold sys_thread_new OSMemGet at hret ⊢
  cases tf with
  | nil => simp at hret
  | cons b rest =>
    by_cases hb : b = 0
    · simp [hb] at hret
    · simp only [hb, if_false] at hret ⊢
      by_cases hbig : gt_cfg cfg_unsigned iStackSize SYS_ARCH_THREAD_MAX_STACK_SIZE = true
      · simp [hbig] at hret
      · simp only [hbig, if_false] at hret ⊢
        cases sf with
        | nil => simp at hret
        | cons st srest =>
          by_cases hst : st = 0
          · simp [hst] at hret
          · simp only [hst, if_false] at hret ⊢
            by_cases herr : create_err = OS_ERR.OS_ERR_NONE
            · simp only [herr, if_true]
              obtain ⟨d1, d2, _⟩ := delete_returns_blocks off
                { tcb_pool := { free := rest }, stack_pool := { free := srest }
                  p_base_stack := fun a => if a = b then st else mem a } b st hb (by simp)
              exact ⟨⟨b, st, rfl, rfl, rfl, d1, d2⟩, d1.trans rfl, d2.trans rfl, hnull⟩
            · simp [herr] at hret

/-- C18 at a concrete input: control blocks 4096 and 8192, stack blocks 65536
and 131072 free; the spawn returns the handle 4104 and the delete restores
both pools. -/
theorem C18_spawn_delete_round_trip_witness :
    (sys_thread_new false 1024 64 8
        { tcb_pool := { free := [4096, 8192] }, stack_pool := { free := [65536, 131072] }
          p_base_stack := fun _ => 0 } 512 3 OS_ERR.OS_ERR_NONE).xReturn = 4104 ∧
    (sys_thread_new false 1024 64 8
        { tcb_pool := { free := [4096, 8192] }, stack_pool := { free := [65536, 131072] }
          p_base_stack := fun _ => 0 } 512 3 OS_ERR.OS_ERR_NONE).w.tcb_pool
      = { free := [8192] } ∧
    (sys_thread_delete 8
      (sys_thread_new false 1024 64 8
        { tcb_pool := { free := [4096, 8192] }, stack_pool := { free := [65536, 131072] }
          p_base_stack := fun _ => 0 } 512 3 OS_ERR.OS_ERR_NONE).w 4104).tcb_pool
      = { free := [4096, 8192] } ∧
    (sys_thread_delete 8
      (sys_thread_new false 1024 64 8
        { tcb_pool := { free := [4096, 8192] }, stack_pool := { free := [65536, 131072] }
          p_base_stack := fun _ => 0 } 512 3 OS_ERR.OS_ERR_NONE).w 4104).stack_pool
      = { free := [65536, 131072] } :=
  have h := C18_spawn_delete_round_trip false 1024 64 8
    { tcb_pool := { free := [4096, 8192] }, stack_pool := { free := [65536, 131072] }
      p_base_stack := fun _ => 0 }
    { tcb_pool := { free := [] }, stack_pool := { free := [] }, p_base_stack := fun _ => 0 }
    512 3 OS_ERR.OS_ERR_NONE (by decide)
  ⟨by decide, by decide, h.2.1, h.2.2.1⟩

end UcosIII

/-! ## Destroying a mailbox, and the FreeRTOS semaphore -/

/-- The uC/OS-III `sys_mbox_free` fails its assertion exactly on a queue that
still holds a message. -/
theorem ucos_mbox_free_asserts (pool : UcosIII.OS_MEM) (handle : Nat) (q : UcosIII.OS_Q) :
    (UcosIII.sys_mbox_free pool handle q).assert_failed = true ↔ q.entries ≠ [] := by
  unfold UcosIII.sys_mbox_free UcosIII.OSQFlush
  simp

/-- The xilkernel `sys_mbox_free` reports nothing, whatever the mailbox
holds. -/
theorem xil_mbox_free_silent (g : Xilkernel.Globals) (mbox : Option Xilkernel.sys_mbox_s)
    (r : Xilkernel.MboxFreeRet) (h : Xilkernel.sys_mbox_free g mbox = Call.returns r) :
    r.reported = false := by
  unfold Xilkernel.sys_mbox_free at h
  cases mbox with
  | none =>
    simp only [Call.returns.injEq] at h
    rw [← h]
  | some m =>
    simp only at h
    cases hw : Xilkernel.sem_wait m.mutex with
    | blocks => simp [hw] at h
    | returns p =>
      simp only [hw, Call.returns.injEq] at h
      rw [← h]

/-- C19, refuted as stated: a xilkernel mailbox in which the message 10 is
still pending is freed by `sys_mbox_free` (it is marked unused) without any
usage error being reported. -/
theorem C19_xilkernel_free_reports_nothing :
    Xilkernel.pending (Xilkernel.sys_mbox_trypost (Xilkernel.new_mbox 4) 10).2 = [10] ∧
    ∃ r, Xilkernel.sys_mbox_free (Xilkernel.sys_init (Xilkernel.boot 1))
        (some (Xilkernel.sys_mbox_trypost (Xilkernel.new_mbox 4) 10).2) = Call.returns r ∧
      r.reported = false ∧ r.mbox.map (fun m => m.used) = some 0 :=
  ⟨by decide, _, rfl, rfl, rfl⟩

/-- C19, amended: in the uC/OS-III back end, for every mailbox that still
holds at least one message `sys_mbox_free` reports a usage error (the
assertion "sys_mbox_free empty" fails), and for every empty mailbox it reports
none; the xilkernel `sys_mbox_free` makes no emptiness check and reports
nothing in either case. -/
theorem C19_mbox_free_reports (pool : UcosIII.OS_MEM) (handle : Nat) (q : UcosIII.OS_Q)
    (g : Xilkernel.Globals) (mbox : Option Xilkernel.sys_mbox_s) :
    ((UcosIII.sys_mbox_free pool handle q).assert_failed = true ↔ q.entries ≠ []) ∧
    ((UcosIII.sys_mbox_free pool handle q).assert_failed = false ↔ q.entries = []) ∧
    (UcosIII.sys_mbox_free pool handle q).pool = UcosIII.OSMemPut pool handle ∧
    (∀ r, Xilkernel.sys_mbox_free g mbox = Call.returns r → r.reported = false) := by
  have h := ucos_mbox_free_asserts pool handle q
  refine ⟨h, ?_, rfl, fun r hr => xil_mbox_free_silent g mbox r hr⟩
  constructor
  · intro hf
    by_contra hne
    rw [h.mpr hne] at hf
    exact absurd hf (by decide)
  · intro he
    cases hb : (UcosIII.sys_mbox_free pool handle q).assert_failed with
    | false => rfl
    | true => exact absurd he (h.mp hb)

namespace FreeRTOS

/-- The semaphore that `sys_sem_new` creates does not depend on the count
asked for. -/
theorem sys_sem_new_ignores_count (created : Option Nat) (c1 c2 : Nat) :
    sys_sem_new created c1 = sys_sem_new created c2 := by
  unfold sys_sem_new
  rfl

/-- C20, evaluated where the code fails: `sys_sem_new(sem, 1)` returns
`ERR_OK` with a semaphore whose count is 0, not 1, and the first
`sys_arch_sem_wait` (timeout 10, no `sys_sem_signal`) returns
`SYS_ARCH_TIMEOUT`, in task context and in interrupt context. -/
theorem C20_initial_count_ignored :
    sys_sem_new xSemaphoreCreateBinary 1 = (ERR_OK, some 0) ∧
    sys_sem_new xSemaphoreCreateBinary 0 = (ERR_OK, some 0) ∧
    sys_arch_sem_wait 1 0 0 10 100 110 = Call.returns (SYS_ARCH_TIMEOUT, 0) ∧
    sys_arch_sem_wait 1 1 0 10 100 110 = Call.returns (SYS_ARCH_TIMEOUT, 0) := by
  decide

end FreeRTOS

/-! ## Signalling a semaphore of the uC/OS-III back end -/

namespace UcosIII

/-- Without a waiter `sys_sem_signal` adds one to the count and readies
nobody. -/
theorem sys_sem_signal_no_waiter (ctr : Nat) :
    sys_sem_signal { Ctr := ctr, PendList := [] } = ({ Ctr := ctr + 1, PendList := [] }, []) := by
  rfl

/-- One `sys_sem_signal` readies every task that waits on the semaphore and
leaves none waiting. -/
theorem sys_sem_signal_readies_all (sem : SemPend) (h : sem.PendList ≠ []) :
    (sys_sem_signal sem).2 = sem.PendList ∧ (sys_sem_signal sem).1.PendList = [] ∧
      (sys_sem_signal sem).1.Ctr = sem.Ctr := by
  obtain ⟨ctr, l⟩ := sem
  cases l with
  | nil => exact absurd rfl h
  | cons t rest => exact ⟨rfl, rfl, rfl⟩

/-- C21, evaluated where the code fails: with the two tasks 7 and 8 waiting on a
semaphore, one `sys_sem_signal` makes both of them ready and leaves nobody
waiting, where the claim has exactly one made ready and the other still
waiting; the call passes `OS_OPT_POST_ALL`, and `OSSemPost` with
`OS_OPT_POST_1` readies task 7 alone. -/
theorem C21_signal_readies_every_waiter :
    sys_sem_signal { Ctr := 0, PendList := [7, 8] } = ({ Ctr := 0, PendList := [] }, [7, 8]) ∧
    OSSemPost { Ctr := 0, PendList := [7, 8] } OS_OPT_POST.OS_OPT_POST_1
      = ({ Ctr := 0, PendList := [8] }, [7]) := by
  decide

end UcosIII

/-! ## Task and interrupt context in the FreeRTOS back end -/

namespace FreeRTOS

/-- C22: with the flag `xInsideISR` non-zero, `sys_mbox_trypost` and
`sys_sem_signal` make no task-context call (`xQueueSend`, `xSemaphoreGive`),
they call `xQueueSendFromISR` and `xSemaphoreGiveFromISR`, and their calls
include `portYIELD_FROM_ISR` exactly when the kernel has set
`xHigherPriorityTaskWoken` to `pdTRUE`; with the flag zero their only calls
are `xQueueSend` (with zero ticks to wait) and `xSemaphoreGive`. -/
theorem C22_interrupt_context_routing (xInsideISR msg send_ret woken : Nat) :
    (xInsideISR ≠ 0 →
      (∀ c ∈ (sys_mbox_trypost xInsideISR msg send_ret woken).2,
        c.taskContext = false ∧ (c.fromISR = true ∨ c.isYield = true)) ∧
      KernelCall.xQueueSendFromISR msg ∈ (sys_mbox_trypost xInsideISR msg send_ret woken).2 ∧
      ((∃ c ∈ (sys_mbox_trypost xInsideISR msg send_ret woken).2, c.isYield = true)
        ↔ woken = pdTRUE) ∧
      (∀ c ∈ sys_sem_signal xInsideISR woken,
        c.taskContext = false ∧ (c.fromISR = true ∨ c.isYield = true)) ∧
      KernelCall.xSemaphoreGiveFromISR ∈ sys_sem_signal xInsideISR woken ∧
      ((∃ c ∈ sys_sem_signal xInsideISR woken, c.isYield = true) ↔ woken = pdTRUE)) ∧
    (xInsideISR = 0 →
      (sys_mbox_trypost xInsideISR msg send_ret woken).2 = [KernelCall.xQueueSend msg 0] ∧
      sys_sem_signal xInsideISR woken = [KernelCall.xSemaphoreGive] ∧
      (∀ c ∈ (sys_mbox_trypost xInsideISR msg send_ret woken).2,
        c.taskContext = true ∧ c.fromISR = false ∧ c.isYield = false) ∧
      (∀ c ∈ sys_sem_signal xInsideISR woken,
        c.taskContext = true ∧ c.fromISR = false ∧ c.isYield = false)) := by
  constructor
  · intro h
    have h1 : xInsideISR ≠ pdFALSE := h
    by_cases hw : woken = pdTRUE
    · by_cases hs : send_ret = pdPASS <;>
        simp [sys_mbox_trypost, sys_sem_signal, h1, hw, hs, KernelCall.taskContext,
          KernelCall.fromISR, KernelCall.isYield]
    · by_cases hs : send_ret = pdPASS <;>
        simp [sys_mbox_trypost, sys_sem_signal, h1, hw, hs, KernelCall.taskContext,
          KernelCall.fromISR, KernelCall.isYield]
  · intro h
    have h1 : xInsideISR = pdFALSE := h
    by_cases hs : send_ret = pdPASS <;>
      simp [sys_mbox_trypost, sys_sem_signal, h1, hs, KernelCall.taskContext,
        KernelCall.fromISR, KernelCall.isYield]

end FreeRTOS

/-! ## The arguments of the kernel pend in the uC/OS-III back end -/

namespace UcosIII

/-- For a non-zero timeout the tick time-out handed to the kernel is at least
one, whatever the 32-bit product and the division give. -/
theorem pend_ticks_pos (hz ulTimeout : Nat) (h : ulTimeout ≠ 0) :
    1 ≤ (pend_args hz ulTimeout).1 := by
  unfold pend_args
  simp only [h, ne_eq, not_false_eq_true, if_true]
  split
  · exact Nat.le_refl 1
  · rename_i h0
    exact Nat.pos_of_ne_zero h0

/-- C24: `sys_arch_sem_wait` and `sys_arch_mbox_fetch` hand the kernel pend
the tick time-out 0 together with the blocking option if and only if the
caller's timeout is 0; for every other timeout the tick time-out is at least
1, also when `timeout * OS_CFG_TICK_RATE_HZ / 1000` is 0 or the 32-bit product
has wrapped. Seen from outside: on a semaphore with count 0 and on an empty
queue the call waits for ever exactly for timeout 0. -/
theorem C24_wait_forever_exactly_for_timeout_zero (hz ulTimeout : Nat) :
    (((pend_args hz ulTimeout).1 = 0 ∧
        (pend_args hz ulTimeout).2 = OS_OPT_PEND.OS_OPT_PEND_BLOCKING) ↔ ulTimeout = 0) ∧
    (ulTimeout ≠ 0 → 1 ≤ (pend_args hz ulTimeout).1) ∧
    (∀ ub s e : Nat,
      sys_arch_sem_wait hz ub { ctr := 0 } ulTimeout s e = Call.blocks ↔ ulTimeout = 0) ∧
    (∀ (ub n : Nat) (has_buf : Bool) (s e : Nat),
      sys_arch_mbox_fetch hz ub { max_qty := n, entries := [] } has_buf ulTimeout s e
        = Call.blocks ↔ ulTimeout = 0) := by
  by_cases h : ulTimeout = 0
  · subst h
    refine ⟨by simp [pend_args], by simp, ?_, ?_⟩
    · intro ub s e
      simp [sys_arch_sem_wait, OSSemPend, pend_args]
    · intro ub n has_buf s e
      simp [sys_arch_mbox_fetch, OSQPend, pend_args]
  · have hp := pend_ticks_pos hz ulTimeout h
    have ho := timed_pend_is_non_blocking hz ulTimeout h
    refine ⟨?_, fun _ => hp, ?_, ?_⟩
    · constructor
      · intro hh
        omega
      · intro hh
        exact absurd hh h
    · intro ub s e
      rw [sem_wait_unavailable hz ub _ ulTimeout s e rfl h]
      simp [h]
    · intro ub n has_buf s e
      rw [fetch_empty hz ub _ has_buf ulTimeout s e rfl h]
      simp [h]

end UcosIII

/-! ## The ring indices and the requested capacity -/

namespace Xilkernel

/-- C25, refuted as stated: a mailbox created with capacity 1 has, after one
`sys_mbox_post`, the tail index `last` = 1, which is not smaller than the
capacity. -/
theorem C25_index_reaches_capacity :
    (sys_mbox_new (sys_init (boot 1)) zero_mbox 1 true true).1 = ERR_OK ∧
    ∃ m1, run_calls 1 (fun _ => 0) (new_mbox 1) [MboxCall.post 10] = some m1 ∧
      m1.last = 1 ∧ ¬ m1.last < 1 := by
  refine ⟨by decide, _, rfl, by decide, by decide⟩

/-- C25, amended: for every mailbox created by `sys_mbox_new` (any requested
capacity) and every sequence of `sys_mbox_post`, `sys_mbox_trypost`,
`sys_arch_mbox_fetch` and `sys_arch_mbox_tryfetch` calls, `first` and `last`
are smaller than `SYS_MBOX_SIZE`, the number of entries of `msgs`: the entry
the next fetch reads and the entry the next post writes are inside the
buffer, and a post changes no entry from `SYS_MBOX_SIZE` on. -/
theorem C25_indices_below_ring_size (g g1 : Globals) (mbox0 m m1 : sys_mbox_s)
    (size : Int) (mail_ok mutex_ok : Bool) (SYS_MSPERTICK : Nat) (clock : Nat → Nat)
    (calls : List MboxCall)
    (hnew : sys_mbox_new g mbox0 size mail_ok mutex_ok = (ERR_OK, m, g1))
    (hrun : run_calls SYS_MSPERTICK clock m calls = some m1) :
    m1.first < SYS_MBOX_SIZE ∧ m1.last < SYS_MBOX_SIZE ∧
      (∀ x : Nat, (post_body m1 x).msgs = store m1.msgs m1.last x) ∧
      (∀ x i : Nat, SYS_MBOX_SIZE ≤ i → (post_body m1 x).msgs i = m1.msgs i) := by
  obtain ⟨h1, h2, _⟩ := sys_mbox_new_ok g mbox0 size mail_ok mutex_ok m g1 hnew
  obtain ⟨hf, hl⟩ := run_calls_inv SYS_MSPERTICK clock calls m m1
    (by rw [h1]; decide) (by rw [h2]; decide) hrun
  have hw : ∀ x : Nat, (post_body m1 x).msgs = store m1.msgs m1.last x := by
    intro x
    unfold post_body
    simp only
    split <;> rfl
  refine ⟨hf, hl, hw, ?_⟩
  intro x i hi
  rw [hw x]
  unfold store
  have hne : i ≠ m1.last := by omega
  simp [hne]

/-- C25, amended, at a concrete run: capacity 1, two posts and a fetch. -/
theorem C25_indices_below_ring_size_witness :
    sys_mbox_new (sys_init (boot 1)) zero_mbox 1 true true
      = (ERR_OK, new_mbox 1, (sys_mbox_new (sys_init (boot 1)) zero_mbox 1 true true).2.2) ∧
    ∃ m1 : sys_mbox_s,
      run_calls 1 (fun _ => 0) (new_mbox 1)
        [MboxCall.post 10, MboxCall.trypost 20, MboxCall.fetch true 0] = some m1 ∧
      m1.first < SYS_MBOX_SIZE ∧ m1.last < SYS_MBOX_SIZE ∧
      (∀ x : Nat, (post_body m1 x).msgs = store m1.msgs m1.last x) ∧
      (∀ x i : Nat, SYS_MBOX_SIZE ≤ i → (post_body m1 x).msgs i = m1.msgs i) :=
  ⟨rfl, _, rfl,
    C25_indices_below_ring_size (sys_init (boot 1)) _ zero_mbox _ _ 1 true true 1
      (fun _ => 0) [MboxCall.post 10, MboxCall.trypost 20, MboxCall.fetch true 0]
      rfl rfl⟩

end Xilkernel

/-! ## The millisecond clock and the scaling of elapsed ticks in the uC/OS-III back end -/

namespace UcosIII

/-- As long as `t * 1000` fits in 32 bits, `sys_now` is the whole part of
`t * 1000 / OS_CFG_TICK_RATE_HZ`. -/
theorem sys_now_small (hz t : Nat) (h : t * 1000 < U32) : sys_now hz t = t * 1000 / hz := by
  unfold sys_now
  rw [Nat.mod_eq_of_lt h]

/-- C26, evaluated where the code fails: with `OS_CFG_TICK_RATE_HZ` = 1000 the
tick value 4294967 gives 4294967 ms and the next tick value 4294968 gives
0 ms, where the claim has `floor(4294968 * 1000 / 1000) mod 2^32` =
4294968: the product `t * 1000` has wrapped in the 32-bit `OS_TICK` before
the division, and the clock has gone back although the millisecond value is
far below 2^32. -/
theorem C26_sys_now_wraps_before_dividing :
    sys_now 1000 4294967 = 4294967 ∧ sys_now 1000 4294968 = 0 ∧
    (4294968 * 1000 / 1000) % U32 = 4294968 ∧
    sys_now 1000 4294968 < sys_now 1000 4294967 := by
  decide

/-- C27, refuted as stated: with `OS_CFG_TICK_RATE_HZ` = 300 and 3 elapsed
ticks (samples 0 and 3) a successful `sys_arch_sem_wait` and a successful
`sys_arch_mbox_fetch` return 9, not `floor(3 * 1000 / 300)` = 10; with
`OS_CFG_TICK_RATE_HZ` = 2000 and 10 elapsed ticks they return 1, not 5. -/
theorem C27_scaling_divides_first :
    sys_arch_sem_wait 300 0 { ctr := 1 } 5 0 3 = Call.returns (9, { ctr := 0 }) ∧
    sys_arch_mbox_fetch 300 0 { max_qty := 4, entries := [10] } true 5 0 3
      = Call.returns { ret := 9, msg := some 10, q := { max_qty := 4, entries := [] } } ∧
    3 * 1000 / 300 = 10 ∧
    sys_arch_sem_wait 2000 0 { ctr := 1 } 5 0 10 = Call.returns (1, { ctr := 0 }) ∧
    10 * 1000 / 2000 = 5 := by
  decide

/-- The scaled elapsed time when the product fits in 32 bits: the elapsed
ticks times the whole number `1000 / OS_CFG_TICK_RATE_HZ`, a zero replaced by
1. -/
theorem elapsed_ms_fits (hz ub s e : Nat)
    (hfit : elapsed_ticks s e * (1000 / hz) < U32) :
    elapsed_ms hz ub s e = max 1 (elapsed_ticks s e * (1000 / hz)) := by
  have key : ∀ x : Nat, (if x = 0 then 1 else x) = max 1 x := by
    intro x
    split <;> omega
  unfold elapsed_ms double_to_OS_TICK
  simp only [hfit, if_true, Nat.mod_eq_of_lt hfit, ite_self]
  exact key _

/-- C27, amended: the value a successful `sys_arch_sem_wait` or
`sys_arch_mbox_fetch` returns is the elapsed tick count `n` times the whole
number `1000 / OS_CFG_TICK_RATE_HZ`, a zero replaced by 1, whenever that
product fits in 32 bits; it equals `floor(n * 1000 / OS_CFG_TICK_RATE_HZ)`
with a zero replaced by 1 when `OS_CFG_TICK_RATE_HZ` divides 1000. -/
theorem C27_elapsed_scaled_by_whole_ms_per_tick (hz ub s e : Nat)
    (sem : OS_SEM) (q : OS_Q) (m : Nat) (rest : List Nat) (has_buf : Bool) (t : Nat)
    (hfit : elapsed_ticks s e * (1000 / hz) < U32)
    (hsem : sem.ctr ≠ 0) (hq : q.entries = m :: rest) (hm : m ≠ 0) :
    sys_arch_sem_wait hz ub sem t s e
      = Call.returns (max 1 (elapsed_ticks s e * (1000 / hz)),
          { sem with ctr := sem.ctr - 1 }) ∧
    sys_arch_mbox_fetch hz ub q has_buf t s e
      = Call.returns { ret := max 1 (elapsed_ticks s e * (1000 / hz))
                       msg := if has_buf then some m else none
                       q := { q with entries := rest } } ∧
    (hz ∣ 1000 →
      max 1 (elapsed_ticks s e * (1000 / hz)) = max 1 (elapsed_ticks s e * 1000 / hz)) := by
  refine ⟨?_, ?_, ?_⟩
  · rw [sem_wait_available hz ub sem t s e hsem, elapsed_ms_fits hz ub s e hfit]
  · rw [fetch_head hz ub q m rest has_buf t s e hq hm, elapsed_ms_fits hz ub s e hfit]
  · intro hd
    rw [Nat.mul_div_assoc _ hd]

/-- C27, amended, at `OS_CFG_TICK_RATE_HZ` = 100 and the samples 5 and 8:
3 ticks, 30 ms. -/
theorem C27_elapsed_scaled_by_whole_ms_per_tick_witness :
    sys_arch_sem_wait 100 0 { ctr := 1 } 50 5 8 = Call.returns (30, { ctr := 0 }) ∧
    sys_arch_mbox_fetch 100 0 { max_qty := 4, entries := [10, 11] } true 50 5 8
      = Call.returns { ret := 30, msg := some 10, q := { max_qty := 4, entries := [11] } } ∧
    ((100 : Nat) ∣ 1000 → max 1 (elapsed_ticks 5 8 * (1000 / 100))
      = max 1 (elapsed_ticks 5 8 * 1000 / 100)) :=
  C27_elapsed_scaled_by_whole_ms_per_tick 100 0 5 8 { ctr := 1 }
    { max_qty := 4, entries := [10, 11] } 10 [11] true 50
    (by decide) (by decide) rfl (by decide)

end UcosIII

/-! ## The range of the remapped priority -/

namespace UcosIII

/-- The 8-bit conversion does not take a priority of the range
`0 .. OS_CFG_PRIO_MAX - 1` out of it. -/
theorem to_OS_PRIO_le (M x : Int) (h0 : 0 ≤ x) (h1 : x ≤ M - 1) :
    ( to_OS_PRIO x : Int) ≤ M - 1 := by
  unfold to_OS_PRIO
  have h2 : 0 ≤ x % 256 := Int.emod_nonneg x (by decide)
  rw [Int.toNat_of_nonneg h2]
  omega

/-- The remapped priority of a caller priority that is not negative, or of any
caller priority when `OS_CFG_PRIO_MAX` is an unsigned constant, lies in
`0 .. OS_CFG_PRIO_MAX - 1`. -/
theorem remap_priority_range (cfg_unsigned : Bool) (M p : Int)
    (hM : 31 ≤ M) (hM2 : M < 2147483648) (hp1 : -2147483648 ≤ p) (hp2 : p < 2147483648)
    (h : cfg_unsigned = true ∨ 0 ≤ p) :
    0 ≤ remap_priority cfg_unsigned M p ∧ remap_priority cfg_unsigned M p ≤ M - 1 := by
  unfold remap_priority gt_cfg wrap32
  cases cfg_unsigned with
  | true =>
    simp only [if_true, decide_eq_true_eq]
    split
    · omega
    · split <;> omega
  | false =>
    have h0 : 0 ≤ p := by
      rcases h with h | h
      · exact absurd h (by decide)
      · exact h
    simp only [Bool.false_eq_true, if_false, decide_eq_true_eq]
    split
    · omega
    · split <;> omega

/-- The priority that `sys_thread_new` hands to `OSTaskCreate`, whenever it
calls it. -/
theorem task_create_prio (cfg_unsigned : Bool) (S M : Int) (off : Nat) (w : ThreadWorld)
    (iStackSize iPriority : Int) (create_err : OS_ERR) (k : Nat)
    (h : (sys_thread_new cfg_unsigned S M off w iStackSize iPriority create_err).task_create
      = some k) :
    k = to_OS_PRIO (remap_priority cfg_unsigned M iPriority) := by
  unfold sys_thread_new at h
  simp only at h
  split at h
  · simp at h
  · split at h
    · simp at h
    · split at h
      · simp at h
      · split at h <;> simp at h <;> exact h.symm

/-- C28, refuted as stated for a signed constant: with `OS_CFG_PRIO_MAX` = 64
written as a signed constant, the caller priority -30 is remapped to
64 - 30 + 30 = 64, and `sys_thread_new` hands 64 to `OSTaskCreate`, which is
not in `0 .. 63`. -/
theorem C28_negative_priority_leaves_range :
    remap_priority false 64 (-30) = 64 ∧
    (sys_thread_new false 4096 64 8
        { tcb_pool := { free := [100] }, stack_pool := { free := [200] }
          p_base_stack := fun _ => 0 } 1024 (-30) OS_ERR.OS_ERR_NONE).task_create = some 64 ∧
    ¬ ((64 : Int) ≤ 64 - 1) := by
  decide

/-- C28, amended: for every `OS_CFG_PRIO_MAX` of 31 or more and every caller
priority that is not negative (zero and the priorities above
`OS_CFG_PRIO_MAX - 30` included), the priority that `sys_thread_new` hands to
`OSTaskCreate` lies in `0 .. OS_CFG_PRIO_MAX - 1`; when `OS_CFG_PRIO_MAX` is
an unsigned constant the same holds for the negative caller priorities. -/
theorem C28_remapped_priority_legal (cfg_unsigned : Bool) (S M : Int) (off : Nat)
    (w : ThreadWorld) (iStackSize iPriority : Int) (create_err : OS_ERR) (k : Nat)
    (hM : 31 ≤ M) (hM2 : M < 2147483648)
    (hp1 : -2147483648 ≤ iPriority) (hp2 : iPriority < 2147483648)
    (h : cfg_unsigned = true ∨ 0 ≤ iPriority)
    (hk : (sys_thread_new cfg_unsigned S M off w iStackSize iPriority create_err).task_create
      = some k) :
    (k : Int) ≤ M - 1 := by
  rw [task_create_prio cfg_unsigned S M off w iStackSize iPriority create_err k hk]
  obtain ⟨h0, h1⟩ := remap_priority_range cfg_unsigned M iPriority hM hM2 hp1 hp2 h
  exact to_OS_PRIO_le M _ h0 h1

/-- C28, amended, at `OS_CFG_PRIO_MAX` = 64: the caller priority 0 with a
signed constant (handed 61) and the caller priority -30 with an unsigned
constant (handed 34). -/
theorem C28_remapped_priority_legal_witness :
    ((sys_thread_new false 4096 64 8
        { tcb_pool := { free := [100] }, stack_pool := { free := [200] }
          p_base_stack := fun _ => 0 } 1024 0 OS_ERR.OS_ERR_NONE).task_create = some 61 ∧
      ((61 : Nat) : Int) ≤ 64 - 1) ∧
    ((sys_thread_new true 4096 64 8
        { tcb_pool := { free := [100] }, stack_pool := { free := [200] }
          p_base_stack := fun _ => 0 } 1024 (-30) OS_ERR.OS_ERR_NONE).task_create = some 34 ∧
      ((34 : Nat) : Int) ≤ 64 - 1) :=
  ⟨⟨by decide,
    C28_remapped_priority_legal false 4096 64 8
      { tcb_pool := { free := [100] }, stack_pool := { free := [200] }
        p_base_stack := fun _ => 0 } 1024 0 OS_ERR.OS_ERR_NONE 61
      (by decide) (by decide) (by decide) (by decide) (Or.inr (by decide)) (by decide)⟩,
   ⟨by decide,
    C28_remapped_priority_legal true 4096 64 8
      { tcb_pool := { free := [100] }, stack_pool := { free := [200] }
        p_base_stack := fun _ => 0 } 1024 (-30) OS_ERR.OS_ERR_NONE 34
      (by decide) (by decide) (by decide) (by decide) (Or.inl rfl) (by decide)⟩⟩

end UcosIII

/-! ## Validity checks and invalidation -/

/-- C29, refuted as stated: in the xilkernel back end a mailbox that
`sys_mbox_new` has created is still valid after `sys_mbox_set_invalid`, and a
semaphore with the identifier 3 is still valid after `sys_sem_set_invalid`:
both functions have an empty body. -/
theorem C29_xilkernel_set_invalid_does_nothing :
    (Xilkernel.sys_mbox_new (Xilkernel.sys_init (Xilkernel.boot 1)) Xilkernel.zero_mbox 5
      true true).1 = ERR_OK ∧
    Xilkernel.sys_mbox_valid (Xilkernel.sys_mbox_set_invalid (Xilkernel.new_mbox 5)) = 1 ∧
    Xilkernel.sys_sem_valid (Xilkernel.sys_sem_set_invalid 3) = 1 := by
  decide

/-- C29, amended: in the FreeRTOS and uC/OS-III back ends the validity check
is false after the invalidation, for every mailbox handle and every semaphore
handle. In the xilkernel back end `sys_mbox_set_invalid` and
`sys_sem_set_invalid` change nothing, so the validity check gives the same
answer after them as before; `sys_mbox_valid` is true after a successful
`sys_mbox_new` and false after a `sys_mbox_free` that has returned, and
`sys_sem_valid` is false after `sys_sem_free`. -/
theorem C29_validity_rules (h : Nat) (g g1 g2 : Xilkernel.Globals)
    (mbox0 m mf : Xilkernel.sys_mbox_s) (size : Int) (mail_ok mutex_ok : Bool)
    (r : Xilkernel.MboxFreeRet) (m1 : Xilkernel.sys_mbox_s)
    (hnew : Xilkernel.sys_mbox_new g mbox0 size mail_ok mutex_ok = (ERR_OK, m, g1))
    (hfree : Xilkernel.sys_mbox_free g2 (some mf) = Call.returns r)
    (hm1 : r.mbox = some m1) :
    FreeRTOS.sys_mbox_valid (FreeRTOS.sys_mbox_set_invalid h) = false ∧
    FreeRTOS.sys_sem_valid (FreeRTOS.sys_sem_set_invalid h) = false ∧
    UcosIII.sys_mbox_valid (UcosIII.sys_mbox_set_invalid h) = false ∧
    UcosIII.sys_sem_valid (UcosIII.sys_sem_set_invalid h) = false ∧
    Xilkernel.sys_mbox_valid (Xilkernel.sys_mbox_set_invalid mf) = Xilkernel.sys_mbox_valid mf ∧
    Xilkernel.sys_sem_valid (Xilkernel.sys_sem_set_invalid h) = Xilkernel.sys_sem_valid h ∧
    Xilkernel.sys_mbox_valid m = 1 ∧
    Xilkernel.sys_mbox_valid m1 = 0 ∧
    Xilkernel.sys_sem_valid (Xilkernel.sys_sem_free g h).1 = 0 := by
  obtain ⟨_, _, _, _, hused, _⟩ := Xilkernel.sys_mbox_new_ok g mbox0 size mail_ok mutex_ok m g1 hnew
  refine ⟨rfl, rfl, rfl, rfl, rfl, rfl, ?_, ?_, ?_⟩
  · simp [Xilkernel.sys_mbox_valid, hused]
  · unfold Xilkernel.sys_mbox_free at hfree
    simp only at hfree
    cases hw : Xilkernel.sem_wait mf.mutex with
    | blocks => simp [hw] at hfree
    | returns p =>
      simp only [hw, Call.returns.injEq] at hfree
      rw [← hfree] at hm1
      simp only [Option.some.injEq] at hm1
      rw [← hm1]
      rfl
  · simp [Xilkernel.sys_sem_valid, Xilkernel.sys_sem_free]

/-- C29, amended, at a concrete input: the handle 4096, a mailbox created
with capacity 5 and freed again. -/
theorem C29_validity_rules_witness :
    FreeRTOS.sys_mbox_valid (FreeRTOS.sys_mbox_set_invalid 4096) = false ∧
    FreeRTOS.sys_sem_valid (FreeRTOS.sys_sem_set_invalid 4096) = false ∧
    UcosIII.sys_mbox_valid (UcosIII.sys_mbox_set_invalid 4096) = false ∧
    UcosIII.sys_sem_valid (UcosIII.sys_sem_set_invalid 4096) = false ∧
    Xilkernel.sys_mbox_valid (Xilkernel.sys_mbox_set_invalid (Xilkernel.new_mbox 5))
      = Xilkernel.sys_mbox_valid (Xilkernel.new_mbox 5) ∧
    Xilkernel.sys_sem_valid (Xilkernel.sys_sem_set_invalid 4096)
      = Xilkernel.sys_sem_valid 4096 ∧
    Xilkernel.sys_mbox_valid (Xilkernel.new_mbox 5) = 1 ∧
    Xilkernel.sys_mbox_valid { Xilkernel.new_mbox 5 with mutex := 0, used := 0 } = 0 ∧
    Xilkernel.sys_sem_valid
      (Xilkernel.sys_sem_free (Xilkernel.sys_init (Xilkernel.boot 1)) 4096).1 = 0 :=
  C29_validity_rules 4096 (Xilkernel.sys_init (Xilkernel.boot 1))
    (Xilkernel.sys_mbox_new (Xilkernel.sys_init (Xilkernel.boot 1)) Xilkernel.zero_mbox 5
      true true).2.2
    (Xilkernel.sys_init (Xilkernel.boot 1))
    Xilkernel.zero_mbox (Xilkernel.new_mbox 5) (Xilkernel.new_mbox 5) 5 true true
    { mbox := some { Xilkernel.new_mbox 5 with mutex := 0, used := 0 }
      g := Xilkernel.sys_init (Xilkernel.boot 1)
      reported := false }
    { Xilkernel.new_mbox 5 with mutex := 0, used := 0 }
    rfl rfl rfl

/-! ## Termination of the xilkernel fetch on an empty mailbox -/

namespace Xilkernel

/-- C30: on a mailbox with `first == last` whose `mail` semaphore holds any
count n and whose mutex is free, with no post during the call,
`sys_arch_mbox_fetch` with a non-zero timeout and `sys_arch_mbox_tryfetch`
return `SYS_ARCH_TIMEOUT`; the wait loop is left through its time-out return
within n + 1 iterations; the count of `mail` is 0 afterwards and `first`,
`last` and everything else in the mailbox are as before. -/
theorem C30_fetch_on_empty_mailbox_terminates (SYS_MSPERTICK : Nat) (clock : Nat → Nat)
    (mbox : sys_mbox_s) (has_msg : Bool) (timeout : Nat)
    (hmutex : mbox.mutex ≠ 0) (heq : mbox.first = mbox.last) (ht : timeout ≠ 0) :
    fetch_loop clock timeout (mbox.mail + 1) 0 { mbox with mutex := mbox.mutex - 1 } 0 0
      = some (LoopExit.timeout { mbox with mail := 0 }) ∧
    sys_arch_mbox_fetch SYS_MSPERTICK clock mbox has_msg timeout
      = some (Call.returns
          { ret := SYS_ARCH_TIMEOUT, msg := none, mbox := { mbox with mail := 0 } }) ∧
    sys_arch_mbox_tryfetch SYS_MSPERTICK clock mbox has_msg
      = some (Call.returns
          { ret := SYS_ARCH_TIMEOUT, msg := none, mbox := { mbox with mail := 0 } }) := by
  refine ⟨?_, fetch_empty_timed SYS_MSPERTICK clock mbox has_msg timeout hmutex heq ht,
    fetch_empty_timed SYS_MSPERTICK clock mbox has_msg 1 hmutex heq (by decide)⟩
  obtain ⟨used, first, last, msgs, mail, mutex⟩ := mbox
  simp only at hmutex heq
  have hm : mutex - 1 + 1 = mutex := by omega
  rw [fetch_loop_empty_timed clock timeout ht (mail + 1) 0 _ 0 0 heq
    (by show mail < mail + 1; omega)]
  simp [hm]

/-- C30 at a concrete input: an empty mailbox with two stale `mail` signals,
timeout 5. -/
theorem C30_fetch_on_empty_mailbox_terminates_witness :
    fetch_loop (fun k => k) 5 (2 + 1) 0
        { used := 1, first := 3, last := 3, msgs := fun i => i + 7, mail := 2, mutex := 0 } 0 0
      = some (LoopExit.timeout
          { used := 1, first := 3, last := 3, msgs := fun i => i + 7, mail := 0, mutex := 1 }) ∧
    sys_arch_mbox_fetch 1 (fun k => k)
        { used := 1, first := 3, last := 3, msgs := fun i => i + 7, mail := 2, mutex := 1 }
        true 5
      = some (Call.returns
          { ret := SYS_ARCH_TIMEOUT, msg := none
            mbox := { used := 1, first := 3, last := 3, msgs := fun i => i + 7,
                      mail := 0, mutex := 1 } }) ∧
    sys_arch_mbox_tryfetch 1 (fun k => k)
        { used := 1, first := 3, last := 3, msgs := fun i => i + 7, mail := 2, mutex := 1 }
        true
      = some (Call.returns
          { ret := SYS_ARCH_TIMEOUT, msg := none
            mbox := { used := 1, first := 3, last := 3, msgs := fun i => i + 7,
                      mail := 0, mutex := 1 } }) :=
  C30_fetch_on_empty_mailbox_terminates 1 (fun k => k)
    { used := 1, first := 3, last := 3, msgs := fun i => i + 7, mail := 2, mutex := 1 }
    true 5 (by decide) rfl (by decide)

end Xilkernel
